import Mathlib

/-!
# Stage laser range-finder: a shallow embedding

Embedding of `CLaserDevice` (laserdevice.cc) and of `laser_update`
(model_laser.c).

Conventions of the embedding
* C `double` values are rationals (`ℚ`), and the arithmetic of the source
  is read twice. The first reading is over the exact rationals; it carries
  the statements about structure, order and bounds, and those that ask for
  exact arithmetic. The second reading, the namespace `Binary64`, rounds
  the result of every operation to the nearest `double` (53-bit
  significand, ties to even); it carries the statements in which the value
  that the machine computes decides (the sample count, the range of a ray).
* C integers are `Int`/`Nat` with explicit wrap-around where a conversion
  to a fixed width happens in the source.
* Loops that may fail to terminate take a fuel argument and return
  `outOfFuel` when it is exhausted.
-/

namespace Stage

/-! ## Machine arithmetic helpers -/

/-- Conversion of a C `double` to a signed integer type: the fractional
part is discarded (truncation toward zero). -/
def truncToInt (x : ℚ) : Int := if 0 ≤ x then ⌊x⌋ else ⌈x⌉

/-- Conversion of an integer to `uint16_t` (value modulo 2^16). -/
def toUInt16 (i : Int) : Nat := (i % 65536).toNat

/-- Conversion of a 16-bit pattern to `int16_t` (two's complement). -/
def toInt16 (n : Nat) : Int :=
  if n % 65536 < 32768 then ((n % 65536 : Nat) : Int) else ((n % 65536 : Nat) : Int) - 65536

/-- Modelled from the spec: `ntohs` of the C library, which is not part of
the sources. The wire format is "big-endian 16-bit fields"; the host is
taken to be little-endian, so the two bytes are exchanged. -/
def ntohs (v : Nat) : Nat := (v % 256) * 256 + (v / 256) % 256

/-- Modelled from the spec: `htons` of the C library (see `ntohs`). -/
def htons (v : Nat) : Nat := (v % 256) * 256 + (v / 256) % 256

/-- The statement `x = ntohs(x)` for a field `x` of type `int16_t`. -/
def ntohsInt16 (i : Int) : Int := toInt16 (ntohs (toUInt16 i))

/-- The constant `M_PI` of math.h: the double nearest to π, which is the
rational 884279719003555 / 2^48. -/
def M_PI : ℚ := 884279719003555 / 281474976710656

/-- Modelled from the spec: the degrees-to-radians macro `DTOR` of stage.h,
which is not part of the sources (the spec gives configuration angles in
degrees and poses in radians). -/
def DTOR (d : ℚ) : ℚ := d * M_PI / 180

/-- Modelled from the spec: the radians-to-degrees macro `RTOD` of stage.h,
which is not part of the sources. -/
def RTOD (r : ℚ) : ℚ := r * 180 / M_PI

/-- Modelled from the spec: `PLAYER_NUM_LASER_SAMPLES`, the number of slots
of `player_laser_data_t::ranges` ("buffer capacity"); the Player header is
not part of the sources. -/
def PLAYER_NUM_LASER_SAMPLES : Nat := 401

/-! ## laserdevice.cc : configuration -/

/-- Modelled from the spec: `player_laser_config_t` of the Player header
("fixed-size, big-endian 16-bit fields: resolution, min angle, max angle,
reflectance-reporting flag"). `resolution` is a `uint16_t`, the two angles
are `int16_t`, `intensity` is a `uint8_t`. -/
structure player_laser_config_t where
  resolution : Nat
  min_angle : Int
  max_angle : Int
  intensity : Nat
  deriving DecidableEq, Repr

/-- The data members of `CLaserDevice` that the constructor initialises. -/
structure CLaserDevice where
  m_update_rate : ℚ
  m_last_update : ℚ
  m_scan_res : ℚ
  m_scan_min : ℚ
  m_scan_max : ℚ
  m_scan_count : Int
  m_intensity : Bool
  m_max_range : ℚ
  m_transparent : Bool
  m_map_dx : ℚ
  m_map_dy : ℚ
  deriving DecidableEq, Repr

/-- The constructor `CLaserDevice::CLaserDevice`. -/
def CLaserDevice.new : CLaserDevice where
  m_update_rate := 360 / (200 / 1000)
  m_last_update := 0
  m_scan_res := DTOR (50 / 100)
  m_scan_min := DTOR (-90)
  m_scan_max := DTOR 90
  m_scan_count := 361
  m_intensity := false
  m_max_range := 8
  m_transparent := false
  m_map_dx := 155 / 1000
  m_map_dy := 155 / 1000

/-- What a call of `CheckConfig` leaves behind: the device, the value
returned, and the messages printed through `PRINT_MSG`. -/
structure CheckResult where
  dev : CLaserDevice
  ret : Bool
  msgs : List String
  deriving DecidableEq, Repr

/-- The method `CLaserDevice::CheckConfig`. The argument `pending` is what `GetConfig`
delivers: `none` when it returns 0 (no request), `some config` otherwise. -/
def CheckConfig (dev : CLaserDevice) (pending : Option player_laser_config_t) : CheckResult :=
  match pending with
  | none => { dev := dev, ret := false, msgs := [] }
  | some config =>
    -- Swap some bytes
    let resolution : Nat := ntohs config.resolution
    let min_angle : Int := ntohsInt16 config.min_angle
    let max_angle : Int := ntohsInt16 config.max_angle
    if resolution = 25 then
      let min_angle := max min_angle (-5000)
      let min_angle := min min_angle 5000
      let max_angle := max max_angle (-5000)
      let max_angle := min max_angle 5000
      let scan_res := DTOR ((resolution : ℚ) / 100)
      let scan_min := DTOR ((min_angle : ℚ) / 100)
      let scan_max := DTOR ((max_angle : ℚ) / 100)
      { dev := { dev with
                  m_scan_res := scan_res
                  m_scan_min := scan_min
                  m_scan_max := scan_max
                  m_scan_count := truncToInt ((scan_max - scan_min) / scan_res) + 1
                  m_intensity := config.intensity != 0 }
        ret := true
        msgs := [] }
    else if resolution = 50 ∨ resolution = 100 then
      let msgs : List String :=
        if |min_angle| > 9000 ∨ |max_angle| > 9000 then
          ["warning: invalid laser configuration request"]
        else []
      let scan_res := DTOR ((resolution : ℚ) / 100)
      let scan_min := DTOR ((min_angle : ℚ) / 100)
      let scan_max := DTOR ((max_angle : ℚ) / 100)
      { dev := { dev with
                  m_scan_res := scan_res
                  m_scan_min := scan_min
                  m_scan_max := scan_max
                  m_scan_count := truncToInt ((scan_max - scan_min) / scan_res) + 1
                  m_intensity := config.intensity != 0 }
        ret := true
        msgs := msgs }
    else
      -- Ignore invalid configurations
      { dev := dev, ret := false, msgs := ["invalid laser configuration request"] }

/-- The clamp of the spec for the fine bucket, in its words: an angle in
centidegrees "clamped into [-5000, +5000]". -/
def specClamp (a : Int) : Int :=
  if a < -5000 then -5000 else if 5000 < a then 5000 else a

/-- The wire image of a request given in host order: what a client puts in
the configuration buffer (`htons` on each 16-bit field). -/
def wireConfig (resolution : Nat) (min_angle max_angle : Int) (intensity : Nat) :
    player_laser_config_t where
  resolution := htons resolution
  min_angle := toInt16 (htons (toUInt16 min_angle))
  max_angle := toInt16 (htons (toUInt16 max_angle))
  intensity := intensity

/-! ## laserdevice.cc : scan generation -/

/-- How a run of the model ends: with a value, in a failed `ASSERT`
(`assert`), or with the fuel of a loop exhausted. -/
inductive Outcome (α : Type) where
  | ok : α → Outcome α
  | assertFailed : Outcome α
  | outOfFuel : Outcome α
  deriving DecidableEq, Repr

/-- The members of `CWorld` that the laser reads: the resolution `ppm`
(pixels per metre), the angular resolution `m_laser_res` of simulated
lasers, and the occupancy lookup `GetCell(px, py, layer_laser)`, which
returns a `uint8_t`. -/
structure CWorld where
  ppm : ℚ
  m_laser_res : ℚ
  GetCell : ℚ → ℚ → Fin 256

/-- The functions `cos` and `sin` of math.h, on the model of `double`. -/
structure LibM where
  cos : ℚ → ℚ
  sin : ℚ → ℚ

/-- The local variables of the ray loop of `GenerateScanData` when it is
left: `range`, the point `(px, py)` and `intensity`. -/
structure RayHit where
  range : ℚ
  px : ℚ
  py : ℚ
  intensity : Nat
  deriving DecidableEq, Repr

/-- The value of `cell` after the three `cell |= GetCell(...)` statements
at the point `(px, py)`. -/
def probeCell (world : CWorld) (dr px py : ℚ) : Nat :=
  (world.GetCell px py).val ||| (world.GetCell (px + dr) py).val |||
    (world.GetCell px (py + dr)).val

/-- The loop `for (range = 0; range < max_range; range += dr)` of
`GenerateScanData`, entered with the given `range`, `px`, `py`; one unit of
fuel pays for one evaluation of the loop condition. -/
def rayLoop (world : CWorld) (dr dx dy max_range : ℚ) : Nat → ℚ → ℚ → ℚ → Option RayHit
  | 0, _, _, _ => none
  | fuel + 1, range, px, py =>
    if range < max_range then
      let cell := probeCell world dr px py
      if cell ≠ 0 then
        -- Check for reflections (ignore the sticky bit)
        some { range := range, px := px, py := py,
               intensity := if cell &&& 0x8F = 2 then 1 else 0 }
      else
        rayLoop world dr dx dy max_range fuel (range + dr) (px + dx) (py + dy)
    else
      some { range := range, px := px, py := py, intensity := 0 }

/-- The value `v` stored for a sample: the range in millimetres as a
`uint16_t`, with the intensity in the top 3 bits when `m_intensity` is
set. -/
def rangeWord (m_intensity : Bool) (range : ℚ) (intensity : Nat) : Nat :=
  let v := toUInt16 (truncToInt (1000 * range))
  if m_intensity then toUInt16 ((v ||| (toUInt16 intensity <<< 13) : Nat) : Int) else v

/-- The ray cast of sample `s` in `GenerateScanData`, for the global pose
`(ox, oy, oth)`: the local variables of the ray loop when it is left. -/
def castRay (libm : LibM) (world : CWorld) (dev : CLaserDevice) (ox oy oth : ℚ)
    (fuel : Nat) (s : Int) : Option RayHit :=
  let dr := 1 / world.ppm
  let max_range := dev.m_max_range
  let bearing := (s : ℚ) * dev.m_scan_res + dev.m_scan_min
  let px := ox
  let py := oy
  let pth := oth + bearing
  let dx := dr * libm.cos pth
  let dy := dr * libm.sin pth
  rayLoop world dr dx dy max_range fuel 0 px py

/-- The part of the body of the scan loop before the stores: the word `v`
of sample `s` and the end point of its ray. -/
def castSample (libm : LibM) (world : CWorld) (dev : CLaserDevice) (ox oy oth : ℚ)
    (fuel : Nat) (s : Int) : Option (Nat × ℚ × ℚ) :=
  match castRay libm world dev ox oy oth fuel s with
  | none => none
  | some hit => some (rangeWord dev.m_intensity hit.range hit.intensity, hit.px, hit.py)

/-- The loop `for (int i = 0; i < skip && s < m_scan_count; i++)
data->ranges[s++] = htons(v);`. The first argument is the number of
iterations `i` has left (`skip - i`); the result is the final `s` and the
stores made, in program order. -/
def skipLoop (count : Int) (w : Nat) : Nat → Int → Int × List (Int × Nat)
  | 0, s => (s, [])
  | n + 1, s =>
    if s < count then
      let r := skipLoop count w n (s + 1)
      (r.1, (s, w) :: r.2)
    else (s, [])

/-- The loop `for (int s = 0; s < m_scan_count;)` of `GenerateScanData`,
entered with the given `s`: the stores `(index, word)` to `data->ranges` in
program order and the points recorded in `expLaser.hitPts`. One unit of
fuel pays for one iteration. -/
def scanLoop (cast : Int → Option (Nat × ℚ × ℚ)) (skip count : Int) :
    Nat → Int → Outcome (List (Int × Nat) × List (ℚ × ℚ))
  | 0, s => if s < count then Outcome.outOfFuel else Outcome.ok ([], [])
  | fuel + 1, s =>
    if s < count then
      match cast s with
      | none => Outcome.outOfFuel
      | some (v, px, py) =>
        -- Set the range, then skip some values to save time
        let r := skipLoop count (htons v) skip.toNat (s + 1)
        match scanLoop cast skip count fuel r.1 with
        | Outcome.ok (ws, hs) => Outcome.ok ((s, htons v) :: (r.2 ++ ws), (px, py) :: hs)
        | Outcome.assertFailed => Outcome.assertFailed
        | Outcome.outOfFuel => Outcome.outOfFuel
    else Outcome.ok ([], [])

/-- Modelled from the spec: `player_laser_data_t` of the Player header
("big-endian 16-bit fields: sampleCount, resolution, minAngle, maxAngle,
followed by range words"). -/
structure player_laser_data_t where
  min_angle : Nat
  max_angle : Nat
  resolution : Nat
  range_count : Nat
  ranges : List Nat
  deriving DecidableEq, Repr

/-- The effect of a sequence of stores `ranges[i] = w` on the array. -/
def applyWrites (ranges : List Nat) (writes : List (Int × Nat)) : List Nat :=
  writes.foldl (fun acc iw => acc.set iw.1.toNat iw.2) ranges

/-- What `GenerateScanData` leaves behind: the packet `*data`, the stores
made to `data->ranges` in program order, and `expLaser.hitPts`. -/
structure ScanOutput where
  data : player_laser_data_t
  writes : List (Int × Nat)
  hitPts : List (ℚ × ℚ)
  deriving DecidableEq, Repr

/-- The method `CLaserDevice::GenerateScanData`, for the global pose `(ox, oy, oth)`
delivered by `GetGlobalPose` and the packet `data` it is handed. `ASSERT`
ends the run when its condition fails; `ARRAYSIZE(data->ranges)` is
`PLAYER_NUM_LASER_SAMPLES`, compared as an `int`. -/
def GenerateScanData (libm : LibM) (world : CWorld) (ox oy oth : ℚ) (dev : CLaserDevice)
    (data : player_laser_data_t) (fuel : Nat) : Outcome ScanOutput :=
  -- See how many scan readings to interpolate
  let skip : Int := truncToInt (world.m_laser_res / dev.m_scan_res - 1 / 2)
  -- Set the header part of the data packet
  let data := { data with
    range_count := htons (toUInt16 dev.m_scan_count)
    resolution := htons (toUInt16 (truncToInt (100 * RTOD dev.m_scan_res)))
    min_angle := htons (toUInt16 (truncToInt (100 * RTOD dev.m_scan_min)))
    max_angle := htons (toUInt16 (truncToInt (100 * RTOD dev.m_scan_max))) }
  -- Make sure the data buffer is big enough
  if dev.m_scan_count ≤ (PLAYER_NUM_LASER_SAMPLES : Int) then
    match scanLoop (castSample libm world dev ox oy oth fuel) skip dev.m_scan_count fuel 0 with
    | Outcome.ok (ws, hs) =>
      Outcome.ok { data := { data with ranges := applyWrites data.ranges ws },
                   writes := ws, hitPts := hs }
    | Outcome.assertFailed => Outcome.assertFailed
    | Outcome.outOfFuel => Outcome.outOfFuel
  else Outcome.assertFailed

/-! ## laserdevice.cc : update -/

/-- The state that `CLaserDevice::Update` works on, besides the members of
`CLaserDevice`: the pose `m_map_px, m_map_py, m_map_pth` at which the
footprint was last drawn, the world, the data buffer of the device as the
last `PutData` left it (`none` before the first one), and the points
`expLaser.hitPts[0 .. hitCount)`. -/
structure LaserState where
  dev : CLaserDevice
  m_map_px : ℚ
  m_map_py : ℚ
  m_map_pth : ℚ
  world : CWorld
  data : Option player_laser_data_t
  hitPts : List (ℚ × ℚ)

/-- The collaborators of `Update` outside the sources, as they answer
during one call: `IsSubscribed()`, `m_world->GetTime()`, `GetConfig` (see
`CheckConfig`), `GetGlobalPose`, the effect of
`SetRectangle(px, py, pth, dx, dy, layer_laser, value)` on the world, and
the contents of the local variable `data` before it is written. -/
structure PlayerEnv where
  IsSubscribed : Bool
  GetTime : ℚ
  GetConfig : Option player_laser_config_t
  GetGlobalPose : ℚ × ℚ × ℚ
  SetRectangle : CWorld → ℚ → ℚ → ℚ → ℚ → ℚ → Nat → CWorld
  stackData : player_laser_data_t

/-- The calls that `Update` makes, in program order: writes of the
footprint to the laser layer, `GenerateScanData` and `PutData`. -/
inductive Event where
  | SetRectangle (px py pth dx dy : ℚ) (value : Nat) : Event
  | GenerateScanData : Event
  | PutData : Event
  deriving DecidableEq, Repr

/-- The method `CLaserDevice::Map`: the new state and the calls made. -/
def Map (env : PlayerEnv) (st : LaserState) (render : Bool) : LaserState × List Event :=
  let dx := st.dev.m_map_dx
  let dy := st.dev.m_map_dy
  if !render then
    -- Remove ourself from the map
    let px := st.m_map_px
    let py := st.m_map_py
    let pth := st.m_map_pth
    ({ st with world := env.SetRectangle st.world px py pth dx dy 0 },
     [Event.SetRectangle px py pth dx dy 0])
  else
    -- Add ourself to the map
    let px := env.GetGlobalPose.1
    let py := env.GetGlobalPose.2.1
    let pth := env.GetGlobalPose.2.2
    ({ st with
        world := env.SetRectangle st.world px py pth dx dy 1
        m_map_px := px
        m_map_py := py
        m_map_pth := pth },
     [Event.SetRectangle px py pth dx dy 1])

/-- How a run of `Update` ends: the state when it returns, or when it is
cut short by a failed `ASSERT` or by the fuel; how it ended; the calls
made. -/
structure UpdateResult where
  state : LaserState
  status : Outcome Unit
  trace : List Event

/-- The part of `CLaserDevice::Update` after `CheckConfig()` in the
subscribed branch: the test of the update interval and the statements it
guards. A failed `ASSERT` in `GenerateScanData` ends the run after
`expLaser.hitCount = 0`. -/
def UpdateScan (libm : LibM) (env : PlayerEnv) (st : LaserState) (fuel : Nat) : UpdateResult :=
  -- Check to see if it is time to update the laser
  let interval : ℚ := (st.dev.m_scan_count : ℚ) / st.dev.m_update_rate
  if env.GetTime - st.dev.m_last_update > interval then
    let st := { st with dev := { st.dev with m_last_update := env.GetTime } }
    -- Generate new scan data and copy to data buffer
    match GenerateScanData libm st.world env.GetGlobalPose.1 env.GetGlobalPose.2.1
        env.GetGlobalPose.2.2 st.dev env.stackData fuel with
    | Outcome.ok out =>
      { state := { st with data := some out.data, hitPts := out.hitPts }
        status := Outcome.ok ()
        trace := [Event.GenerateScanData, Event.PutData] }
    | Outcome.assertFailed =>
      { state := { st with hitPts := [] }
        status := Outcome.assertFailed
        trace := [Event.GenerateScanData] }
    | Outcome.outOfFuel =>
      { state := { st with hitPts := [] }
        status := Outcome.outOfFuel
        trace := [Event.GenerateScanData] }
  else
    { state := st, status := Outcome.ok (), trace := [] }

/-- The two branches of `if (IsSubscribed())` in `CLaserDevice::Update`.
In the branch for no subscriber the `memset` over `expLaser` sets the
recorded hit points to zero. -/
def UpdateBody (libm : LibM) (env : PlayerEnv) (st : LaserState) (fuel : Nat) : UpdateResult :=
  if env.IsSubscribed then
    -- Check to see if the configuration has changed
    let chk := CheckConfig st.dev env.GetConfig
    UpdateScan libm env { st with dev := chk.dev } fuel
  else
    -- If not subscribed, reset configuration to default.
    { state :=
        { st with
          dev := { st.dev with
            m_scan_res := DTOR (50 / 100)
            m_scan_min := DTOR (-90)
            m_scan_max := DTOR 90
            m_scan_count := 361
            m_intensity := false }
          hitPts := st.hitPts.map (fun _ => (0, 0)) }
      status := Outcome.ok ()
      trace := [] }

/-- The method `CLaserDevice::Update` (the pointers `m_server` and
`m_world` are not null). -/
def Update (libm : LibM) (env : PlayerEnv) (st : LaserState) (fuel : Nat) : UpdateResult :=
  -- Undraw ourselves from the world
  let m1 := if !st.dev.m_transparent then Map env st false else (st, [])
  let body := UpdateBody libm env m1.1 fuel
  match body.status with
  | Outcome.ok _ =>
    -- Redraw outselves in the world
    let m2 := if !body.state.dev.m_transparent then Map env body.state true
              else (body.state, [])
    { state := m2.1, status := Outcome.ok (), trace := m1.2 ++ body.trace ++ m2.2 }
  | Outcome.assertFailed =>
    { state := body.state, status := Outcome.assertFailed, trace := m1.2 ++ body.trace }
  | Outcome.outOfFuel =>
    { state := body.state, status := Outcome.outOfFuel, trace := m1.2 ++ body.trace }

/-! ## model_laser.c -/

/-- Modelled from the spec: the enumerators of `stg_laser_return_t` of
stage.h, which is not part of the sources ("reflectivity class:
transparent, opaque, bright", in this order). -/
def LaserTransparent : Int := 0

/-- Modelled from the spec: see `LaserTransparent`. -/
def LaserVisible : Int := 1

/-- Modelled from the spec: see `LaserTransparent`. -/
def LaserBright : Int := 2

/-- The type `stg_pose_t`. -/
structure stg_pose_t where
  x : ℚ
  y : ℚ
  a : ℚ
  deriving DecidableEq, Repr

/-- The fields of `stg_laser_config_t` that `laser_update` reads. -/
structure stg_laser_config_t where
  range_min : ℚ
  range_max : ℚ
  fov : ℚ
  samples : Int
  deriving DecidableEq, Repr

/-- The fields of `stg_model_t` that `laser_update` reads. `id` stands for
the address of the model (pointer equality is equality of `id`); `cfg` is
`none` for a null pointer; `pose` is `geom.pose`. -/
structure stg_model_t where
  id : Nat
  subs : Int
  laser_return : Int
  cfg : Option stg_laser_config_t
  pose : stg_pose_t
  deriving DecidableEq, Repr

/-- The type `stg_laser_sample_t`. -/
structure stg_laser_sample_t where
  range : Nat
  reflectance : Nat
  deriving DecidableEq, Repr

/-- The collaborators of `laser_update` outside the sources:
`stg_model_local_to_global`, `stg_model_is_related`, and the line traversal.
`itl_create x y bearing range_max` is the sequence of results of the
successive calls of `itl_next` on the new cursor, each non-null occupant
paired with the value of `itl->range` when it is returned; after the last
one `itl_next` returns null. -/
structure StgEnv where
  stg_model_local_to_global : stg_model_t → stg_pose_t → stg_pose_t
  stg_model_is_related : stg_model_t → stg_model_t → Bool
  itl_create : ℚ → ℚ → ℚ → ℚ → List (stg_model_t × ℚ)

/-- Conversion of a C `double` to `uint32_t`. -/
def toUInt32 (x : ℚ) : Nat := (truncToInt x % 4294967296).toNat

/-- The loop `while( (hitmod = itl_next( itl )) )` of `laser_update`,
entered with the given `range`: the values of `range` and `hitmod` when it
is left (`hitmod` is `none` for null). -/
def laser_ray (env : StgEnv) (mod : stg_model_t) (range : ℚ) :
    List (stg_model_t × ℚ) → ℚ × Option stg_model_t
  | [] => (range, none)
  | (hitmod, itl_range) :: rest =>
    -- Ignore myself, my children, and my ancestors.
    if hitmod.id = mod.id ∨ env.stg_model_is_related mod hitmod = true then
      laser_ray env mod range rest
    -- Stop looking when we see something
    else if hitmod.laser_return ≠ LaserTransparent then
      (itl_range, some hitmod)
    else
      laser_ray env mod range rest

/-- The body of the sample loop of `laser_update` for the ray at `bearing`
from the global pose `pz`. -/
def laser_sample (env : StgEnv) (mod : stg_model_t) (cfg : stg_laser_config_t)
    (pz : stg_pose_t) (bearing : ℚ) : stg_laser_sample_t :=
  let itl := env.itl_create pz.x pz.y bearing cfg.range_max
  let r := laser_ray env mod cfg.range_max itl
  let range := if r.1 < cfg.range_min then cfg.range_min else r.1
  { range := toUInt32 (range * 1000)
    reflectance :=
      match r.2 with
      | some hitmod => if hitmod.laser_return ≥ LaserBright then 1 else 0
      | none => 0 }

/-- The loop `for( t=0; t<cfg->samples; t++ )` of `laser_update`: the first
argument is the number of iterations left, `bearing` the current value of
the variable. The result is the scan buffer. -/
def laser_scan (env : StgEnv) (mod : stg_model_t) (cfg : stg_laser_config_t)
    (pz : stg_pose_t) (sample_incr : ℚ) : Nat → ℚ → List stg_laser_sample_t
  | 0, _ => []
  | n + 1, bearing =>
    laser_sample env mod cfg pz bearing ::
      laser_scan env mod cfg pz sample_incr n (bearing + sample_incr)

/-- The function `laser_update`: `ok none` when it returns without setting
data (unsubscribed), `ok (some scan)` when it hands `scan` to
`stg_model_set_data`; `assert(cfg)` fails on a null configuration. -/
def laser_update (env : StgEnv) (mod : stg_model_t) :
    Outcome (Option (List stg_laser_sample_t)) :=
  -- no work to do if we're unsubscribed
  if mod.subs < 1 then Outcome.ok none
  else
    match mod.cfg with
    | none => Outcome.assertFailed
    | some cfg =>
      -- get the sensor's pose in global coords
      let pz := env.stg_model_local_to_global mod mod.pose
      let sample_incr := cfg.fov / (cfg.samples : ℚ)
      let bearing := pz.a - cfg.fov / 2
      Outcome.ok (some (laser_scan env mod cfg pz sample_incr cfg.samples.toNat bearing))

/-! ## Vocabulary of the claims -/

/-- The wording "any of the three probes (current point, current point +
dr in x, current point + dr in y) is non-empty" at the point `(px, py)`. -/
def probesNonEmpty (world : CWorld) (dr px py : ℚ) : Prop :=
  world.GetCell px py ≠ 0 ∨ world.GetCell (px + dr) py ≠ 0 ∨ world.GetCell px (py + dr) ≠ 0

instance (world : CWorld) (dr px py : ℚ) : Decidable (probesNonEmpty world dr px py) := by
  unfold probesNonEmpty
  infer_instance

/-- The wording "detectable occupant" of a traversal result: it is neither
the scanning model itself nor related to it, and its `laser_return` is not
`LaserTransparent`. -/
def detectable (env : StgEnv) (mod : stg_model_t) (y : stg_model_t × ℚ) : Bool :=
  decide (y.1.id ≠ mod.id) && !(env.stg_model_is_related mod y.1) &&
    decide (y.1.laser_return ≠ LaserTransparent)

/-- The wording "the first detectable occupant in traversal order", with
the range of the traversal cursor at that occupant. -/
def firstDetectable (env : StgEnv) (mod : stg_model_t) (ys : List (stg_model_t × ℚ)) :
    Option (stg_model_t × ℚ) :=
  ys.find? (detectable env mod)

/-- The wording "equal or related to the sensor" of a traversal result. -/
def selfOrRelated (env : StgEnv) (mod : stg_model_t) (y : stg_model_t × ℚ) : Bool :=
  decide (y.1.id = mod.id) || env.stg_model_is_related mod y.1

/-- The environment in which the line traversal no longer yields the
occupants equal or related to `mod`; everything else is as in `env`. -/
def withoutRelated (env : StgEnv) (mod : stg_model_t) : StgEnv :=
  { env with
    itl_create := fun x y bearing range_max =>
      (env.itl_create x y bearing range_max).filter (fun o => !(selfOrRelated env mod o)) }

/-- The point that the ray of sample `s` has reached after `k` executions
of `px += dx; py += dy`, in exact arithmetic. -/
def rayPoint (libm : LibM) (world : CWorld) (dev : CLaserDevice) (ox oy oth : ℚ) (s : Int)
    (k : Nat) : ℚ × ℚ :=
  (ox + (k : ℚ) * (1 / world.ppm * libm.cos (oth + ((s : ℚ) * dev.m_scan_res + dev.m_scan_min))),
   oy + (k : ℚ) * (1 / world.ppm * libm.sin (oth + ((s : ℚ) * dev.m_scan_res + dev.m_scan_min))))

/-- The variable `skip` of `GenerateScanData`. -/
def scanSkip (world : CWorld) (dev : CLaserDevice) : Int :=
  truncToInt (world.m_laser_res / dev.m_scan_res - 1 / 2)

/-- The wording "carries the reflective marking (cell value 2, with the
sticky bit ignored)" of a cell value. -/
def reflective (c : Fin 256) : Prop := c.val &&& 0x8F = 2

instance (c : Fin 256) : Decidable (reflective c) := by
  unfold reflective
  infer_instance

/-- The wording "any of the three probed cells carries the reflective
marking" at the point `(px, py)`. -/
def anyProbeReflective (world : CWorld) (dr px py : ℚ) : Prop :=
  reflective (world.GetCell px py) ∨ reflective (world.GetCell (px + dr) py) ∨
    reflective (world.GetCell px (py + dr))

instance (world : CWorld) (dr px py : ℚ) : Decidable (anyProbeReflective world dr px py) := by
  unfold anyProbeReflective
  infer_instance

/-- The wording "sticky bits ignored, the cell is empty or carries the
reflective marking" of a cell value. -/
def emptyOrReflective (c : Fin 256) : Prop := c.val &&& 0x8F = 0 ∨ reflective c

instance (c : Fin 256) : Decidable (emptyOrReflective c) := by
  unfold emptyOrReflective
  infer_instance

/-- The wording "each of the three probed cells is, sticky bits ignored,
empty or reflective" at the point `(px, py)`. -/
def allProbesEmptyOrReflective (world : CWorld) (dr px py : ℚ) : Prop :=
  emptyOrReflective (world.GetCell px py) ∧ emptyOrReflective (world.GetCell (px + dr) py) ∧
    emptyOrReflective (world.GetCell px (py + dr))

instance (world : CWorld) (dr px py : ℚ) :
    Decidable (allProbesEmptyOrReflective world dr px py) := by
  unfold allProbesEmptyOrReflective
  infer_instance

/-- The bearing at which the cursor of sample `t` of `laser_update` is
created: the value of `bearing` after `t` executions of
`bearing += sample_incr`. -/
def sampleBearing (env : StgEnv) (mod : stg_model_t) (cfg : stg_laser_config_t) (t : Nat) : ℚ :=
  (env.stg_model_local_to_global mod mod.pose).a - cfg.fov / 2
    + (t : ℚ) * (cfg.fov / (cfg.samples : ℚ))

/-- The wording "publishes" of a run of `Update`: `PutData` is called. -/
def publishes (r : UpdateResult) : Prop := Event.PutData ∈ r.trace

instance (r : UpdateResult) : Decidable (publishes r) := by
  unfold publishes
  infer_instance

/-- The wording "performs a ray cast" of a run of `Update`:
`GenerateScanData` is called. -/
def rayCasts (r : UpdateResult) : Prop := Event.GenerateScanData ∈ r.trace

instance (r : UpdateResult) : Decidable (rayCasts r) := by
  unfold rayCasts
  infer_instance

/-- The wording "removal of the footprint at the previously recorded map
pose": the call `SetRectangle(m_map_px, m_map_py, m_map_pth, m_map_dx,
m_map_dy, layer_laser, 0)` for the members as they are in `st`. -/
def footprintRemoval (st : LaserState) : Event :=
  Event.SetRectangle st.m_map_px st.m_map_py st.m_map_pth st.dev.m_map_dx st.dev.m_map_dy 0

/-- The wording "registration of the footprint at the sensor's current
global pose": the call `SetRectangle(px, py, pth, m_map_dx, m_map_dy,
layer_laser, 1)` for the pose that `GetGlobalPose` delivers. -/
def footprintRegistration (env : PlayerEnv) (st : LaserState) : Event :=
  Event.SetRectangle env.GetGlobalPose.1 env.GetGlobalPose.2.1 env.GetGlobalPose.2.2
    st.dev.m_map_dx st.dev.m_map_dy 1

/-- The wording "footprint write to the laser occupancy layer" of a call. -/
def isFootprintWrite (e : Event) : Bool :=
  match e with
  | Event.SetRectangle _ _ _ _ _ _ => true
  | _ => false

/-- The state in which the two branches of `Update` run for a sensor that
is not transparent: `st` after `Map(false)`. -/
def unmapped (env : PlayerEnv) (st : LaserState) : LaserState :=
  (Map env st false).1

/-! ## Example inputs -/

/-- A `cos`/`sin` pair that is exact at the angle 0, the only angle the
examples below evaluate. -/
def axisLibM : LibM where
  cos := fun t => if t = 0 then 1 else 0
  sin := fun _ => 0

/-- A world without obstacles, of the given resolution. -/
def emptyWorld (ppm : ℚ) : CWorld where
  ppm := ppm
  m_laser_res := DTOR (1 / 2)
  GetCell := fun _ _ => 0

/-- A world of resolution 20 pixels per metre (grid step 0.05 m) that is
solid from x = 5 m on and empty before. -/
def wallWorld : CWorld where
  ppm := 20
  m_laser_res := DTOR (1 / 2)
  GetCell := fun x _ => if 5 ≤ x then 1 else 0

/-- A data packet with all 401 range slots zero. -/
def blankData : player_laser_data_t where
  min_angle := 0
  max_angle := 0
  resolution := 0
  range_count := 0
  ranges := List.replicate PLAYER_NUM_LASER_SAMPLES 0

/-- The traversal results of sample `t` of `laser_update`: the cursor is
created at the global pose, for the bearing after `t` executions of
`bearing += sample_incr`. -/
def sampleYields (env : StgEnv) (mod : stg_model_t) (cfg : stg_laser_config_t) (t : Nat) :
    List (stg_model_t × ℚ) :=
  env.itl_create (env.stg_model_local_to_global mod mod.pose).x
    (env.stg_model_local_to_global mod mod.pose).y
    ((env.stg_model_local_to_global mod mod.pose).a - cfg.fov / 2
      + (t : ℚ) * (cfg.fov / (cfg.samples : ℚ)))
    cfg.range_max

/-- A laser model with one subscriber and the given configuration. -/
def exampleLaser (cfg : stg_laser_config_t) : stg_model_t where
  id := 1
  subs := 1
  laser_return := LaserVisible
  cfg := some cfg
  pose := { x := 0, y := 0, a := 0 }

/-- An occupant with the given identity and `laser_return`. -/
def exampleOccupant (id : Nat) (laser_return : Int) : stg_model_t where
  id := id
  subs := 0
  laser_return := laser_return
  cfg := none
  pose := { x := 0, y := 0, a := 0 }

/-- An environment whose line traversal yields the same results `ys` on
every ray; the model with identity 2 is related to every model, poses are
global already. -/
def exampleEnv (ys : List (stg_model_t × ℚ)) : StgEnv where
  stg_model_local_to_global := fun _ p => p
  stg_model_is_related := fun _ b => decide (b.id = 2)
  itl_create := fun _ _ _ _ => ys

/-- A laser configuration whose `range_min` (2 m) is above its `range_max`
(1 m), with a single sample. -/
def invertedRangeCfg : stg_laser_config_t where
  range_min := 2
  range_max := 1
  fov := 1
  samples := 1

/-- A laser configuration with ranges from 1 m to 8 m and two samples. -/
def twoSampleCfg : stg_laser_config_t where
  range_min := 1
  range_max := 8
  fov := 1
  samples := 2

/-- A traversal that meets, in this order: the sensor itself (identity 1),
a related model (identity 2), a transparent model, a bright model at 5 m
and a visible model at 6 m. -/
def exampleYields : List (stg_model_t × ℚ) :=
  [(exampleOccupant 1 LaserBright, 1 / 10), (exampleOccupant 2 LaserBright, 2 / 10),
   (exampleOccupant 3 LaserTransparent, 3 / 10), (exampleOccupant 4 LaserBright, 5),
   (exampleOccupant 5 LaserVisible, 6)]

/-- A world in which `SetRectangle` leaves the occupancy as it is. -/
def examplePlayerEnv (subscribed : Bool) (time : ℚ) (pending : Option player_laser_config_t) :
    PlayerEnv where
  IsSubscribed := subscribed
  GetTime := time
  GetConfig := pending
  GetGlobalPose := (0, 0, 0)
  SetRectangle := fun w _ _ _ _ _ _ => w
  stackData := blankData

/-- The device fresh from the constructor, in an empty world with grid
step 4 m, nothing published yet. -/
def freshState : LaserState where
  dev := CLaserDevice.new
  m_map_px := 0
  m_map_py := 0
  m_map_pth := 0
  world := emptyWorld (1 / 4)
  data := none
  hitPts := []

/-- A world whose cell at the origin is an ordinary obstacle (value 1) and
whose cell one grid step to the right is reflective (value 2); grid step
1 m. -/
def mixedWorld : CWorld where
  ppm := 1
  m_laser_res := DTOR (1 / 2)
  GetCell := fun x y => if x = 0 ∧ y = 0 then 1 else if x = 1 ∧ y = 0 then 2 else 0

/-- A world whose cell one grid step to the right of the origin is
reflective (value 2, with a sticky bit set: 0x12) and which is empty
elsewhere; grid step 1 m. -/
def mirrorWorld : CWorld where
  ppm := 1
  m_laser_res := DTOR (1 / 2)
  GetCell := fun x y => if x = 1 ∧ y = 0 then 0x12 else 0

/-- A laser configuration with field of view 1 rad and two samples. -/
def headingOneCfg : stg_laser_config_t where
  range_min := 0
  range_max := 8
  fov := 1
  samples := 2

/-- A subscribed laser at heading 1 rad with the configuration
`headingOneCfg`. -/
def headingOneLaser : stg_model_t where
  id := 1
  subs := 1
  laser_return := LaserVisible
  cfg := some headingOneCfg
  pose := { x := 0, y := 0, a := 1 }

/-- An environment whose line traversal yields one visible occupant at a
cursor range equal to the bearing the cursor was created with. -/
def bearingEchoEnv : StgEnv where
  stg_model_local_to_global := fun _ p => p
  stg_model_is_related := fun _ _ => false
  itl_create := fun _ _ bearing _ => [(exampleOccupant 7 LaserVisible, bearing)]

/-- A `cos`/`sin` pair for rays that advance one step in x and `pth` steps
in y per iteration. -/
def slopeLibM : LibM where
  cos := fun _ => 1
  sin := fun t => t

/-- A world with grid step 1 m that is occupied below y = -3.12 and whose
laser resolution is twice the default scan resolution (so that `skip` is 1
for the fresh device). -/
def skipWorld : CWorld where
  ppm := 1
  m_laser_res := 2 * DTOR (1 / 2)
  GetCell := fun _ y => if y < -312 / 100 then 1 else 0

/-- The fresh device with the sample count set to 5. -/
def fiveSampleDevice : CLaserDevice :=
  { CLaserDevice.new with m_scan_count := 5 }

/-- The result of `GenerateScanData` for `fiveSampleDevice` in `skipWorld`
at pose (0, 0, 0), when it returns. -/
def skipScan : ScanOutput :=
  match GenerateScanData slopeLibM skipWorld 0 0 0 fiveSampleDevice blankData 20 with
  | Outcome.ok out => out
  | _ => { data := blankData, writes := [], hitPts := [] }

/-- The fresh state with the sensor marked transparent. -/
def transparentState : LaserState :=
  { freshState with dev := { CLaserDevice.new with m_transparent := true } }

/-! ## Double precision

The definitions above read the arithmetic of the source over the exact
rationals. The namespace `Binary64` reads it the way the machine computes
it: a C `double` is a rational with a 53-bit significand, and every
arithmetic operation of the source is the exact operation followed by
rounding to nearest, ties to even (IEEE 754 binary64, the default rounding
mode), each operation on its own: no fused multiply-add and no extended
precision. The exponent is not bounded: the format agrees with binary64 for
results of magnitude from 2^-1022 up to the largest double; below that
binary64 has subnormal numbers and above it has infinity, which are not
represented here, and neither is the result of a division by zero. For the
requests that `CheckConfig` accepts every intermediate result is 0 or lies
in that range; for the ray loop it does when the world resolution, the
pose and `max_range` are of ordinary magnitude. -/

namespace Binary64

/-- The power `2 ^ e` as a rational, for an integer exponent. -/
def pow2 (e : Int) : ℚ :=
  if 0 ≤ e then ((2 ^ e.toNat : Nat) : ℚ) else 1 / ((2 ^ (-e).toNat : Nat) : ℚ)

/-- The number of halvings that bring `n` below 2, at most `fuel` of them. -/
def log2Aux : Nat → Nat → Nat
  | 0, _ => 0
  | fuel + 1, n => if 2 ≤ n then log2Aux fuel (n / 2) + 1 else 0

/-- The integer part of the binary logarithm of `n`, for `n` at least 1. -/
def ilog2 (n : Nat) : Nat := log2Aux n n

/-- The binary exponent of a non-zero rational `x`: the integer `e` with
`2 ^ e ≤ |x| < 2 ^ (e + 1)`. -/
def exponent (x : ℚ) : Int :=
  let e0 : Int := (ilog2 x.num.natAbs : Int) - (ilog2 x.den : Int)
  if pow2 e0 ≤ |x| then e0 else e0 - 1

/-- Rounding of a rational to the nearest integer, a tie going to the even
neighbour. -/
def roundHalfEven (y : ℚ) : Int :=
  if y - ⌊y⌋ < 1 / 2 then ⌊y⌋
  else if 1 / 2 < y - ⌊y⌋ then ⌊y⌋ + 1
  else if ⌊y⌋ % 2 = 0 then ⌊y⌋ else ⌊y⌋ + 1

/-- Rounding of a real result to a `double`: the nearest rational with a
53-bit significand, ties to even. -/
def rnd (x : ℚ) : ℚ :=
  if x = 0 then 0
  else (roundHalfEven (x / pow2 (exponent x - 52)) : ℚ) * pow2 (exponent x - 52)

/-- The operator `+` on `double`. -/
def fadd (a b : ℚ) : ℚ := rnd (a + b)

/-- The operator `-` on `double`. -/
def fsub (a b : ℚ) : ℚ := rnd (a - b)

/-- The operator `*` on `double`. -/
def fmul (a b : ℚ) : ℚ := rnd (a * b)

/-- The operator `/` on `double`. -/
def fdiv (a b : ℚ) : ℚ := rnd (a / b)

/-- Modelled from the spec: the degrees-to-radians macro `DTOR` of stage.h,
`((d) * M_PI / 180)`, evaluated on `double`. -/
def DTOR (d : ℚ) : ℚ := fdiv (fmul d M_PI) 180

/-- The constructor `CLaserDevice::CLaserDevice`, on `double`; the literals
0.200 and 0.155 denote the nearest `double`. -/
def CLaserDevice.new : CLaserDevice where
  m_update_rate := fdiv 360 (rnd (200 / 1000))
  m_last_update := 0
  m_scan_res := DTOR (rnd (50 / 100))
  m_scan_min := DTOR (-90)
  m_scan_max := DTOR 90
  m_scan_count := 361
  m_intensity := false
  m_max_range := 8
  m_transparent := false
  m_map_dx := rnd (155 / 1000)
  m_map_dy := rnd (155 / 1000)

/-- The method `CLaserDevice::CheckConfig`, on `double`. The argument `pending` is
what `GetConfig` delivers: `none` when it returns 0 (no request),
`some config` otherwise. -/
def CheckConfig (dev : CLaserDevice) (pending : Option player_laser_config_t) : CheckResult :=
  match pending with
  | none => { dev := dev, ret := false, msgs := [] }
  | some config =>
    -- Swap some bytes
    let resolution : Nat := ntohs config.resolution
    let min_angle : Int := ntohsInt16 config.min_angle
    let max_angle : Int := ntohsInt16 config.max_angle
    if resolution = 25 then
      let min_angle := max min_angle (-5000)
      let min_angle := min min_angle 5000
      let max_angle := max max_angle (-5000)
      let max_angle := min max_angle 5000
      let scan_res := DTOR (fdiv (resolution : ℚ) 100)
      let scan_min := DTOR (fdiv (min_angle : ℚ) 100)
      let scan_max := DTOR (fdiv (max_angle : ℚ) 100)
      { dev := { dev with
                  m_scan_res := scan_res
                  m_scan_min := scan_min
                  m_scan_max := scan_max
                  m_scan_count := truncToInt (fdiv (fsub scan_max scan_min) scan_res) + 1
                  m_intensity := config.intensity != 0 }
        ret := true
        msgs := [] }
    else if resolution = 50 ∨ resolution = 100 then
      let msgs : List String :=
        if |min_angle| > 9000 ∨ |max_angle| > 9000 then
          ["warning: invalid laser configuration request"]
        else []
      let scan_res := DTOR (fdiv (resolution : ℚ) 100)
      let scan_min := DTOR (fdiv (min_angle : ℚ) 100)
      let scan_max := DTOR (fdiv (max_angle : ℚ) 100)
      { dev := { dev with
                  m_scan_res := scan_res
                  m_scan_min := scan_min
                  m_scan_max := scan_max
                  m_scan_count := truncToInt (fdiv (fsub scan_max scan_min) scan_res) + 1
                  m_intensity := config.intensity != 0 }
        ret := true
        msgs := msgs }
    else
      -- Ignore invalid configurations
      { dev := dev, ret := false, msgs := ["invalid laser configuration request"] }

/-- The value of `cell` after the three `cell |= GetCell(...)` statements
at the point `(px, py)`, on `double`. -/
def probeCell (world : CWorld) (dr px py : ℚ) : Nat :=
  (world.GetCell px py).val ||| (world.GetCell (fadd px dr) py).val |||
    (world.GetCell px (fadd py dr)).val

/-- The loop `for (range = 0; range < max_range; range += dr)` of
`GenerateScanData`, on `double`, entered with the given `range`, `px`,
`py`; one unit of fuel pays for one evaluation of the loop condition. -/
def rayLoop (world : CWorld) (dr dx dy max_range : ℚ) : Nat → ℚ → ℚ → ℚ → Option RayHit
  | 0, _, _, _ => none
  | fuel + 1, range, px, py =>
    if range < max_range then
      let cell := probeCell world dr px py
      if cell ≠ 0 then
        -- Check for reflections (ignore the sticky bit)
        some { range := range, px := px, py := py,
               intensity := if cell &&& 0x8F = 2 then 1 else 0 }
      else
        rayLoop world dr dx dy max_range fuel (fadd range dr) (fadd px dx) (fadd py dy)
    else
      some { range := range, px := px, py := py, intensity := 0 }

/-- The value `v` stored for a sample, on `double`: `1000.0 * range`
converted to `uint16_t`, with the intensity in the top 3 bits when
`m_intensity` is set. -/
def rangeWord (m_intensity : Bool) (range : ℚ) (intensity : Nat) : Nat :=
  let v := toUInt16 (truncToInt (fmul 1000 range))
  if m_intensity then toUInt16 ((v ||| (toUInt16 intensity <<< 13) : Nat) : Int) else v

/-- The ray cast of sample `s` in `GenerateScanData`, on `double`, for the
global pose `(ox, oy, oth)`: the local variables of the ray loop when it is
left. -/
def castRay (libm : LibM) (world : CWorld) (dev : CLaserDevice) (ox oy oth : ℚ)
    (fuel : Nat) (s : Int) : Option RayHit :=
  let dr := fdiv 1 world.ppm
  let max_range := dev.m_max_range
  let bearing := fadd (fmul (s : ℚ) dev.m_scan_res) dev.m_scan_min
  let px := ox
  let py := oy
  let pth := fadd oth bearing
  let dx := fmul dr (libm.cos pth)
  let dy := fmul dr (libm.sin pth)
  rayLoop world dr dx dy max_range fuel 0 px py

/-- The part of the body of the scan loop before the stores, on `double`:
the word `v` of sample `s` and the end point of its ray. -/
def castSample (libm : LibM) (world : CWorld) (dev : CLaserDevice) (ox oy oth : ℚ)
    (fuel : Nat) (s : Int) : Option (Nat × ℚ × ℚ) :=
  match castRay libm world dev ox oy oth fuel s with
  | none => none
  | some hit => some (rangeWord dev.m_intensity hit.range hit.intensity, hit.px, hit.py)

/-- The value of a variable that starts at `x0` and has `d` added to it
`k` times, on `double`: `range`, `px` and `py` of the ray loop after `k`
iterations. -/
def runningSum (x0 d : ℚ) : Nat → ℚ
  | 0 => x0
  | k + 1 => fadd (runningSum x0 d k) d

/-- The variable `range` of the ray loop after `k` executions of
`range += dr`. -/
def rayRange (world : CWorld) (k : Nat) : ℚ :=
  runningSum 0 (fdiv 1 world.ppm) k

/-- The point `(px, py)` of the ray of sample `s` after `k` executions of
`px += dx; py += dy`. -/
def rayPoint (libm : LibM) (world : CWorld) (dev : CLaserDevice) (ox oy oth : ℚ) (s : Int)
    (k : Nat) : ℚ × ℚ :=
  (runningSum ox
      (fmul (fdiv 1 world.ppm)
        (libm.cos (fadd oth (fadd (fmul (s : ℚ) dev.m_scan_res) dev.m_scan_min)))) k,
   runningSum oy
      (fmul (fdiv 1 world.ppm)
        (libm.sin (fadd oth (fadd (fmul (s : ℚ) dev.m_scan_res) dev.m_scan_min)))) k)

/-- The wording "any of the three probes (current point, current point +
dr in x, current point + dr in y) is non-empty" at the point `(px, py)`,
the sums taken on `double`. -/
def probesNonEmpty (world : CWorld) (dr px py : ℚ) : Prop :=
  world.GetCell px py ≠ 0 ∨ world.GetCell (fadd px dr) py ≠ 0 ∨ world.GetCell px (fadd py dr) ≠ 0

instance (world : CWorld) (dr px py : ℚ) : Decidable (probesNonEmpty world dr px py) := by
  unfold probesNonEmpty
  infer_instance

/-- The variable `skip` of `GenerateScanData`, on `double`:
`(int) (m_world->m_laser_res / m_scan_res - 0.5)`. -/
def scanSkip (world : CWorld) (dev : CLaserDevice) : Int :=
  truncToInt (fsub (fdiv world.m_laser_res dev.m_scan_res) (1 / 2))

/-- The min angle of a request in centidegrees as `CheckConfig` uses it:
after the byte swap and, for the resolution 25, the clamp. -/
def requestMin (config : player_laser_config_t) : Int :=
  if ntohs config.resolution = 25 then min (max (ntohsInt16 config.min_angle) (-5000)) 5000
  else ntohsInt16 config.min_angle

/-- The max angle of a request in centidegrees as `CheckConfig` uses it:
after the byte swap and, for the resolution 25, the clamp. -/
def requestMax (config : player_laser_config_t) : Int :=
  if ntohs config.resolution = 25 then min (max (ntohsInt16 config.max_angle) (-5000)) 5000
  else ntohsInt16 config.max_angle

/-- The quotient that `CheckConfig` converts to the sample count:
`(m_scan_max - m_scan_min) / m_scan_res` on `double`. -/
def spanQuotient (dev : CLaserDevice) : ℚ :=
  fdiv (fsub dev.m_scan_max dev.m_scan_min) dev.m_scan_res

end Binary64

/-! ## Facts about the helpers -/

theorem M_PI_pos : 0 < M_PI := by norm_num [M_PI]

theorem DTOR_le_iff (a b : ℚ) : DTOR a ≤ DTOR b ↔ a ≤ b := by
  unfold DTOR
  have hp := M_PI_pos
  constructor
  · intro h
    have h1 : a * M_PI ≤ b * M_PI := by
      exact (div_le_div_iff_of_pos_right (by norm_num : (0 : ℚ) < 180)).mp h
    exact le_of_mul_le_mul_right h1 hp
  · intro h
    have h1 : a * M_PI ≤ b * M_PI := mul_le_mul_of_nonneg_right h hp.le
    exact (div_le_div_iff_of_pos_right (by norm_num : (0 : ℚ) < 180)).mpr h1

theorem RTOD_DTOR (d : ℚ) : RTOD (DTOR d) = d := by
  unfold RTOD DTOR
  have hp : M_PI ≠ 0 := ne_of_gt M_PI_pos
  field_simp

theorem truncToInt_of_nonneg {x : ℚ} (h : 0 ≤ x) : truncToInt x = ⌊x⌋ := by
  simp [truncToInt, h]

theorem truncToInt_of_neg {x : ℚ} (h : x < 0) : truncToInt x = ⌈x⌉ := by
  simp [truncToInt, not_le.mpr h]

theorem truncToInt_quot_of_lt {a b r : ℚ} (hr : 0 < r) (h : b < a) :
    truncToInt ((b - a) / r) = ⌈(b - a) / r⌉ :=
  truncToInt_of_neg (div_neg_of_neg_of_pos (sub_neg.mpr h) hr)

theorem specClamp_eq (a : Int) : specClamp a = min (max a (-5000)) 5000 := by
  unfold specClamp
  split_ifs with h1 h2
  · rw [max_eq_right (by omega), min_eq_left (by omega)]
  · rw [max_eq_left (by omega), min_eq_right (by omega)]
  · rw [max_eq_left (by omega), min_eq_left (by omega)]

/-- The three ways a call of `CheckConfig` with a request can go. -/
theorem CheckConfig_cases (dev : CLaserDevice) (config : player_laser_config_t) :
    (ntohs config.resolution = 25 ∧
      CheckConfig dev (some config) =
        { dev := { dev with
            m_scan_res := DTOR ((25 : ℚ) / 100)
            m_scan_min := DTOR (((min (max (ntohsInt16 config.min_angle) (-5000)) 5000 : Int) : ℚ) / 100)
            m_scan_max := DTOR (((min (max (ntohsInt16 config.max_angle) (-5000)) 5000 : Int) : ℚ) / 100)
            m_scan_count :=
              truncToInt ((DTOR (((min (max (ntohsInt16 config.max_angle) (-5000)) 5000 : Int) : ℚ) / 100)
                - DTOR (((min (max (ntohsInt16 config.min_angle) (-5000)) 5000 : Int) : ℚ) / 100))
                / DTOR ((25 : ℚ) / 100)) + 1
            m_intensity := config.intensity != 0 }
          ret := true
          msgs := [] }) ∨
    ((ntohs config.resolution = 50 ∨ ntohs config.resolution = 100) ∧
      CheckConfig dev (some config) =
        { dev := { dev with
            m_scan_res := DTOR (((ntohs config.resolution : Nat) : ℚ) / 100)
            m_scan_min := DTOR (((ntohsInt16 config.min_angle : Int) : ℚ) / 100)
            m_scan_max := DTOR (((ntohsInt16 config.max_angle : Int) : ℚ) / 100)
            m_scan_count :=
              truncToInt ((DTOR (((ntohsInt16 config.max_angle : Int) : ℚ) / 100)
                - DTOR (((ntohsInt16 config.min_angle : Int) : ℚ) / 100))
                / DTOR (((ntohs config.resolution : Nat) : ℚ) / 100)) + 1
            m_intensity := config.intensity != 0 }
          ret := true
          msgs := if |ntohsInt16 config.min_angle| > 9000 ∨ |ntohsInt16 config.max_angle| > 9000
                  then ["warning: invalid laser configuration request"] else [] }) ∨
    (ntohs config.resolution ≠ 25 ∧ ntohs config.resolution ≠ 50 ∧
      ntohs config.resolution ≠ 100 ∧
      CheckConfig dev (some config) =
        { dev := dev, ret := false, msgs := ["invalid laser configuration request"] })
    := by
  by_cases h25 : ntohs config.resolution = 25
  · left
    refine ⟨h25, ?_⟩
    simp [CheckConfig, h25]
  · by_cases h2 : ntohs config.resolution = 50 ∨ ntohs config.resolution = 100
    · right; left
      refine ⟨h2, ?_⟩
      simp only [CheckConfig, h25, if_false, h2, if_true]
    · right; right
      push_neg at h2
      refine ⟨h25, h2.1, h2.2, ?_⟩
      simp [CheckConfig, h25, h2.1, h2.2]

/-- C2. For every request whose resolution (in host order) is not 25, 50
or 100, `CheckConfig` returns false, prints the rejection, and leaves the
device unchanged: angular resolution, min angle, max angle, sample count
and the reflectance flag keep their previous values. -/
theorem C2_reject_unrecognised_resolution (dev : CLaserDevice) (config : player_laser_config_t)
    (h25 : ntohs config.resolution ≠ 25) (h50 : ntohs config.resolution ≠ 50)
    (h100 : ntohs config.resolution ≠ 100) :
    (CheckConfig dev (some config)).ret = false ∧
    (CheckConfig dev (some config)).msgs = ["invalid laser configuration request"] ∧
    (CheckConfig dev (some config)).dev = dev ∧
    (CheckConfig dev (some config)).dev.m_scan_res = dev.m_scan_res ∧
    (CheckConfig dev (some config)).dev.m_scan_min = dev.m_scan_min ∧
    (CheckConfig dev (some config)).dev.m_scan_max = dev.m_scan_max ∧
    (CheckConfig dev (some config)).dev.m_scan_count = dev.m_scan_count ∧
    (CheckConfig dev (some config)).dev.m_intensity = dev.m_intensity := by
  rcases CheckConfig_cases dev config with ⟨hr, _⟩ | ⟨hr, _⟩ | ⟨_, _, _, e⟩
  · exact absurd hr h25
  · rcases hr with hr | hr
    · exact absurd hr h50
    · exact absurd hr h100
  · rw [e]
    exact ⟨rfl, rfl, rfl, rfl, rfl, rfl, rfl, rfl⟩

/-- Witness for C2: a request with resolution 75 (and the intensity flag
set) on a device configured to resolution 25. -/
theorem C2_reject_unrecognised_resolution_witness :
    (CheckConfig (CheckConfig CLaserDevice.new (some (wireConfig 25 (-3000) 4000 0))).dev
        (some (wireConfig 75 (-100) 100 1))).ret = false ∧
    (CheckConfig (CheckConfig CLaserDevice.new (some (wireConfig 25 (-3000) 4000 0))).dev
        (some (wireConfig 75 (-100) 100 1))).dev
      = (CheckConfig CLaserDevice.new (some (wireConfig 25 (-3000) 4000 0))).dev :=
  ⟨(C2_reject_unrecognised_resolution
      (CheckConfig CLaserDevice.new (some (wireConfig 25 (-3000) 4000 0))).dev
      (wireConfig 75 (-100) 100 1) (by decide) (by decide) (by decide)).1,
   (C2_reject_unrecognised_resolution
      (CheckConfig CLaserDevice.new (some (wireConfig 25 (-3000) 4000 0))).dev
      (wireConfig 75 (-100) 100 1) (by decide) (by decide) (by decide)).2.2.1⟩

/-- C3. For every request with resolution 25 (in host order), `CheckConfig`
accepts and stores as min and max angle the requested values clamped into
[-5000, +5000] centidegrees (converted to radians); the stored values read
back in centidegrees are the clamped values. -/
theorem C3_fine_bucket_clamps (dev : CLaserDevice) (config : player_laser_config_t)
    (h : ntohs config.resolution = 25) :
    (CheckConfig dev (some config)).ret = true ∧
    (CheckConfig dev (some config)).dev.m_scan_min
      = DTOR (((specClamp (ntohsInt16 config.min_angle) : Int) : ℚ) / 100) ∧
    (CheckConfig dev (some config)).dev.m_scan_max
      = DTOR (((specClamp (ntohsInt16 config.max_angle) : Int) : ℚ) / 100) ∧
    100 * RTOD (CheckConfig dev (some config)).dev.m_scan_min
      = ((specClamp (ntohsInt16 config.min_angle) : Int) : ℚ) ∧
    100 * RTOD (CheckConfig dev (some config)).dev.m_scan_max
      = ((specClamp (ntohsInt16 config.max_angle) : Int) : ℚ) := by
  rcases CheckConfig_cases dev config with ⟨_, e⟩ | ⟨hr, _⟩ | ⟨h25, _⟩
  · rw [e]
    refine ⟨rfl, ?_, ?_, ?_, ?_⟩
    · show DTOR _ = DTOR _
      rw [specClamp_eq]
    · show DTOR _ = DTOR _
      rw [specClamp_eq]
    · show 100 * RTOD (DTOR _) = _
      rw [RTOD_DTOR, specClamp_eq]; ring
    · show 100 * RTOD (DTOR _) = _
      rw [RTOD_DTOR, specClamp_eq]; ring
  · rcases hr with hr | hr <;> rw [h] at hr <;> exact absurd hr (by decide)
  · exact absurd h h25

/-- Witness for C3: at resolution 25 a requested minAngle of -9000 is
stored as -5000 centidegrees (and a requested maxAngle of 9000 as 5000). -/
theorem C3_fine_bucket_clamps_witness :
    ntohsInt16 (wireConfig 25 (-9000) 9000 0).min_angle = -9000 ∧
    (CheckConfig CLaserDevice.new (some (wireConfig 25 (-9000) 9000 0))).dev.m_scan_min
      = DTOR ((-5000 : ℚ) / 100) ∧
    (CheckConfig CLaserDevice.new (some (wireConfig 25 (-9000) 9000 0))).dev.m_scan_max
      = DTOR ((5000 : ℚ) / 100) := by
  have h := C3_fine_bucket_clamps CLaserDevice.new (wireConfig 25 (-9000) 9000 0) (by decide)
  have e1 : ntohsInt16 (wireConfig 25 (-9000) 9000 0).min_angle = -9000 := by decide
  have e2 : ntohsInt16 (wireConfig 25 (-9000) 9000 0).max_angle = 9000 := by decide
  rw [e1, e2] at h
  refine ⟨e1, ?_, ?_⟩
  · rw [h.2.1]; norm_num [specClamp]
  · rw [h.2.2.1]; norm_num [specClamp]

/-- C4. For every request with resolution 50 or 100 (in host order),
`CheckConfig` accepts and stores the requested min and max angles as given
(converted to radians), whatever their magnitude; the stored values read
back in centidegrees are the requested values. A warning, and nothing more,
is printed exactly when one of them exceeds 9000 in absolute value. -/
theorem C4_coarse_buckets_keep_angles (dev : CLaserDevice) (config : player_laser_config_t)
    (h : ntohs config.resolution = 50 ∨ ntohs config.resolution = 100) :
    (CheckConfig dev (some config)).ret = true ∧
    (CheckConfig dev (some config)).dev.m_scan_min
      = DTOR (((ntohsInt16 config.min_angle : Int) : ℚ) / 100) ∧
    (CheckConfig dev (some config)).dev.m_scan_max
      = DTOR (((ntohsInt16 config.max_angle : Int) : ℚ) / 100) ∧
    100 * RTOD (CheckConfig dev (some config)).dev.m_scan_min
      = ((ntohsInt16 config.min_angle : Int) : ℚ) ∧
    100 * RTOD (CheckConfig dev (some config)).dev.m_scan_max
      = ((ntohsInt16 config.max_angle : Int) : ℚ) ∧
    (CheckConfig dev (some config)).msgs
      = (if 9000 < |ntohsInt16 config.min_angle| ∨ 9000 < |ntohsInt16 config.max_angle|
         then ["warning: invalid laser configuration request"] else []) := by
  rcases CheckConfig_cases dev config with ⟨h25, _⟩ | ⟨_, e⟩ | ⟨_, h50, h100, _⟩
  · rcases h with hr | hr <;> rw [h25] at hr <;> exact absurd hr (by decide)
  · rw [e]
    refine ⟨rfl, rfl, rfl, ?_, ?_, rfl⟩
    · show 100 * RTOD (DTOR _) = _
      rw [RTOD_DTOR]; ring
    · show 100 * RTOD (DTOR _) = _
      rw [RTOD_DTOR]; ring
  · rcases h with hr | hr
    · exact absurd hr h50
    · exact absurd hr h100

/-- Witness for C4: at resolution 50 the requested angles -12000 and -9000
are stored unclamped. -/
theorem C4_coarse_buckets_keep_angles_witness :
    ntohsInt16 (wireConfig 50 (-12000) (-9000) 0).min_angle = -12000 ∧
    ntohsInt16 (wireConfig 50 (-12000) (-9000) 0).max_angle = -9000 ∧
    (CheckConfig CLaserDevice.new (some (wireConfig 50 (-12000) (-9000) 0))).dev.m_scan_min
      = DTOR ((-12000 : ℚ) / 100) ∧
    (CheckConfig CLaserDevice.new (some (wireConfig 50 (-12000) (-9000) 0))).dev.m_scan_max
      = DTOR ((-9000 : ℚ) / 100) := by
  have h := C4_coarse_buckets_keep_angles CLaserDevice.new (wireConfig 50 (-12000) (-9000) 0)
    (Or.inl (by decide))
  have e1 : ntohsInt16 (wireConfig 50 (-12000) (-9000) 0).min_angle = -12000 := by decide
  have e2 : ntohsInt16 (wireConfig 50 (-12000) (-9000) 0).max_angle = -9000 := by decide
  rw [e1, e2] at h
  refine ⟨e1, e2, ?_, ?_⟩
  · rw [h.2.1]; norm_num
  · rw [h.2.2.1]; norm_num

/-- C5, the code at the failing input. From the constructor defaults the
request resolution 50, minAngle -12000, maxAngle +12000 is accepted (with
a warning) and stores the sample count 481, above the 401 slots of the
range array, while the resolution stays positive; `GenerateScanData` on
that state ends in its `ASSERT`. -/
theorem C5_capacity_exceeded_after_CheckConfig (libm : LibM) (world : CWorld) (ox oy oth : ℚ)
    (data : player_laser_data_t) (fuel : Nat) :
    (CheckConfig CLaserDevice.new (some (wireConfig 50 (-12000) 12000 0))).ret = true ∧
    (CheckConfig CLaserDevice.new (some (wireConfig 50 (-12000) 12000 0))).msgs
      = ["warning: invalid laser configuration request"] ∧
    0 < (CheckConfig CLaserDevice.new (some (wireConfig 50 (-12000) 12000 0))).dev.m_scan_res ∧
    (CheckConfig CLaserDevice.new (some (wireConfig 50 (-12000) 12000 0))).dev.m_scan_count = 481 ∧
    ¬ ((CheckConfig CLaserDevice.new (some (wireConfig 50 (-12000) 12000 0))).dev.m_scan_count
        ≤ (PLAYER_NUM_LASER_SAMPLES : Int)) ∧
    GenerateScanData libm world ox oy oth
      (CheckConfig CLaserDevice.new (some (wireConfig 50 (-12000) 12000 0))).dev data fuel
      = Outcome.assertFailed := by
  have hc : (CheckConfig CLaserDevice.new (some (wireConfig 50 (-12000) 12000 0))).dev.m_scan_count
      = 481 := by decide!
  refine ⟨by decide!, by decide!, by decide!, hc, by rw [hc]; decide, ?_⟩
  unfold GenerateScanData
  simp only [hc]
  rw [if_neg (by decide)]

/-! ## Facts about the scan loops -/

theorem lor_eq_zero (a b : Nat) : a ||| b = 0 ↔ a = 0 ∧ b = 0 := by
  constructor
  · intro h
    constructor
    · apply Nat.eq_of_testBit_eq
      intro i
      have := congrArg (fun n => n.testBit i) h
      simp only [Nat.testBit_or, Nat.zero_testBit, Bool.or_eq_false_iff] at this
      simp [this.1]
    · apply Nat.eq_of_testBit_eq
      intro i
      have := congrArg (fun n => n.testBit i) h
      simp only [Nat.testBit_or, Nat.zero_testBit, Bool.or_eq_false_iff] at this
      simp [this.2]
  · rintro ⟨rfl, rfl⟩
    rfl

theorem probeCell_ne_zero_iff (world : CWorld) (dr px py : ℚ) :
    probeCell world dr px py ≠ 0 ↔ probesNonEmpty world dr px py := by
  unfold probeCell probesNonEmpty
  have hv : ∀ c : Fin 256, c.val = 0 ↔ c = 0 := fun c =>
    ⟨fun h => Fin.ext (by rw [h]; simp), fun h => by rw [h]; simp⟩
  rw [Ne, lor_eq_zero, lor_eq_zero, hv, hv, hv]
  constructor
  · intro h
    by_contra hn
    simp only [not_or, not_not] at hn
    exact h ⟨⟨hn.1, hn.2.1⟩, hn.2.2⟩
  · rintro h ⟨⟨h1, h2⟩, h3⟩
    rcases h with h | h | h
    · exact h h1
    · exact h h2
    · exact h h3

/-- Executing `k` iterations of the ray loop that neither leave the range
nor hit anything. -/
theorem rayLoop_steps (world : CWorld) (dr dx dy max_range : ℚ) (k : Nat) :
    ∀ (fuel : Nat) (range px py : ℚ),
      (∀ j : Nat, j < k → range + j * dr < max_range ∧
        probeCell world dr (px + j * dx) (py + j * dy) = 0) →
      rayLoop world dr dx dy max_range (fuel + k) range px py
        = rayLoop world dr dx dy max_range fuel (range + k * dr) (px + k * dx) (py + k * dy) := by
  induction k with
  | zero => intro fuel range px py _; simp
  | succ n ih =>
    intro fuel range px py h
    have h0 := h 0 (Nat.succ_pos n)
    simp only [Nat.cast_zero, zero_mul, add_zero] at h0
    have hstep : rayLoop world dr dx dy max_range (fuel + n + 1) range px py
        = rayLoop world dr dx dy max_range (fuel + n) (range + dr) (px + dx) (py + dy) := by
      rw [rayLoop]
      simp [h0.1, h0.2]
    rw [← Nat.add_assoc, hstep, ih]
    · congr 1 <;> push_cast <;> ring
    · intro j hj
      have := h (j + 1) (Nat.succ_lt_succ hj)
      push_cast at this
      constructor
      · have h1 := this.1; linarith
      · have h2 := this.2
        have e1 : px + dx + j * dx = px + (j + 1) * dx := by ring
        have e2 : py + dy + j * dy = py + (j + 1) * dy := by ring
        rw [e1, e2]; exact h2

/-- The ray loop stops at the first step whose probes are non-empty. -/
theorem rayLoop_hit (world : CWorld) (dr dx dy max_range : ℚ) (k fuel : Nat) (px py : ℚ)
    (hfree : ∀ j : Nat, j < k → j * dr < max_range ∧
      probeCell world dr (px + j * dx) (py + j * dy) = 0)
    (hin : k * dr < max_range)
    (hhit : probeCell world dr (px + k * dx) (py + k * dy) ≠ 0)
    (hfuel : k < fuel) :
    rayLoop world dr dx dy max_range fuel 0 px py
      = some { range := k * dr, px := px + k * dx, py := py + k * dy,
               intensity :=
                 if probeCell world dr (px + k * dx) (py + k * dy) &&& 0x8F = 2 then 1 else 0 } := by
  obtain ⟨m, rfl⟩ : ∃ m, fuel = (m + 1) + k := ⟨fuel - k - 1, by omega⟩
  rw [rayLoop_steps world dr dx dy max_range k (m + 1) 0 px py
    (by intro j hj; simpa using hfree j hj)]
  rw [rayLoop]
  simp [hin, hhit]

/-- With no probe ever non-empty the ray loop runs until `range` reaches
`max_range`. -/
theorem rayLoop_miss (world : CWorld) (dr dx dy max_range : ℚ) (fuel : Nat) (px py : ℚ)
    (hdr : 0 < dr)
    (hfree : ∀ j : Nat, j * dr < max_range →
      probeCell world dr (px + j * dx) (py + j * dy) = 0)
    (hfuel : ⌈max_range / dr⌉₊ < fuel) :
    rayLoop world dr dx dy max_range fuel 0 px py
      = some { range := ⌈max_range / dr⌉₊ * dr, px := px + ⌈max_range / dr⌉₊ * dx,
               py := py + ⌈max_range / dr⌉₊ * dy, intensity := 0 } := by
  obtain ⟨m, rfl⟩ : ∃ m, fuel = (m + 1) + ⌈max_range / dr⌉₊ :=
    ⟨fuel - ⌈max_range / dr⌉₊ - 1, by omega⟩
  have hlt : ∀ j : Nat, j < ⌈max_range / dr⌉₊ → (j : ℚ) * dr < max_range := by
    intro j hj
    have := Nat.lt_ceil.mp hj
    exact (lt_div_iff₀ hdr).mp this
  rw [rayLoop_steps world dr dx dy max_range _ (m + 1) 0 px py
    (by intro j hj; simpa using ⟨hlt j hj, hfree j (hlt j hj)⟩)]
  rw [rayLoop]
  have hge : ¬ ((0 : ℚ) + ⌈max_range / dr⌉₊ * dr < max_range) := by
    rw [zero_add, not_lt]
    have := Nat.le_ceil (max_range / dr)
    exact (div_le_iff₀ hdr).mp this
  rw [if_neg hge]
  simp

/-- The ray loop ends once the fuel exceeds the number of steps to
`max_range`. -/
theorem rayLoop_isSome (world : CWorld) (dr dx dy max_range : ℚ) (hdr : 0 < dr) :
    ∀ (fuel : Nat) (range px py : ℚ), ⌈(max_range - range) / dr⌉₊ < fuel →
      (rayLoop world dr dx dy max_range fuel range px py).isSome = true := by
  intro fuel
  induction fuel with
  | zero => intro range px py h; exact absurd h (Nat.not_lt_zero _)
  | succ n ih =>
    intro range px py h
    rw [rayLoop]
    by_cases hr : range < max_range
    · rw [if_pos hr]
      by_cases hc : probeCell world dr px py ≠ 0
      · simp [hc]
      · simp only [hc, if_false]
        apply ih
        have hpos : 0 < (max_range - range) / dr := div_pos (sub_pos.mpr hr) hdr
        have e : (max_range - (range + dr)) / dr = (max_range - range) / dr - 1 := by
          field_simp
          ring
        rw [e]
        have h1 : 0 < ⌈(max_range - range) / dr⌉₊ := Nat.ceil_pos.mpr hpos
        obtain ⟨m, rfl⟩ : ∃ m, n = m + 1 := ⟨n - 1, by omega⟩
        have h2 : (max_range - range) / dr ≤ ((m + 1 : Nat) : ℚ) :=
          Nat.ceil_le.mp (Nat.lt_succ_iff.mp h)
        have h3 : ⌈(max_range - range) / dr - 1⌉₊ ≤ m := by
          apply Nat.ceil_le.mpr
          push_cast at h2
          linarith
        omega
    · simp [hr]

theorem castRay_isSome (libm : LibM) (world : CWorld) (dev : CLaserDevice) (ox oy oth : ℚ)
    (hppm : 0 < world.ppm) (fuel : Nat) (s : Int)
    (hfuel : ⌈dev.m_max_range * world.ppm⌉₊ < fuel) :
    (castRay libm world dev ox oy oth fuel s).isSome = true := by
  unfold castRay
  apply rayLoop_isSome _ _ _ _ _ (by positivity)
  simpa using hfuel

theorem castSample_isSome (libm : LibM) (world : CWorld) (dev : CLaserDevice) (ox oy oth : ℚ)
    (hppm : 0 < world.ppm) (fuel : Nat) (s : Int)
    (hfuel : ⌈dev.m_max_range * world.ppm⌉₊ < fuel) :
    (castSample libm world dev ox oy oth fuel s).isSome = true := by
  have h := castRay_isSome libm world dev ox oy oth hppm fuel s hfuel
  unfold castSample
  cases hc : castRay libm world dev ox oy oth fuel s with
  | none => rw [hc] at h; simp at h
  | some hit => simp

/-- The indices `s, s + 1, ..., s + k - 1`. -/
theorem idxFrom_succ (s : Int) (k : Nat) :
    (List.range (k + 1)).map (fun j : Nat => s + (j : Int))
      = s :: (List.range k).map (fun j : Nat => (s + 1) + (j : Int)) := by
  rw [List.range_succ_eq_map, List.map_cons, List.map_map]
  simp only [Nat.cast_zero, add_zero, List.cons.injEq, true_and]
  apply List.map_congr_left
  intro j _
  simp only [Function.comp, Nat.succ_eq_add_one, Nat.cast_add, Nat.cast_one]
  ring

theorem idxFrom_add (s : Int) (a b : Nat) :
    (List.range (a + b)).map (fun j : Nat => s + (j : Int))
      = (List.range a).map (fun j : Nat => s + (j : Int))
        ++ (List.range b).map (fun j : Nat => (s + a) + (j : Int)) := by
  rw [List.range_add, List.map_append, List.map_map]
  congr 1
  apply List.map_congr_left
  intro j _
  simp only [Function.comp, Nat.cast_add]
  ring

/-- The skip loop stores at consecutive indices from `s` on, always the
same word, and stops at `count` at the latest. -/
theorem skipLoop_spec (count : Int) (w : Nat) :
    ∀ (n : Nat) (s : Int),
      (skipLoop count w n s).1 = s + ((skipLoop count w n s).2.length : Int) ∧
      (skipLoop count w n s).2.map Prod.fst
        = (List.range (skipLoop count w n s).2.length).map (fun j : Nat => s + (j : Int)) ∧
      (s ≤ count → (skipLoop count w n s).1 ≤ count) ∧
      (skipLoop count w n s).2.length ≤ n ∧
      (∀ p ∈ (skipLoop count w n s).2, p.2 = w) := by
  intro n
  induction n with
  | zero => intro s; simp [skipLoop]
  | succ n ih =>
    intro s
    rw [skipLoop]
    by_cases h : s < count
    · rw [if_pos h]
      obtain ⟨h1, h2, h3, h4, h5⟩ := ih (s + 1)
      refine ⟨?_, ?_, ?_, ?_, ?_⟩
      · simp only [List.length_cons, Nat.cast_add, Nat.cast_one]
        rw [h1]; ring
      · simp only [List.length_cons, List.map_cons]
        rw [idxFrom_succ, h2]
      · intro _; exact h3 (by omega)
      · simp only [List.length_cons]; omega
      · intro p hp
        rcases List.mem_cons.mp hp with rfl | hp
        · rfl
        · exact h5 p hp
    · rw [if_neg h]
      simp

/-- Whenever the scan loop ends normally, its stores went to the indices
`s, ..., count - 1`, once each and in this order. -/
theorem scanLoop_writes (cast : Int → Option (Nat × ℚ × ℚ)) (skip count : Int) :
    ∀ (fuel : Nat) (s : Int) (ws : List (Int × Nat)) (hs : List (ℚ × ℚ)),
      scanLoop cast skip count fuel s = Outcome.ok (ws, hs) →
      ws.map Prod.fst = (List.range (count - s).toNat).map (fun j : Nat => s + (j : Int)) := by
  intro fuel
  induction fuel with
  | zero =>
    intro s ws hs h
    rw [scanLoop] at h
    by_cases hlt : s < count
    · rw [if_pos hlt] at h; cases h
    · rw [if_neg hlt] at h
      cases h
      have : (count - s).toNat = 0 := by omega
      rw [this]; rfl
  | succ n ih =>
    intro s ws hs h
    rw [scanLoop] at h
    by_cases hlt : s < count
    · rw [if_pos hlt] at h
      cases hc : cast s with
      | none => rw [hc] at h; cases h
      | some vp =>
        obtain ⟨v, px, py⟩ := vp
        rw [hc] at h
        simp only at h
        obtain ⟨h1, h2, h3, _, _⟩ := skipLoop_spec count (htons v) skip.toNat (s + 1)
        cases hr : scanLoop cast skip count n (skipLoop count (htons v) skip.toNat (s + 1)).1 with
        | assertFailed => rw [hr] at h; cases h
        | outOfFuel => rw [hr] at h; cases h
        | ok p =>
          obtain ⟨ws', hs'⟩ := p
          rw [hr] at h
          simp only [Outcome.ok.injEq, Prod.mk.injEq] at h
          have hw := ih _ _ _ hr
          have hle := h3 (by omega)
          rw [← h.1, List.map_cons, List.map_append, h2, hw]
          have hk : (count - s).toNat
              = ((skipLoop count (htons v) skip.toNat (s + 1)).2.length
                + (count - (skipLoop count (htons v) skip.toNat (s + 1)).1).toNat) + 1 := by
            omega
          rw [hk, idxFrom_succ, idxFrom_add, h1]
    · rw [if_neg hlt] at h
      cases h
      have : (count - s).toNat = 0 := by omega
      rw [this]; rfl

/-- With a ray cast that always returns, the scan loop ends normally once
the fuel covers the indices left. -/
theorem scanLoop_ok (cast : Int → Option (Nat × ℚ × ℚ)) (skip count : Int)
    (hcast : ∀ i, (cast i).isSome = true) :
    ∀ (fuel : Nat) (s : Int), (count - s).toNat ≤ fuel →
      ∃ ws hs, scanLoop cast skip count fuel s = Outcome.ok (ws, hs) := by
  intro fuel
  induction fuel with
  | zero =>
    intro s h
    rw [scanLoop, if_neg (by omega)]
    exact ⟨_, _, rfl⟩
  | succ n ih =>
    intro s h
    rw [scanLoop]
    by_cases hlt : s < count
    · rw [if_pos hlt]
      have hsome := hcast s
      cases hc : cast s with
      | none => rw [hc] at hsome; simp at hsome
      | some vp =>
        obtain ⟨v, px, py⟩ := vp
        obtain ⟨h1, _, _, _, _⟩ := skipLoop_spec count (htons v) skip.toNat (s + 1)
        obtain ⟨ws', hs', hr⟩ := ih (skipLoop count (htons v) skip.toNat (s + 1)).1 (by omega)
        simp only [hr]
        exact ⟨_, _, rfl⟩
    · rw [if_neg hlt]
      exact ⟨_, _, rfl⟩

theorem ntohs_htons (n : Nat) (h : n < 65536) : ntohs (htons n) = n := by
  unfold ntohs htons
  have hr : n % 256 < 256 := Nat.mod_lt _ (by decide)
  have hq : n / 256 < 256 := by omega
  have hn : n = 256 * (n / 256) + n % 256 := (Nat.div_add_mod n 256).symm
  generalize n / 256 = q at hq hn ⊢
  generalize n % 256 = r at hr hn ⊢
  have e0 : q % 256 = q := Nat.mod_eq_of_lt hq
  have e1 : (r * 256 + q) % 256 = q := by omega
  have e2 : (r * 256 + q) / 256 = r := by omega
  have e3 : r % 256 = r := Nat.mod_eq_of_lt hr
  rw [e0, e1, e2, e3, hn]
  ring

theorem toUInt16_of_range (i : Int) (h0 : 0 ≤ i) (h1 : i < 65536) :
    toUInt16 i = i.toNat := by
  unfold toUInt16
  rw [Int.emod_eq_of_lt h0 h1]

theorem toUInt16_lt (i : Int) : toUInt16 i < 65536 := by
  unfold toUInt16
  have := Int.emod_lt_of_pos i (by decide : (0 : Int) < 65536)
  have := Int.emod_nonneg i (by decide : (65536 : Int) ≠ 0)
  omega

theorem rangeWord_intensity_zero (m_intensity : Bool) (range : ℚ) :
    rangeWord m_intensity range 0 = toUInt16 (truncToInt (1000 * range)) := by
  unfold rangeWord
  cases m_intensity with
  | false => simp
  | true =>
    have hlt := toUInt16_lt (truncToInt (1000 * range))
    have h0 : toUInt16 ((0 : Nat) : Int) = 0 := by decide
    simp only [if_true, h0, Nat.zero_shiftLeft, Nat.or_zero]
    rw [toUInt16_of_range _ (by omega) (by omega)]
    simp

theorem castRay_eq_rayLoop (libm : LibM) (world : CWorld) (dev : CLaserDevice) (ox oy oth : ℚ)
    (fuel : Nat) (s : Int) :
    castRay libm world dev ox oy oth fuel s
      = rayLoop world (1 / world.ppm)
          (1 / world.ppm * libm.cos (oth + ((s : ℚ) * dev.m_scan_res + dev.m_scan_min)))
          (1 / world.ppm * libm.sin (oth + ((s : ℚ) * dev.m_scan_res + dev.m_scan_min)))
          dev.m_max_range fuel 0 ox oy := rfl

/-- The ray of sample `s` stops at the first step `k` with non-empty
probes, at range `k * dr`. -/
theorem castRay_hit (libm : LibM) (world : CWorld) (dev : CLaserDevice) (ox oy oth : ℚ)
    (s : Int) (k fuel : Nat) (hppm : 0 < world.ppm)
    (hin : (k : ℚ) * (1 / world.ppm) < dev.m_max_range)
    (hhit : probesNonEmpty world (1 / world.ppm)
      (rayPoint libm world dev ox oy oth s k).1 (rayPoint libm world dev ox oy oth s k).2)
    (hfree : ∀ j : Nat, j < k → ¬ ((j : ℚ) * (1 / world.ppm) < dev.m_max_range ∧
      probesNonEmpty world (1 / world.ppm)
        (rayPoint libm world dev ox oy oth s j).1 (rayPoint libm world dev ox oy oth s j).2))
    (hfuel : k < fuel) :
    ∃ hit, castRay libm world dev ox oy oth fuel s = some hit ∧
      hit.range = (k : ℚ) * (1 / world.ppm) ∧
      (hit.px, hit.py) = rayPoint libm world dev ox oy oth s k := by
  have hdr : (0 : ℚ) < 1 / world.ppm := by positivity
  rw [castRay_eq_rayLoop]
  refine ⟨_, rayLoop_hit world _ _ _ _ k fuel ox oy ?_ hin ?_ hfuel, rfl, rfl⟩
  · intro j hj
    have hjk : (j : ℚ) * (1 / world.ppm) < dev.m_max_range := by
      have : (j : ℚ) ≤ (k : ℚ) := by exact_mod_cast hj.le
      have := mul_le_mul_of_nonneg_right this hdr.le
      linarith
    refine ⟨hjk, ?_⟩
    by_contra hne
    exact hfree j hj ⟨hjk, (probeCell_ne_zero_iff _ _ _ _).mp hne⟩
  · exact (probeCell_ne_zero_iff _ _ _ _).mpr hhit

/-- The ray of sample `s` when no probe is ever non-empty. -/
theorem castRay_miss (libm : LibM) (world : CWorld) (dev : CLaserDevice) (ox oy oth : ℚ)
    (s : Int) (fuel : Nat) (hppm : 0 < world.ppm)
    (hempty : ∀ j : Nat, ¬ probesNonEmpty world (1 / world.ppm)
      (rayPoint libm world dev ox oy oth s j).1 (rayPoint libm world dev ox oy oth s j).2)
    (hfuel : ⌈dev.m_max_range / (1 / world.ppm)⌉₊ < fuel) :
    castRay libm world dev ox oy oth fuel s
      = some { range := (⌈dev.m_max_range / (1 / world.ppm)⌉₊ : ℚ) * (1 / world.ppm)
               px := (rayPoint libm world dev ox oy oth s ⌈dev.m_max_range / (1 / world.ppm)⌉₊).1
               py := (rayPoint libm world dev ox oy oth s ⌈dev.m_max_range / (1 / world.ppm)⌉₊).2
               intensity := 0 } := by
  have hdr : (0 : ℚ) < 1 / world.ppm := by positivity
  rw [castRay_eq_rayLoop]
  apply rayLoop_miss world _ _ _ _ fuel ox oy hdr _ hfuel
  intro j _
  by_contra hne
  exact hempty j ((probeCell_ne_zero_iff _ _ _ _).mp hne)

/-! ## Claims on `GenerateScanData` -/

/-- C6. For every configuration with 0 <= sampleCount <= capacity:
whenever `GenerateScanData` returns, its stores to `data->ranges` went to
the indices 0, 1, ..., sampleCount - 1, once each and in this order (so no
index is stored twice and none at or beyond sampleCount), and the header
`range_count` is sampleCount in network order; with a positive world
resolution it does return once the fuel is large enough. The same holds of
the scan loop for every ray cast and every integer `skip`. -/
theorem C6_exactly_sampleCount_samples (libm : LibM) (world : CWorld) (ox oy oth : ℚ)
    (dev : CLaserDevice) (data : player_laser_data_t)
    (h0 : 0 ≤ dev.m_scan_count) (hcap : dev.m_scan_count ≤ (PLAYER_NUM_LASER_SAMPLES : Int)) :
    (∀ (fuel : Nat) (out : ScanOutput),
      GenerateScanData libm world ox oy oth dev data fuel = Outcome.ok out →
        out.writes.map Prod.fst
          = (List.range dev.m_scan_count.toNat).map (fun j : Nat => (j : Int)) ∧
        (out.writes.map Prod.fst).Nodup ∧
        (∀ i : Int, i ∈ out.writes.map Prod.fst ↔ 0 ≤ i ∧ i < dev.m_scan_count) ∧
        out.writes.length = dev.m_scan_count.toNat ∧
        out.data.range_count = htons dev.m_scan_count.toNat ∧
        ntohs out.data.range_count = dev.m_scan_count.toNat) ∧
    (0 < world.ppm → ∃ N : Nat, ∀ fuel : Nat, N ≤ fuel →
      ∃ out, GenerateScanData libm world ox oy oth dev data fuel = Outcome.ok out) ∧
    (∀ (cast : Int → Option (Nat × ℚ × ℚ)) (skip : Int) (fuel : Nat)
        (ws : List (Int × Nat)) (hs : List (ℚ × ℚ)),
      scanLoop cast skip dev.m_scan_count fuel 0 = Outcome.ok (ws, hs) →
        ws.map Prod.fst = (List.range dev.m_scan_count.toNat).map (fun j : Nat => (j : Int))) := by
  have hloop : ∀ (cast : Int → Option (Nat × ℚ × ℚ)) (skip : Int) (fuel : Nat)
      (ws : List (Int × Nat)) (hs : List (ℚ × ℚ)),
      scanLoop cast skip dev.m_scan_count fuel 0 = Outcome.ok (ws, hs) →
        ws.map Prod.fst
          = (List.range dev.m_scan_count.toNat).map (fun j : Nat => (j : Int)) := by
    intro cast skip fuel ws hs h
    have := scanLoop_writes cast skip dev.m_scan_count fuel 0 ws hs h
    simpa using this
  have hcount : toUInt16 dev.m_scan_count = dev.m_scan_count.toNat :=
    toUInt16_of_range _ h0 (by unfold PLAYER_NUM_LASER_SAMPLES at hcap; omega)
  refine ⟨?_, ?_, hloop⟩
  · intro fuel out h
    unfold GenerateScanData at h
    simp only [if_pos hcap] at h
    cases hr : scanLoop (castSample libm world dev ox oy oth fuel)
        (truncToInt (world.m_laser_res / dev.m_scan_res - 1 / 2)) dev.m_scan_count fuel 0 with
    | assertFailed => rw [hr] at h; cases h
    | outOfFuel => rw [hr] at h; cases h
    | ok p =>
      obtain ⟨ws, hs⟩ := p
      rw [hr] at h
      simp only [Outcome.ok.injEq] at h
      have hw := hloop _ _ _ _ _ hr
      subst h
      simp only
      have hinj : Function.Injective (fun j : Nat => (j : Int)) := fun a b hab => by
        simpa using hab
      refine ⟨hw, ?_, ?_, ?_, ?_, ?_⟩
      · rw [hw]; exact (List.nodup_range _).map hinj
      · intro i
        rw [hw, List.mem_map]
        constructor
        · rintro ⟨j, hj, rfl⟩
          have := List.mem_range.mp hj
          omega
        · rintro ⟨hi0, hi1⟩
          exact ⟨i.toNat, List.mem_range.mpr (by omega), by omega⟩
      · have := congrArg List.length hw
        simpa using this
      · rw [hcount]
      · rw [hcount]
        apply ntohs_htons
        unfold PLAYER_NUM_LASER_SAMPLES at hcap
        omega
  · intro hppm
    refine ⟨max dev.m_scan_count.toNat (⌈dev.m_max_range * world.ppm⌉₊ + 1), ?_⟩
    intro fuel hfuel
    have hf1 : dev.m_scan_count.toNat ≤ fuel := le_trans (le_max_left _ _) hfuel
    have hf2 : ⌈dev.m_max_range * world.ppm⌉₊ < fuel :=
      lt_of_lt_of_le (Nat.lt_succ_self _) (le_trans (le_max_right _ _) hfuel)
    obtain ⟨ws, hs, hr⟩ := scanLoop_ok (castSample libm world dev ox oy oth fuel)
      (truncToInt (world.m_laser_res / dev.m_scan_res - 1 / 2)) dev.m_scan_count
      (fun i => castSample_isSome libm world dev ox oy oth hppm fuel i hf2) fuel 0
      (by simpa using hf1)
    unfold GenerateScanData
    simp only [if_pos hcap, hr]
    exact ⟨_, rfl⟩

/-- Witness for C6: the device fresh from the constructor (361 samples) in
an empty world of resolution 20. -/
theorem C6_exactly_sampleCount_samples_witness :
    (0 : Int) ≤ CLaserDevice.new.m_scan_count ∧
    CLaserDevice.new.m_scan_count ≤ (PLAYER_NUM_LASER_SAMPLES : Int) ∧
    ∃ N : Nat, ∀ fuel : Nat, N ≤ fuel →
      ∃ out, GenerateScanData axisLibM (emptyWorld 20) 0 0 0 CLaserDevice.new blankData fuel
        = Outcome.ok out :=
  ⟨by decide, by decide,
    (C6_exactly_sampleCount_samples axisLibM (emptyWorld 20) 0 0 0 CLaserDevice.new blankData
      (by decide) (by decide)).2.1 (by norm_num [emptyWorld])⟩

/-! ## Facts about `laser_update` -/

/-- The traversal loop stops at the first detectable occupant. -/
theorem laser_ray_eq (env : StgEnv) (mod : stg_model_t) (range : ℚ) :
    ∀ ys : List (stg_model_t × ℚ),
      laser_ray env mod range ys =
        match firstDetectable env mod ys with
        | some y => (y.2, some y.1)
        | none => (range, none) := by
  intro ys
  induction ys with
  | nil => rfl
  | cons y rest ih =>
    obtain ⟨hitmod, r⟩ := y
    rw [laser_ray]
    unfold firstDetectable at ih ⊢
    by_cases hrel : hitmod.id = mod.id ∨ env.stg_model_is_related mod hitmod = true
    · rw [if_pos hrel, ih]
      have hd : detectable env mod (hitmod, r) = false := by
        unfold detectable
        rcases hrel with h | h
        · simp [h]
        · simp [h]
      rw [List.find?_cons_of_neg _ (by simp [hd])]
    · rw [if_neg hrel]
      rw [not_or] at hrel
      by_cases htr : hitmod.laser_return ≠ LaserTransparent
      · rw [if_pos htr]
        have hd : detectable env mod (hitmod, r) = true := by
          unfold detectable
          simp [hrel.1, hrel.2, htr]
        rw [List.find?_cons_of_pos _ hd]
      · rw [if_neg htr, ih]
        have hd : detectable env mod (hitmod, r) = false := by
          unfold detectable
          simp only [ne_eq, not_not] at htr
          simp [htr]
        rw [List.find?_cons_of_neg _ (by simp [hd])]

theorem detectable_spec (env : StgEnv) (mod : stg_model_t) (y : stg_model_t × ℚ) :
    detectable env mod y = true ↔
      y.1.id ≠ mod.id ∧ env.stg_model_is_related mod y.1 = false ∧
        y.1.laser_return ≠ LaserTransparent := by
  unfold detectable
  simp [and_assoc]

/-- Occupants equal or related to the sensor have no influence on the
traversal loop. -/
theorem laser_ray_filter (env : StgEnv) (mod : stg_model_t) (range : ℚ) :
    ∀ ys : List (stg_model_t × ℚ),
      laser_ray env mod range (ys.filter (fun o => !(selfOrRelated env mod o)))
        = laser_ray env mod range ys := by
  intro ys
  induction ys with
  | nil => rfl
  | cons y rest ih =>
    obtain ⟨hitmod, r⟩ := y
    by_cases hrel : hitmod.id = mod.id ∨ env.stg_model_is_related mod hitmod = true
    · have hs : selfOrRelated env mod (hitmod, r) = true := by
        unfold selfOrRelated
        rcases hrel with h | h
        · simp [h]
        · simp [h]
      rw [List.filter_cons_of_neg (by simp [hs]), ih]
      conv_rhs => rw [laser_ray, if_pos hrel]
    · have hs : selfOrRelated env mod (hitmod, r) = false := by
        unfold selfOrRelated
        rw [not_or] at hrel
        simp [hrel.1, hrel.2]
      rw [List.filter_cons_of_pos (by simp [hs])]
      rw [laser_ray, laser_ray, if_neg hrel, if_neg hrel, ih]

/-- The scan buffer holds one sample per iteration, sample `t` cast at the
bearing after `t` increments. -/
theorem laser_scan_spec (env : StgEnv) (mod : stg_model_t) (cfg : stg_laser_config_t)
    (pz : stg_pose_t) (sample_incr : ℚ) :
    ∀ (n : Nat) (bearing : ℚ),
      (laser_scan env mod cfg pz sample_incr n bearing).length = n ∧
      ∀ t : Nat, t < n →
        (laser_scan env mod cfg pz sample_incr n bearing)[t]?
          = some (laser_sample env mod cfg pz (bearing + (t : ℚ) * sample_incr)) := by
  intro n
  induction n with
  | zero => intro bearing; simp [laser_scan]
  | succ n ih =>
    intro bearing
    obtain ⟨h1, h2⟩ := ih (bearing + sample_incr)
    rw [laser_scan]
    refine ⟨by simp [h1], ?_⟩
    intro t ht
    cases t with
    | zero => simp
    | succ t =>
      rw [List.getElem?_cons_succ, h2 t (by omega)]
      congr 2
      push_cast
      ring

/-- What `laser_update` does for a subscribed model with a configuration. -/
theorem laser_update_subscribed (env : StgEnv) (mod : stg_model_t) (cfg : stg_laser_config_t)
    (hsubs : 1 ≤ mod.subs) (hcfg : mod.cfg = some cfg) :
    ∃ scan, laser_update env mod = Outcome.ok (some scan) ∧
      scan.length = cfg.samples.toNat ∧
      ∀ t : Nat, t < cfg.samples.toNat →
        scan[t]? = some
          { range :=
              toUInt32 ((if (laser_ray env mod cfg.range_max (sampleYields env mod cfg t)).1
                    < cfg.range_min
                then cfg.range_min
                else (laser_ray env mod cfg.range_max (sampleYields env mod cfg t)).1) * 1000)
            reflectance :=
              match (laser_ray env mod cfg.range_max (sampleYields env mod cfg t)).2 with
              | some hitmod => if hitmod.laser_return ≥ LaserBright then 1 else 0
              | none => 0 } := by
  unfold laser_update
  rw [if_neg (by omega), hcfg]
  obtain ⟨h1, h2⟩ := laser_scan_spec env mod cfg (env.stg_model_local_to_global mod mod.pose)
    (cfg.fov / (cfg.samples : ℚ)) cfg.samples.toNat
    ((env.stg_model_local_to_global mod mod.pose).a - cfg.fov / 2)
  exact ⟨_, rfl, h1, fun t ht => by rw [h2 t ht]; rfl⟩

theorem laser_ray_congr (env env2 : StgEnv) (mod : stg_model_t) (range : ℚ)
    (h : env2.stg_model_is_related = env.stg_model_is_related) :
    ∀ ys : List (stg_model_t × ℚ), laser_ray env2 mod range ys = laser_ray env mod range ys := by
  intro ys
  induction ys with
  | nil => rfl
  | cons y rest ih =>
    obtain ⟨hitmod, r⟩ := y
    rw [laser_ray, laser_ray, ih, h]

theorem laser_sample_withoutRelated (env : StgEnv) (mod : stg_model_t)
    (cfg : stg_laser_config_t) (pz : stg_pose_t) (bearing : ℚ) :
    laser_sample (withoutRelated env mod) mod cfg pz bearing
      = laser_sample env mod cfg pz bearing := by
  have h : ∀ ys, laser_ray (withoutRelated env mod) mod cfg.range_max
      (ys.filter (fun o => !(selfOrRelated env mod o))) = laser_ray env mod cfg.range_max ys := by
    intro ys
    rw [laser_ray_congr env (withoutRelated env mod) mod cfg.range_max rfl, laser_ray_filter]
  unfold laser_sample
  simp only [withoutRelated] at h ⊢
  rw [h]

theorem laser_scan_withoutRelated (env : StgEnv) (mod : stg_model_t)
    (cfg : stg_laser_config_t) (pz : stg_pose_t) (sample_incr : ℚ) :
    ∀ (n : Nat) (bearing : ℚ),
      laser_scan (withoutRelated env mod) mod cfg pz sample_incr n bearing
        = laser_scan env mod cfg pz sample_incr n bearing := by
  intro n
  induction n with
  | zero => intro bearing; rfl
  | succ n ih =>
    intro bearing
    rw [laser_scan, laser_scan, ih, laser_sample_withoutRelated]

theorem laser_update_withoutRelated (env : StgEnv) (mod : stg_model_t) :
    laser_update (withoutRelated env mod) mod = laser_update env mod := by
  unfold laser_update
  by_cases hs : mod.subs < 1
  · rw [if_pos hs, if_pos hs]
  · rw [if_neg hs, if_neg hs]
    cases hc : mod.cfg with
    | none => rfl
    | some cfg =>
      simp only
      rw [laser_scan_withoutRelated]
      rfl

/-! ## Claims on `laser_update` -/

/-- C9 (as amended). In `laser_update`, for every subscribed sensor with a
configuration and every sample `t`: if the traversal yields no detectable
occupant the recorded range is range_max in millimetres provided
range_min <= range_max (and range_min in millimetres otherwise, since the
floor to range_min comes last); if the first detectable occupant is met at
a cursor range below range_min the recorded range is range_min; otherwise
it is the cursor range at that occupant. -/
theorem C9_recorded_range (env : StgEnv) (mod : stg_model_t) (cfg : stg_laser_config_t)
    (hsubs : 1 ≤ mod.subs) (hcfg : mod.cfg = some cfg) :
    ∃ scan, laser_update env mod = Outcome.ok (some scan) ∧
      scan.length = cfg.samples.toNat ∧
      ∀ t : Nat, t < cfg.samples.toNat →
        ∃ smp, scan[t]? = some smp ∧
          (firstDetectable env mod (sampleYields env mod cfg t) = none →
            (cfg.range_min ≤ cfg.range_max → smp.range = toUInt32 (cfg.range_max * 1000)) ∧
            (cfg.range_max < cfg.range_min → smp.range = toUInt32 (cfg.range_min * 1000))) ∧
          (∀ y, firstDetectable env mod (sampleYields env mod cfg t) = some y →
            (y.2 < cfg.range_min → smp.range = toUInt32 (cfg.range_min * 1000)) ∧
            (¬ y.2 < cfg.range_min → smp.range = toUInt32 (y.2 * 1000))) := by
  obtain ⟨scan, h1, h2, h3⟩ := laser_update_subscribed env mod cfg hsubs hcfg
  refine ⟨scan, h1, h2, ?_⟩
  intro t ht
  refine ⟨_, h3 t ht, ?_, ?_⟩
  · intro hnone
    rw [laser_ray_eq, hnone]
    constructor
    · intro hle
      simp only
      rw [if_neg (not_lt.mpr hle)]
    · intro hlt
      simp only
      rw [if_pos hlt]
  · intro y hy
    rw [laser_ray_eq, hy]
    constructor
    · intro hlt
      simp only
      rw [if_pos hlt]
    · intro hge
      simp only
      rw [if_neg hge]

/-- Witness for C9: a subscribed laser with two samples whose traversal
meets the example occupants. -/
theorem C9_recorded_range_witness :
    (1 : Int) ≤ (exampleLaser twoSampleCfg).subs ∧
    (exampleLaser twoSampleCfg).cfg = some twoSampleCfg ∧
    ∃ scan, laser_update (exampleEnv exampleYields) (exampleLaser twoSampleCfg)
        = Outcome.ok (some scan) ∧ scan.length = twoSampleCfg.samples.toNat := by
  obtain ⟨scan, h1, h2, _⟩ :=
    C9_recorded_range (exampleEnv exampleYields) (exampleLaser twoSampleCfg) twoSampleCfg
      (by decide) rfl
  exact ⟨by decide, rfl, scan, h1, h2⟩

/-- Counterexample to C9 as stated: a subscribed sensor configured with
range_min = 2 m and range_max = 1 m whose traversal yields nothing records
2000 mm, not 1000 * range_max = 1000 mm. -/
theorem C9_range_max_counterexample :
    (1 : Int) ≤ (exampleLaser invertedRangeCfg).subs ∧
    firstDetectable (exampleEnv []) (exampleLaser invertedRangeCfg)
      (sampleYields (exampleEnv []) (exampleLaser invertedRangeCfg) invertedRangeCfg 0) = none ∧
    laser_update (exampleEnv []) (exampleLaser invertedRangeCfg)
      = Outcome.ok (some [{ range := 2000, reflectance := 0 }]) ∧
    toUInt32 (invertedRangeCfg.range_max * 1000) = 1000 := by
  refine ⟨by decide, rfl, by decide!, by decide!⟩

/-- C10. In `laser_update`, for every subscribed sensor with a
configuration and every sample: when the traversal has a first detectable
occupant (the first in traversal order that is neither the sensor itself
nor related to it and whose `laser_return` is not `LaserTransparent`), the
recorded range is the cursor range at that occupant (floored to range_min)
and the reflectance is 1 if its `laser_return` is `LaserBright` or higher
and 0 otherwise; when there is none the reflectance is 0. Removing from the
traversal every occupant equal or related to the sensor changes nothing in
the result of `laser_update`. -/
theorem C10_first_detectable_occupant (env : StgEnv) (mod : stg_model_t)
    (cfg : stg_laser_config_t) (hsubs : 1 ≤ mod.subs) (hcfg : mod.cfg = some cfg) :
    (∃ scan, laser_update env mod = Outcome.ok (some scan) ∧
      ∀ t : Nat, t < cfg.samples.toNat →
        ∃ smp, scan[t]? = some smp ∧
          (∀ y, firstDetectable env mod (sampleYields env mod cfg t) = some y →
            y ∈ sampleYields env mod cfg t ∧
            y.1.id ≠ mod.id ∧ env.stg_model_is_related mod y.1 = false ∧
            y.1.laser_return ≠ LaserTransparent ∧
            smp.range = toUInt32 ((if y.2 < cfg.range_min then cfg.range_min else y.2) * 1000) ∧
            smp.reflectance = (if y.1.laser_return ≥ LaserBright then 1 else 0)) ∧
          (firstDetectable env mod (sampleYields env mod cfg t) = none →
            smp.reflectance = 0) ∧
          (smp.reflectance = 1 ↔
            ∃ y, firstDetectable env mod (sampleYields env mod cfg t) = some y ∧
              y.1.laser_return ≥ LaserBright)) ∧
    laser_update (withoutRelated env mod) mod = laser_update env mod := by
  refine ⟨?_, laser_update_withoutRelated env mod⟩
  obtain ⟨scan, h1, _, h3⟩ := laser_update_subscribed env mod cfg hsubs hcfg
  refine ⟨scan, h1, ?_⟩
  intro t ht
  refine ⟨_, h3 t ht, ?_, ?_, ?_⟩
  · intro y hy
    have hmem : y ∈ sampleYields env mod cfg t := List.mem_of_find?_eq_some hy
    have hdet : detectable env mod y = true := List.find?_some hy
    obtain ⟨d1, d2, d3⟩ := (detectable_spec env mod y).mp hdet
    rw [laser_ray_eq, hy]
    exact ⟨hmem, d1, d2, d3, rfl, rfl⟩
  · intro hnone
    rw [laser_ray_eq, hnone]
  · rw [laser_ray_eq]
    cases hf : firstDetectable env mod (sampleYields env mod cfg t) with
    | none => simp
    | some y =>
      simp only
      by_cases hb : y.1.laser_return ≥ LaserBright
      · simp [hb]
      · simp [hb]

/-- Witness for C10: the example traversal meets the sensor itself, a
related model and a transparent one before a bright model at 5 m; both
samples record 5000 mm with reflectance 1. -/
theorem C10_first_detectable_occupant_witness :
    (1 : Int) ≤ (exampleLaser twoSampleCfg).subs ∧
    (exampleLaser twoSampleCfg).cfg = some twoSampleCfg ∧
    laser_update (withoutRelated (exampleEnv exampleYields) (exampleLaser twoSampleCfg))
        (exampleLaser twoSampleCfg)
      = laser_update (exampleEnv exampleYields) (exampleLaser twoSampleCfg) ∧
    laser_update (exampleEnv exampleYields) (exampleLaser twoSampleCfg)
      = Outcome.ok (some [{ range := 5000, reflectance := 1 }, { range := 5000, reflectance := 1 }]) :=
  ⟨by decide, rfl,
    (C10_first_detectable_occupant (exampleEnv exampleYields) (exampleLaser twoSampleCfg)
      twoSampleCfg (by decide) rfl).2,
    by decide!⟩

/-! ## Facts about `Update` -/

/-- Drawing or undrawing the footprint touches neither the device members,
nor the data buffer, nor the exported hit points, and calls `SetRectangle`
only. -/
theorem Map_frame (env : PlayerEnv) (st : LaserState) (render : Bool) :
    (Map env st render).1.dev = st.dev ∧ (Map env st render).1.data = st.data ∧
    (Map env st render).1.hitPts = st.hitPts ∧
    Event.PutData ∉ (Map env st render).2 ∧ Event.GenerateScanData ∉ (Map env st render).2 := by
  unfold Map
  cases render <;> simp

/-- The same for the guarded call `if (!m_transparent) Map(render)`. -/
theorem guardedMap_frame (env : PlayerEnv) (st : LaserState) (render : Bool) :
    (if !st.dev.m_transparent then Map env st render else (st, [])).1.dev = st.dev ∧
    (if !st.dev.m_transparent then Map env st render else (st, [])).1.data = st.data ∧
    (if !st.dev.m_transparent then Map env st render else (st, [])).1.hitPts = st.hitPts ∧
    Event.PutData ∉ (if !st.dev.m_transparent then Map env st render else (st, [])).2 ∧
    Event.GenerateScanData ∉
      (if !st.dev.m_transparent then Map env st render else (st, [])).2 := by
  by_cases h : (!st.dev.m_transparent) = true
  · rw [if_pos h]; exact Map_frame env st render
  · rw [if_neg h]; simp

/-- When the update interval has not elapsed, the guarded part of `Update`
does nothing. -/
theorem UpdateScan_closed (libm : LibM) (env : PlayerEnv) (st : LaserState) (fuel : Nat)
    (h : env.GetTime - st.dev.m_last_update ≤ (st.dev.m_scan_count : ℚ) / st.dev.m_update_rate) :
    UpdateScan libm env st fuel = { state := st, status := Outcome.ok (), trace := [] } := by
  unfold UpdateScan
  simp only
  rw [if_neg (not_lt.mpr h)]

/-- When the update interval has elapsed, the guarded part of `Update`
stamps the time, calls `GenerateScanData`, and calls `PutData` exactly when
that returns. -/
theorem UpdateScan_open (libm : LibM) (env : PlayerEnv) (st : LaserState) (fuel : Nat)
    (h : (st.dev.m_scan_count : ℚ) / st.dev.m_update_rate < env.GetTime - st.dev.m_last_update) :
    (UpdateScan libm env st fuel).state.dev = { st.dev with m_last_update := env.GetTime } ∧
    Event.GenerateScanData ∈ (UpdateScan libm env st fuel).trace ∧
    (∀ out, GenerateScanData libm st.world env.GetGlobalPose.1 env.GetGlobalPose.2.1
        env.GetGlobalPose.2.2 { st.dev with m_last_update := env.GetTime } env.stackData fuel
        = Outcome.ok out →
      (UpdateScan libm env st fuel).status = Outcome.ok () ∧
      (UpdateScan libm env st fuel).state.data = some out.data ∧
      (UpdateScan libm env st fuel).state.hitPts = out.hitPts ∧
      (UpdateScan libm env st fuel).trace = [Event.GenerateScanData, Event.PutData]) ∧
    (GenerateScanData libm st.world env.GetGlobalPose.1 env.GetGlobalPose.2.1
        env.GetGlobalPose.2.2 { st.dev with m_last_update := env.GetTime } env.stackData fuel
        = Outcome.assertFailed →
      (UpdateScan libm env st fuel).status = Outcome.assertFailed ∧
      (UpdateScan libm env st fuel).state.data = st.data ∧
      (UpdateScan libm env st fuel).trace = [Event.GenerateScanData]) ∧
    (GenerateScanData libm st.world env.GetGlobalPose.1 env.GetGlobalPose.2.1
        env.GetGlobalPose.2.2 { st.dev with m_last_update := env.GetTime } env.stackData fuel
        = Outcome.outOfFuel →
      (UpdateScan libm env st fuel).status = Outcome.outOfFuel ∧
      (UpdateScan libm env st fuel).state.data = st.data ∧
      (UpdateScan libm env st fuel).trace = [Event.GenerateScanData]) := by
  unfold UpdateScan
  simp only
  rw [if_pos h]
  cases hg : GenerateScanData libm st.world env.GetGlobalPose.1 env.GetGlobalPose.2.1
      env.GetGlobalPose.2.2 { st.dev with m_last_update := env.GetTime } env.stackData fuel with
  | ok out => simp
  | assertFailed => simp
  | outOfFuel => simp

/-- The guarded part of `Update` calls `PutData` only after stamping the
time, and then ends normally. -/
theorem UpdateScan_publishes (libm : LibM) (env : PlayerEnv) (st : LaserState) (fuel : Nat)
    (h : Event.PutData ∈ (UpdateScan libm env st fuel).trace) :
    (UpdateScan libm env st fuel).status = Outcome.ok () ∧
    (UpdateScan libm env st fuel).state.dev = { st.dev with m_last_update := env.GetTime } := by
  by_cases hgate :
      (st.dev.m_scan_count : ℚ) / st.dev.m_update_rate < env.GetTime - st.dev.m_last_update
  · obtain ⟨h1, _, h3, h4, h5⟩ := UpdateScan_open libm env st fuel hgate
    refine ⟨?_, h1⟩
    cases hg : GenerateScanData libm st.world env.GetGlobalPose.1 env.GetGlobalPose.2.1
        env.GetGlobalPose.2.2 { st.dev with m_last_update := env.GetTime } env.stackData fuel with
    | ok out => exact (h3 out hg).1
    | assertFailed => rw [(h4 hg).2.2] at h; simp at h
    | outOfFuel => rw [(h5 hg).2.2] at h; simp at h
  · rw [UpdateScan_closed libm env st fuel (not_lt.mp hgate)] at h
    simp at h

/-- The result of `Update` in terms of the result of its two branches: the
footprint calls around them change neither the device members, nor the data
buffer, nor whether `GenerateScanData` and `PutData` were called. -/
theorem Update_frame (libm : LibM) (env : PlayerEnv) (st : LaserState) (fuel : Nat) :
    ∃ pre : LaserState, pre.dev = st.dev ∧ pre.data = st.data ∧ pre.hitPts = st.hitPts ∧
      (Update libm env st fuel).status = (UpdateBody libm env pre fuel).status ∧
      (Update libm env st fuel).state.dev = (UpdateBody libm env pre fuel).state.dev ∧
      (Update libm env st fuel).state.data = (UpdateBody libm env pre fuel).state.data ∧
      (Update libm env st fuel).state.hitPts = (UpdateBody libm env pre fuel).state.hitPts ∧
      (Event.PutData ∈ (Update libm env st fuel).trace
        ↔ Event.PutData ∈ (UpdateBody libm env pre fuel).trace) ∧
      (Event.GenerateScanData ∈ (Update libm env st fuel).trace
        ↔ Event.GenerateScanData ∈ (UpdateBody libm env pre fuel).trace) := by
  obtain ⟨a1, a2, a3, a4, a5⟩ := guardedMap_frame env st false
  refine ⟨(if !st.dev.m_transparent then Map env st false else (st, [])).1, a1, a2, a3, ?_⟩
  unfold Update
  simp only
  cases hs : (UpdateBody libm env
      (if !st.dev.m_transparent then Map env st false else (st, [])).1 fuel).status with
  | ok u =>
    obtain ⟨b1, b2, b3, b4, b5⟩ := guardedMap_frame env
      (UpdateBody libm env (if !st.dev.m_transparent then Map env st false else (st, [])).1
        fuel).state true
    simp only [List.mem_append]
    exact ⟨trivial, b1, b2, b3, by tauto, by tauto⟩
  | assertFailed =>
    simp only [List.mem_append]
    exact ⟨trivial, trivial, trivial, trivial, by tauto, by tauto⟩
  | outOfFuel =>
    simp only [List.mem_append]
    exact ⟨trivial, trivial, trivial, trivial, by tauto, by tauto⟩

/-- The members that `CheckConfig` never assigns, and the whole device when
it returns false. -/
theorem CheckConfig_frame (dev : CLaserDevice) (pending : Option player_laser_config_t) :
    (CheckConfig dev pending).dev.m_last_update = dev.m_last_update ∧
    (CheckConfig dev pending).dev.m_update_rate = dev.m_update_rate ∧
    (CheckConfig dev pending).dev.m_max_range = dev.m_max_range ∧
    (CheckConfig dev pending).dev.m_transparent = dev.m_transparent ∧
    ((CheckConfig dev pending).ret = false → (CheckConfig dev pending).dev = dev) := by
  cases pending with
  | none => exact ⟨rfl, rfl, rfl, rfl, fun _ => rfl⟩
  | some config =>
    rcases CheckConfig_cases dev config with ⟨_, e⟩ | ⟨_, e⟩ | ⟨_, _, _, e⟩
    · rw [e]; exact ⟨rfl, rfl, rfl, rfl, fun h => by simp at h⟩
    · rw [e]; exact ⟨rfl, rfl, rfl, rfl, fun h => by simp at h⟩
    · rw [e]; exact ⟨rfl, rfl, rfl, rfl, fun _ => rfl⟩

theorem UpdateBody_subscribed (libm : LibM) (env : PlayerEnv) (st : LaserState) (fuel : Nat)
    (hsub : env.IsSubscribed = true) :
    UpdateBody libm env st fuel
      = UpdateScan libm env { st with dev := (CheckConfig st.dev env.GetConfig).dev } fuel := by
  unfold UpdateBody
  rw [if_pos hsub]

theorem GenerateScanData_over_capacity (libm : LibM) (world : CWorld) (ox oy oth : ℚ)
    (dev : CLaserDevice) (data : player_laser_data_t) (fuel : Nat)
    (h : (PLAYER_NUM_LASER_SAMPLES : Int) < dev.m_scan_count) :
    GenerateScanData libm world ox oy oth dev data fuel = Outcome.assertFailed := by
  unfold GenerateScanData
  simp only
  rw [if_neg (not_le.mpr h)]

/-- A run of `Update` that publishes is the run of a subscribed sensor, ends
normally and stamps the time. -/
theorem Update_publishes (libm : LibM) (env : PlayerEnv) (st : LaserState) (fuel : Nat)
    (h : publishes (Update libm env st fuel)) :
    env.IsSubscribed = true ∧ (Update libm env st fuel).state.dev.m_last_update = env.GetTime := by
  obtain ⟨pre, _, _, _, _, q2, _, _, q5, _⟩ := Update_frame libm env st fuel
  unfold publishes at h
  rw [q5] at h
  by_cases hsub : env.IsSubscribed = true
  · refine ⟨hsub, ?_⟩
    rw [UpdateBody_subscribed libm env pre fuel hsub] at h q2
    rw [q2, (UpdateScan_publishes libm env _ fuel h).2]
  · exfalso
    unfold UpdateBody at h
    rw [if_neg hsub] at h
    simp at h

/-- A subscribed `Update` whose interval has not elapsed: no ray cast, no
publication, the device as `CheckConfig` leaves it. -/
theorem Update_closed (libm : LibM) (env : PlayerEnv) (st : LaserState) (fuel : Nat)
    (hsub : env.IsSubscribed = true)
    (hgate : env.GetTime - st.dev.m_last_update
      ≤ ((CheckConfig st.dev env.GetConfig).dev.m_scan_count : ℚ) / st.dev.m_update_rate) :
    (Update libm env st fuel).status = Outcome.ok () ∧
    ¬ rayCasts (Update libm env st fuel) ∧
    ¬ publishes (Update libm env st fuel) ∧
    (Update libm env st fuel).state.data = st.data ∧
    (Update libm env st fuel).state.dev.m_last_update = st.dev.m_last_update ∧
    (Update libm env st fuel).state.dev = (CheckConfig st.dev env.GetConfig).dev ∧
    ((CheckConfig st.dev env.GetConfig).ret = false →
      (Update libm env st fuel).state.dev = st.dev) ∧
    (env.GetConfig = none → (Update libm env st fuel).state.dev = st.dev) := by
  obtain ⟨pre, p1, p2, _, q1, q2, q3, _, q5, q6⟩ := Update_frame libm env st fuel
  obtain ⟨c1, c2, _, _, c5⟩ := CheckConfig_frame st.dev env.GetConfig
  have hbody : UpdateBody libm env pre fuel
      = { state := { pre with dev := (CheckConfig st.dev env.GetConfig).dev }
          status := Outcome.ok (), trace := [] } := by
    rw [UpdateBody_subscribed libm env pre fuel hsub, p1]
    apply UpdateScan_closed
    show env.GetTime - (CheckConfig st.dev env.GetConfig).dev.m_last_update
      ≤ ((CheckConfig st.dev env.GetConfig).dev.m_scan_count : ℚ)
        / (CheckConfig st.dev env.GetConfig).dev.m_update_rate
    rw [c1, c2]
    exact hgate
  rw [hbody] at q1 q2 q3 q5 q6
  refine ⟨q1, ?_, ?_, ?_, ?_, q2, ?_, ?_⟩
  · unfold rayCasts; rw [q6]; simp
  · unfold publishes; rw [q5]; simp
  · rw [q3]; exact p2
  · rw [q2]; exact c1
  · intro h; rw [q2]; exact c5 h
  · intro h; rw [q2, h]; rfl

/-! ## Claims on `Update` -/

/-- C11 (as amended). For every subscribed sensor state and every time now
such that now - lastUpdateTime does not exceed sampleCount / updateRate,
where sampleCount is the count after `CheckConfig` has handled the pending
request, `Update` ends normally without a ray cast and without publishing:
the data buffer and lastUpdateTime are unchanged. The device is left as
`CheckConfig` leaves it: unchanged when no request is pending or the
request is rejected, reconfigured when a pending request is accepted. -/
theorem C11_cadence_gate_closed (libm : LibM) (env : PlayerEnv) (st : LaserState) (fuel : Nat)
    (hsub : env.IsSubscribed = true)
    (hgate : env.GetTime - st.dev.m_last_update
      ≤ ((CheckConfig st.dev env.GetConfig).dev.m_scan_count : ℚ) / st.dev.m_update_rate) :
    (Update libm env st fuel).status = Outcome.ok () ∧
    ¬ rayCasts (Update libm env st fuel) ∧
    ¬ publishes (Update libm env st fuel) ∧
    (Update libm env st fuel).state.data = st.data ∧
    (Update libm env st fuel).state.dev.m_last_update = st.dev.m_last_update ∧
    (Update libm env st fuel).state.dev = (CheckConfig st.dev env.GetConfig).dev ∧
    ((CheckConfig st.dev env.GetConfig).ret = false →
      (Update libm env st fuel).state.dev = st.dev) ∧
    (env.GetConfig = none → (Update libm env st fuel).state.dev = st.dev) :=
  Update_closed libm env st fuel hsub hgate

/-- Witness for C11: the fresh device, subscribed, at time 0 with no
request pending. -/
theorem C11_cadence_gate_closed_witness :
    (examplePlayerEnv true 0 none).IsSubscribed = true ∧
    (Update axisLibM (examplePlayerEnv true 0 none) freshState 10).status = Outcome.ok () ∧
    (Update axisLibM (examplePlayerEnv true 0 none) freshState 10).state.dev = freshState.dev :=
  ⟨rfl,
   (C11_cadence_gate_closed axisLibM (examplePlayerEnv true 0 none) freshState 10 rfl
      (by decide!)).1,
   (C11_cadence_gate_closed axisLibM (examplePlayerEnv true 0 none) freshState 10 rfl
      (by decide!)).2.2.2.2.2.2.2 rfl⟩

/-- Counterexample to C11 as stated: the fresh device (361 samples,
resolution 0.5 degrees, reflectance off, lastUpdateTime 0), subscribed,
with the request resolution 100, -9000 .. +9000, intensity on pending. At
time 0 the interval has not elapsed (0 <= 361/1800), yet `Update` leaves
181 samples, another resolution and reflectance on. At time 3/20, still
within 361/1800 of lastUpdateTime, `Update` even publishes and stamps
lastUpdateTime = 3/20, because the interval is taken from the new count
(181/1800 < 3/20). -/
theorem C11_pending_request_counterexample :
    (examplePlayerEnv true 0 (some (wireConfig 100 (-9000) 9000 1))).IsSubscribed = true ∧
    (examplePlayerEnv true 0 (some (wireConfig 100 (-9000) 9000 1))).GetTime
        - freshState.dev.m_last_update
      ≤ (freshState.dev.m_scan_count : ℚ) / freshState.dev.m_update_rate ∧
    freshState.dev.m_scan_count = 361 ∧
    (Update axisLibM (examplePlayerEnv true 0 (some (wireConfig 100 (-9000) 9000 1)))
      freshState 10).state.dev.m_scan_count = 181 ∧
    (Update axisLibM (examplePlayerEnv true 0 (some (wireConfig 100 (-9000) 9000 1)))
      freshState 10).state.dev.m_scan_res ≠ freshState.dev.m_scan_res ∧
    freshState.dev.m_intensity = false ∧
    (Update axisLibM (examplePlayerEnv true 0 (some (wireConfig 100 (-9000) 9000 1)))
      freshState 10).state.dev.m_intensity = true ∧
    (examplePlayerEnv true (3 / 20) (some (wireConfig 100 (-9000) 9000 1))).GetTime
        - freshState.dev.m_last_update
      ≤ (freshState.dev.m_scan_count : ℚ) / freshState.dev.m_update_rate ∧
    publishes (Update axisLibM (examplePlayerEnv true (3 / 20)
      (some (wireConfig 100 (-9000) 9000 1))) freshState 200) ∧
    freshState.dev.m_last_update = 0 ∧
    (Update axisLibM (examplePlayerEnv true (3 / 20) (some (wireConfig 100 (-9000) 9000 1)))
      freshState 200).state.dev.m_last_update = 3 / 20 := by
  refine ⟨rfl, by decide!, rfl, by decide!, by decide!, rfl, by decide!, by decide!, by decide!,
    rfl, by decide!⟩

/-- C13. For every sensor state with no subscriber, `Update` ends normally
without a ray cast and without publishing (data buffer and lastUpdateTime
unchanged), and leaves the configuration at the defaults of the
constructor: resolution 0.5 degrees, min angle -90 degrees, max angle +90
degrees, 361 samples, reflectance off. -/
theorem C13_unsubscribed_reset (libm : LibM) (env : PlayerEnv) (st : LaserState) (fuel : Nat)
    (hsub : env.IsSubscribed = false) :
    (Update libm env st fuel).status = Outcome.ok () ∧
    ¬ rayCasts (Update libm env st fuel) ∧
    ¬ publishes (Update libm env st fuel) ∧
    (Update libm env st fuel).state.data = st.data ∧
    (Update libm env st fuel).state.dev.m_last_update = st.dev.m_last_update ∧
    (Update libm env st fuel).state.dev.m_scan_res = DTOR (1 / 2) ∧
    (Update libm env st fuel).state.dev.m_scan_min = DTOR (-90) ∧
    (Update libm env st fuel).state.dev.m_scan_max = DTOR 90 ∧
    (Update libm env st fuel).state.dev.m_scan_count = 361 ∧
    (Update libm env st fuel).state.dev.m_intensity = false ∧
    (Update libm env st fuel).state.dev.m_scan_res = CLaserDevice.new.m_scan_res ∧
    (Update libm env st fuel).state.dev.m_scan_min = CLaserDevice.new.m_scan_min ∧
    (Update libm env st fuel).state.dev.m_scan_max = CLaserDevice.new.m_scan_max ∧
    (Update libm env st fuel).state.dev.m_scan_count = CLaserDevice.new.m_scan_count ∧
    (Update libm env st fuel).state.dev.m_intensity = CLaserDevice.new.m_intensity := by
  obtain ⟨pre, p1, p2, _, q1, q2, q3, _, q5, q6⟩ := Update_frame libm env st fuel
  have hbody : UpdateBody libm env pre fuel
      = { state :=
            { pre with
              dev := { pre.dev with
                m_scan_res := DTOR (50 / 100)
                m_scan_min := DTOR (-90)
                m_scan_max := DTOR 90
                m_scan_count := 361
                m_intensity := false }
              hitPts := pre.hitPts.map (fun _ => (0, 0)) }
          status := Outcome.ok (), trace := [] } := by
    unfold UpdateBody
    rw [if_neg (by rw [hsub]; simp)]
  rw [hbody] at q1 q2 q3 q5 q6
  have hres : DTOR (50 / 100) = DTOR (1 / 2) := by norm_num
  refine ⟨q1, ?_, ?_, ?_, ?_, ?_, ?_, ?_, ?_, ?_, ?_, ?_, ?_, ?_, ?_⟩
  · unfold rayCasts; rw [q6]; simp
  · unfold publishes; rw [q5]; simp
  · rw [q3]; exact p2
  · rw [q2]
    show pre.dev.m_last_update = st.dev.m_last_update
    rw [p1]
  · rw [q2]; exact hres
  · rw [q2]
  · rw [q2]
  · rw [q2]
  · rw [q2]
  · rw [q2]; rfl
  · rw [q2]; rfl
  · rw [q2]; rfl
  · rw [q2]; rfl
  · rw [q2]; rfl

/-- Witness for C13: a device reconfigured to resolution 100 with
reflectance on, then updated with no subscriber. -/
theorem C13_unsubscribed_reset_witness :
    (examplePlayerEnv false 5 none).IsSubscribed = false ∧
    (CheckConfig CLaserDevice.new (some (wireConfig 100 (-3000) 3000 1))).dev.m_scan_count = 61 ∧
    (Update axisLibM (examplePlayerEnv false 5 none)
      { freshState with dev := (CheckConfig CLaserDevice.new
          (some (wireConfig 100 (-3000) 3000 1))).dev } 10).state.dev.m_scan_count = 361 :=
  ⟨rfl, by decide!,
   (C13_unsubscribed_reset axisLibM (examplePlayerEnv false 5 none)
      { freshState with dev := (CheckConfig CLaserDevice.new
          (some (wireConfig 100 (-3000) 3000 1))).dev } 10 rfl).2.2.2.2.2.2.2.2.1⟩

/-- C14. `GenerateScanData` on a device whose sample count exceeds the 401
slots of the range array ends in its `ASSERT`, whatever the world, pose,
packet and fuel. Hence for every subscribed sensor state whose update
interval has elapsed and whose sample count (as `CheckConfig` leaves it)
exceeds the capacity, `Update` reaches `GenerateScanData`, ends in the
failed assertion, never calls `PutData`, and the data buffer is as before. -/
theorem C14_capacity_assert (libm : LibM) (env : PlayerEnv) (st : LaserState) (fuel : Nat)
    (hsub : env.IsSubscribed = true)
    (hgate : ((CheckConfig st.dev env.GetConfig).dev.m_scan_count : ℚ) / st.dev.m_update_rate
      < env.GetTime - st.dev.m_last_update)
    (hcap : (PLAYER_NUM_LASER_SAMPLES : Int) < (CheckConfig st.dev env.GetConfig).dev.m_scan_count) :
    (∀ (world : CWorld) (ox oy oth : ℚ) (data : player_laser_data_t) (fuel2 : Nat),
      GenerateScanData libm world ox oy oth (CheckConfig st.dev env.GetConfig).dev data fuel2
        = Outcome.assertFailed) ∧
    rayCasts (Update libm env st fuel) ∧
    (Update libm env st fuel).status = Outcome.assertFailed ∧
    ¬ publishes (Update libm env st fuel) ∧
    (Update libm env st fuel).state.data = st.data := by
  obtain ⟨pre, p1, p2, _, q1, q2, q3, _, q5, q6⟩ := Update_frame libm env st fuel
  obtain ⟨c1, c2, _, _, _⟩ := CheckConfig_frame st.dev env.GetConfig
  rw [UpdateBody_subscribed libm env pre fuel hsub, p1] at q1 q2 q3 q5 q6
  have hopen := UpdateScan_open libm env
    { pre with dev := (CheckConfig st.dev env.GetConfig).dev } fuel
    (by
      show ((CheckConfig st.dev env.GetConfig).dev.m_scan_count : ℚ)
          / (CheckConfig st.dev env.GetConfig).dev.m_update_rate
        < env.GetTime - (CheckConfig st.dev env.GetConfig).dev.m_last_update
      rw [c1, c2]; exact hgate)
  obtain ⟨_, _, _, h4, _⟩ := hopen
  obtain ⟨s1, s2, s3⟩ := h4 (GenerateScanData_over_capacity _ _ _ _ _ _ _ _ (by exact hcap))
  refine ⟨fun world ox oy oth data fuel2 =>
    GenerateScanData_over_capacity _ _ _ _ _ _ _ _ hcap, ?_, ?_, ?_, ?_⟩
  · unfold rayCasts; rw [q6, s3]; simp
  · rw [q1, s1]
  · unfold publishes; rw [q5, s3]; simp
  · rw [q3, s2]; exact p2

/-- Witness for C14: the fresh device, subscribed, at time 1, with the
request resolution 50, -12000 .. +12000 pending (481 samples). -/
theorem C14_capacity_assert_witness :
    (examplePlayerEnv true 1 (some (wireConfig 50 (-12000) 12000 0))).IsSubscribed = true ∧
    (Update axisLibM (examplePlayerEnv true 1 (some (wireConfig 50 (-12000) 12000 0)))
      freshState 10).status = Outcome.assertFailed ∧
    (Update axisLibM (examplePlayerEnv true 1 (some (wireConfig 50 (-12000) 12000 0)))
      freshState 10).state.data = freshState.data :=
  ⟨rfl,
   (C14_capacity_assert axisLibM (examplePlayerEnv true 1 (some (wireConfig 50 (-12000) 12000 0)))
      freshState 10 rfl (by decide!) (by decide!)).2.2.1,
   (C14_capacity_assert axisLibM (examplePlayerEnv true 1 (some (wireConfig 50 (-12000) 12000 0)))
      freshState 10 rfl (by decide!) (by decide!)).2.2.2.2⟩

/-- C12. For every sensor state: if an `Update` at time t publishes a scan
(which it does only for a subscribed sensor, stamping lastUpdateTime = t),
and `Update` runs again on the resulting state, subscribed, with no
configuration request pending, at a time t' <= t + sampleCount /
updateRate, then the second run ends normally without ray cast and without
publishing, and leaves the data buffer, lastUpdateTime and the device
exactly as the first run left them. -/
theorem C12_idempotent_within_interval (libm : LibM) (env1 env2 : PlayerEnv) (st : LaserState)
    (fuel1 fuel2 : Nat)
    (hpub : publishes (Update libm env1 st fuel1))
    (hsub2 : env2.IsSubscribed = true)
    (hnone : env2.GetConfig = none)
    (hlate : env2.GetTime ≤ env1.GetTime
      + ((Update libm env1 st fuel1).state.dev.m_scan_count : ℚ)
        / (Update libm env1 st fuel1).state.dev.m_update_rate) :
    env1.IsSubscribed = true ∧
    (Update libm env1 st fuel1).state.dev.m_last_update = env1.GetTime ∧
    (Update libm env2 (Update libm env1 st fuel1).state fuel2).status = Outcome.ok () ∧
    ¬ rayCasts (Update libm env2 (Update libm env1 st fuel1).state fuel2) ∧
    ¬ publishes (Update libm env2 (Update libm env1 st fuel1).state fuel2) ∧
    (Update libm env2 (Update libm env1 st fuel1).state fuel2).state.data
      = (Update libm env1 st fuel1).state.data ∧
    (Update libm env2 (Update libm env1 st fuel1).state fuel2).state.dev.m_last_update
      = (Update libm env1 st fuel1).state.dev.m_last_update ∧
    (Update libm env2 (Update libm env1 st fuel1).state fuel2).state.dev
      = (Update libm env1 st fuel1).state.dev := by
  obtain ⟨hs1, ht1⟩ := Update_publishes libm env1 st fuel1 hpub
  have hgate : env2.GetTime - (Update libm env1 st fuel1).state.dev.m_last_update
      ≤ ((CheckConfig (Update libm env1 st fuel1).state.dev env2.GetConfig).dev.m_scan_count : ℚ)
        / (Update libm env1 st fuel1).state.dev.m_update_rate := by
    rw [hnone, ht1]
    show env2.GetTime - env1.GetTime
      ≤ ((Update libm env1 st fuel1).state.dev.m_scan_count : ℚ)
        / (Update libm env1 st fuel1).state.dev.m_update_rate
    linarith
  obtain ⟨r1, r2, r3, r4, r5, _, _, r8⟩ :=
    Update_closed libm env2 (Update libm env1 st fuel1).state fuel2 hsub2 hgate
  exact ⟨hs1, ht1, r1, r2, r3, r4, r5, r8 hnone⟩

/-- Witness for C12: the fresh device, subscribed, updated at time 1 (it
publishes) and again at time 11/10, within 361/1800 s of the first. -/
theorem C12_idempotent_within_interval_witness :
    publishes (Update axisLibM (examplePlayerEnv true 1 none) freshState 400) ∧
    ¬ publishes (Update axisLibM (examplePlayerEnv true (11 / 10) none)
      (Update axisLibM (examplePlayerEnv true 1 none) freshState 400).state 400) ∧
    (Update axisLibM (examplePlayerEnv true (11 / 10) none)
      (Update axisLibM (examplePlayerEnv true 1 none) freshState 400).state 400).state.data
      = (Update axisLibM (examplePlayerEnv true 1 none) freshState 400).state.data :=
  ⟨by decide!,
   (C12_idempotent_within_interval axisLibM (examplePlayerEnv true 1 none)
      (examplePlayerEnv true (11 / 10) none) freshState 400 400 (by decide!) rfl rfl
      (by decide!)).2.2.2.2.1,
   (C12_idempotent_within_interval axisLibM (examplePlayerEnv true 1 none)
      (examplePlayerEnv true (11 / 10) none) freshState 400 400 (by decide!) rfl rfl
      (by decide!)).2.2.2.2.2.1⟩

/-! ## Facts about reflectance and the range word -/

/-- The full record with which the ray of sample `s` stops at the first
step `k` with non-empty probes. -/
theorem castRay_hit_eq (libm : LibM) (world : CWorld) (dev : CLaserDevice) (ox oy oth : ℚ)
    (s : Int) (k fuel : Nat) (hppm : 0 < world.ppm)
    (hin : (k : ℚ) * (1 / world.ppm) < dev.m_max_range)
    (hhit : probesNonEmpty world (1 / world.ppm)
      (rayPoint libm world dev ox oy oth s k).1 (rayPoint libm world dev ox oy oth s k).2)
    (hfree : ∀ j : Nat, j < k → ¬ ((j : ℚ) * (1 / world.ppm) < dev.m_max_range ∧
      probesNonEmpty world (1 / world.ppm)
        (rayPoint libm world dev ox oy oth s j).1 (rayPoint libm world dev ox oy oth s j).2))
    (hfuel : k < fuel) :
    castRay libm world dev ox oy oth fuel s
      = some { range := (k : ℚ) * (1 / world.ppm)
               px := (rayPoint libm world dev ox oy oth s k).1
               py := (rayPoint libm world dev ox oy oth s k).2
               intensity :=
                 if probeCell world (1 / world.ppm) (rayPoint libm world dev ox oy oth s k).1
                     (rayPoint libm world dev ox oy oth s k).2 &&& 0x8F = 2 then 1 else 0 } := by
  have hdr : (0 : ℚ) < 1 / world.ppm := by positivity
  rw [castRay_eq_rayLoop]
  refine rayLoop_hit world _ _ _ _ k fuel ox oy ?_ hin ?_ hfuel
  · intro j hj
    have hjk : (j : ℚ) * (1 / world.ppm) < dev.m_max_range := by
      have : (j : ℚ) ≤ (k : ℚ) := by exact_mod_cast hj.le
      have := mul_le_mul_of_nonneg_right this hdr.le
      linarith
    refine ⟨hjk, ?_⟩
    by_contra hne
    exact hfree j hj ⟨hjk, (probeCell_ne_zero_iff _ _ _ _).mp hne⟩
  · exact (probeCell_ne_zero_iff _ _ _ _).mpr hhit

/-- The masked union of three cell values that are each empty or
reflective, one of them reflective, is the reflective marking. -/
theorem masked_or_eq_two (a b c : Nat)
    (ha : a &&& 0x8F = 0 ∨ a &&& 0x8F = 2) (hb : b &&& 0x8F = 0 ∨ b &&& 0x8F = 2)
    (hc : c &&& 0x8F = 0 ∨ c &&& 0x8F = 2)
    (hone : a &&& 0x8F = 2 ∨ b &&& 0x8F = 2 ∨ c &&& 0x8F = 2) :
    (a ||| b ||| c) &&& 0x8F = 2 := by
  rw [Nat.and_comm, Nat.and_or_distrib_left, Nat.and_or_distrib_left,
    Nat.and_comm 0x8F a, Nat.and_comm 0x8F b, Nat.and_comm 0x8F c]
  rcases ha with ha | ha <;> rcases hb with hb | hb <;> rcases hc with hc | hc <;>
    rw [ha, hb, hc] <;> first
      | rfl
      | (exfalso; rcases hone with h | h | h <;> omega)

/-- The ray loop leaves `range` between its initial value and
`max_range + dr`, and `intensity` at 0 or 1. -/
theorem rayLoop_bounds (world : CWorld) (dr dx dy max_range : ℚ) (hdr : 0 < dr) :
    ∀ (fuel : Nat) (range px py : ℚ) (hit : RayHit), range < max_range + dr →
      rayLoop world dr dx dy max_range fuel range px py = some hit →
      range ≤ hit.range ∧ hit.range < max_range + dr ∧ (hit.intensity = 0 ∨ hit.intensity = 1) := by
  intro fuel
  induction fuel with
  | zero => intro range px py hit _ h; simp [rayLoop] at h
  | succ n ih =>
    intro range px py hit hlt h
    rw [rayLoop] at h
    by_cases hr : range < max_range
    · rw [if_pos hr] at h
      by_cases hc : probeCell world dr px py ≠ 0
      · rw [if_pos hc] at h
        simp only [Option.some.injEq] at h
        subst h
        refine ⟨le_refl _, hlt, ?_⟩
        by_cases h2 : probeCell world dr px py &&& 0x8F = 2
        · right; simp [h2]
        · left; simp [h2]
      · rw [if_neg hc] at h
        obtain ⟨i1, i2, i3⟩ := ih (range + dr) (px + dx) (py + dy) hit (by linarith) h
        exact ⟨by linarith, i2, i3⟩
    · rw [if_neg hr] at h
      simp only [Option.some.injEq] at h
      subst h
      exact ⟨le_refl _, hlt, Or.inl rfl⟩

/-- The word of a sample whose millimetre range fits in 13 bits. -/
theorem rangeWord_split (m_intensity : Bool) (range : ℚ) (intensity : Nat)
    (h0 : 0 ≤ range) (h1 : ⌊1000 * range⌋ < 8192) (hi : intensity = 0 ∨ intensity = 1) :
    (m_intensity = true →
      ((rangeWord m_intensity range intensity % 8192 : Nat) : Int) = ⌊1000 * range⌋ ∧
      rangeWord m_intensity range intensity / 8192 = intensity) ∧
    (m_intensity = false →
      ((rangeWord m_intensity range intensity : Nat) : Int) = ⌊1000 * range⌋ ∧
      rangeWord m_intensity range intensity / 8192 = 0) := by
  have hnn : (0 : ℚ) ≤ 1000 * range := by positivity
  have hfl : 0 ≤ ⌊1000 * range⌋ := Int.floor_nonneg.mpr hnn
  have hv : toUInt16 (truncToInt (1000 * range)) = ⌊1000 * range⌋.toNat := by
    rw [truncToInt_of_nonneg hnn, toUInt16_of_range _ hfl (by omega)]
  have hvlt : ⌊1000 * range⌋.toNat < 8192 := by omega
  have hcast : ((⌊1000 * range⌋.toNat : Nat) : Int) = ⌊1000 * range⌋ := Int.toNat_of_nonneg hfl
  constructor
  · intro hm
    subst hm
    unfold rangeWord
    simp only [if_true, hv]
    rcases hi with hi | hi
    · subst hi
      have e0 : toUInt16 ((0 : Nat) : Int) = 0 := by decide
      rw [e0, Nat.zero_shiftLeft, Nat.or_zero,
        toUInt16_of_range _ (by omega) (by omega), Int.toNat_ofNat]
      refine ⟨?_, ?_⟩
      · rw [Nat.mod_eq_of_lt hvlt]; exact hcast
      · exact Nat.div_eq_of_lt hvlt
    · subst hi
      have e1 : toUInt16 ((1 : Nat) : Int) <<< 13 = 2 ^ 13 * 1 := by decide
      have hor : ⌊1000 * range⌋.toNat ||| 2 ^ 13 * 1 = 2 ^ 13 * 1 + ⌊1000 * range⌋.toNat := by
        rw [Nat.or_comm]
        exact (Nat.mul_add_lt_is_or (by simpa using hvlt) 1).symm
      rw [e1, hor, toUInt16_of_range _ (by omega) (by omega), Int.toNat_ofNat]
      refine ⟨?_, ?_⟩
      · have : (2 ^ 13 * 1 + ⌊1000 * range⌋.toNat) % 8192 = ⌊1000 * range⌋.toNat := by omega
        rw [this]; exact hcast
      · omega
  · intro hm
    subst hm
    unfold rangeWord
    simp only [Bool.false_eq_true, if_false, hv]
    exact ⟨hcast, Nat.div_eq_of_lt hvlt⟩

theorem ite_intensity (P : Prop) [Decidable P] :
    ((if P then 1 else 0 : Nat) = 1 ↔ P) ∧
    ((if P then 1 else 0 : Nat) = 0 ∨ (if P then 1 else 0 : Nat) = 1) := by
  by_cases h : P
  · rw [if_pos h]; exact ⟨⟨fun _ => h, fun _ => rfl⟩, Or.inr rfl⟩
  · rw [if_neg h]; exact ⟨⟨fun h1 => absurd h1 (by decide), fun h1 => absurd h1 h⟩, Or.inl rfl⟩

/-- The layout of the word of one sample, for rangeMax = 8 m and a grid step
of at most 0.19 m. -/
theorem castSample_layout (libm : LibM) (world : CWorld) (dev : CLaserDevice) (ox oy oth : ℚ)
    (s : Int) (fuel v : Nat) (px py : ℚ)
    (hppm : 0 < world.ppm) (hdr : 1 / world.ppm ≤ 19 / 100) (hmax : dev.m_max_range = 8)
    (h : castSample libm world dev ox oy oth fuel s = some (v, px, py)) :
    ∃ hit, castRay libm world dev ox oy oth fuel s = some hit ∧
      0 ≤ hit.range ∧ ⌊1000 * hit.range⌋ < 8192 ∧
      (hit.intensity = 0 ∨ hit.intensity = 1) ∧
      (dev.m_intensity = true →
        ((v % 8192 : Nat) : Int) = ⌊1000 * hit.range⌋ ∧ v / 8192 = hit.intensity) ∧
      (dev.m_intensity = false →
        ((v : Nat) : Int) = ⌊1000 * hit.range⌋ ∧ v / 8192 = 0) := by
  have hdrpos : (0 : ℚ) < 1 / world.ppm := by positivity
  unfold castSample at h
  cases hc : castRay libm world dev ox oy oth fuel s with
  | none => rw [hc] at h; simp at h
  | some hit =>
    rw [hc] at h
    simp only [Option.some.injEq, Prod.mk.injEq] at h
    have hb := rayLoop_bounds world (1 / world.ppm) _ _ dev.m_max_range hdrpos fuel 0 ox oy hit
      (by rw [hmax]; linarith) (by rw [← castRay_eq_rayLoop]; exact hc)
    obtain ⟨b1, b2, b3⟩ := hb
    rw [hmax] at b2
    have hfl : ⌊1000 * hit.range⌋ < 8192 := by
      apply Int.floor_lt.mpr
      push_cast
      linarith
    obtain ⟨w1, w2⟩ := rangeWord_split dev.m_intensity hit.range hit.intensity b1 hfl b3
    rw [h.1] at w1 w2
    exact ⟨hit, rfl, b1, hfl, b3, w1, w2⟩

/-! ## Claims on reflectance, the range word and the default request -/

/-- C15 (as amended). For every ray in `GenerateScanData` whose march stops
at step `k` (the first step with a non-empty probe), the sample is marked
reflectant (intensity 1) exactly when the bitwise OR of the three probed
cell values, with the sticky bits masked out (`& 0x8F`), equals 2, and has
intensity 0 otherwise. In particular it is marked reflectant when one of
the three probed cells carries the reflective marking and each of them is,
sticky bits ignored, empty or reflective. -/
theorem C15_reflectant_mark (libm : LibM) (world : CWorld) (dev : CLaserDevice) (ox oy oth : ℚ)
    (s : Int) (k fuel : Nat) (hppm : 0 < world.ppm)
    (hin : (k : ℚ) * (1 / world.ppm) < dev.m_max_range)
    (hhit : probesNonEmpty world (1 / world.ppm)
      (rayPoint libm world dev ox oy oth s k).1 (rayPoint libm world dev ox oy oth s k).2)
    (hfree : ∀ j : Nat, j < k → ¬ ((j : ℚ) * (1 / world.ppm) < dev.m_max_range ∧
      probesNonEmpty world (1 / world.ppm)
        (rayPoint libm world dev ox oy oth s j).1 (rayPoint libm world dev ox oy oth s j).2))
    (hfuel : k < fuel) :
    ∃ hit, castRay libm world dev ox oy oth fuel s = some hit ∧
      hit.range = (k : ℚ) * (1 / world.ppm) ∧
      (hit.intensity = 1 ↔
        probeCell world (1 / world.ppm) (rayPoint libm world dev ox oy oth s k).1
          (rayPoint libm world dev ox oy oth s k).2 &&& 0x8F = 2) ∧
      (hit.intensity = 0 ∨ hit.intensity = 1) ∧
      (anyProbeReflective world (1 / world.ppm)
          (rayPoint libm world dev ox oy oth s k).1 (rayPoint libm world dev ox oy oth s k).2 →
        allProbesEmptyOrReflective world (1 / world.ppm)
          (rayPoint libm world dev ox oy oth s k).1 (rayPoint libm world dev ox oy oth s k).2 →
        hit.intensity = 1) := by
  have hc := castRay_hit_eq libm world dev ox oy oth s k fuel hppm hin hhit hfree hfuel
  refine ⟨_, hc, rfl, (ite_intensity _).1, (ite_intensity _).2, ?_⟩
  intro hany hall
  have h2 : probeCell world (1 / world.ppm) (rayPoint libm world dev ox oy oth s k).1
      (rayPoint libm world dev ox oy oth s k).2 &&& 0x8F = 2 := by
    unfold probeCell
    unfold anyProbeReflective reflective at hany
    unfold allProbesEmptyOrReflective emptyOrReflective reflective at hall
    exact masked_or_eq_two _ _ _ hall.1 hall.2.1 hall.2.2 hany
  exact (ite_intensity _).1.mpr h2

/-- Witness for C15: in the mirror world the ray of bearing 0 from the
origin stops at step 0, where the probe one step to the right is
reflective (0x12) and the other two are empty; the sample is reflectant. -/
theorem C15_reflectant_mark_witness :
    anyProbeReflective mirrorWorld (1 / mirrorWorld.ppm)
      (rayPoint axisLibM mirrorWorld CLaserDevice.new 0 0 0 180 0).1
      (rayPoint axisLibM mirrorWorld CLaserDevice.new 0 0 0 180 0).2 ∧
    ∃ hit, castRay axisLibM mirrorWorld CLaserDevice.new 0 0 0 10 180 = some hit ∧
      hit.intensity = 1 := by
  obtain ⟨hit, h1, _, _, _, h5⟩ :=
    C15_reflectant_mark axisLibM mirrorWorld CLaserDevice.new 0 0 0 180 0 10
      (by decide!) (by decide!) (by decide!) (by intro j hj; omega) (by decide)
  exact ⟨by decide!, hit, h1, h5 (by decide!) (by decide!)⟩

/-- Counterexample to C15 as stated: in the mixed world the ray of bearing
0 from the origin stops at step 0, where the probe one step to the right
carries the reflective marking (cell value 2) while the cell at the origin
is an ordinary obstacle (value 1); the OR of the cells is 3 and the sample
is not marked reflectant. -/
theorem C15_any_probe_counterexample :
    reflective (mixedWorld.GetCell (0 + 1 / mixedWorld.ppm) 0) ∧
    anyProbeReflective mixedWorld (1 / mixedWorld.ppm)
      (rayPoint axisLibM mixedWorld CLaserDevice.new 0 0 0 180 0).1
      (rayPoint axisLibM mixedWorld CLaserDevice.new 0 0 0 180 0).2 ∧
    probeCell mixedWorld (1 / mixedWorld.ppm) 0 0 = 3 ∧
    castRay axisLibM mixedWorld CLaserDevice.new 0 0 0 10 180
      = some { range := 0, px := 0, py := 0, intensity := 0 } := by
  refine ⟨by decide!, by decide!, by decide!, by decide!⟩

/-- C17. Whatever the device held before, the request resolution = 50,
minAngle = -9000, maxAngle = +9000 is accepted by `CheckConfig` and yields
361 samples, with the sample count, resolution and angle range that the
constructor sets. -/
theorem C17_default_request (dev : CLaserDevice) (intensity : Nat) :
    (CheckConfig dev (some (wireConfig 50 (-9000) 9000 intensity))).ret = true ∧
    (CheckConfig dev (some (wireConfig 50 (-9000) 9000 intensity))).dev.m_scan_count = 361 ∧
    (CheckConfig dev (some (wireConfig 50 (-9000) 9000 intensity))).dev.m_scan_count
      = CLaserDevice.new.m_scan_count ∧
    (CheckConfig dev (some (wireConfig 50 (-9000) 9000 intensity))).dev.m_scan_res
      = CLaserDevice.new.m_scan_res ∧
    (CheckConfig dev (some (wireConfig 50 (-9000) 9000 intensity))).dev.m_scan_min
      = CLaserDevice.new.m_scan_min ∧
    (CheckConfig dev (some (wireConfig 50 (-9000) 9000 intensity))).dev.m_scan_max
      = CLaserDevice.new.m_scan_max := by
  have e0 : ntohs (wireConfig 50 (-9000) 9000 intensity).resolution = 50 := by
    show ntohs (htons 50) = 50
    decide
  have e1 : ntohsInt16 (wireConfig 50 (-9000) 9000 intensity).min_angle = -9000 := by
    show ntohsInt16 (toInt16 (htons (toUInt16 (-9000)))) = -9000
    decide
  have e2 : ntohsInt16 (wireConfig 50 (-9000) 9000 intensity).max_angle = 9000 := by
    show ntohsInt16 (toInt16 (htons (toUInt16 9000))) = 9000
    decide
  rcases CheckConfig_cases dev (wireConfig 50 (-9000) 9000 intensity) with
    ⟨h25, _⟩ | ⟨_, e⟩ | ⟨_, h50, _, _⟩
  · rw [e0] at h25; exact absurd h25 (by decide)
  · rw [e, e0, e1, e2]
    have hcount : truncToInt ((DTOR (((9000 : Int) : ℚ) / 100) - DTOR (((-9000 : Int) : ℚ) / 100))
        / DTOR (((50 : Nat) : ℚ) / 100)) + 1 = 361 := by decide!
    refine ⟨rfl, hcount, hcount, ?_, ?_, ?_⟩
    · show DTOR (((50 : Nat) : ℚ) / 100) = DTOR (50 / 100)
      norm_num
    · show DTOR (((-9000 : Int) : ℚ) / 100) = DTOR (-90)
      norm_num
    · show DTOR (((9000 : Int) : ℚ) / 100) = DTOR 90
      norm_num
  · exact absurd e0 h50

/-! ## Facts about sample skipping -/

theorem skipLoop_length (count : Int) (w : Nat) :
    ∀ (n : Nat) (s : Int), (skipLoop count w n s).2.length = min n (count - s).toNat := by
  intro n
  induction n with
  | zero => intro s; simp [skipLoop]
  | succ n ih =>
    intro s
    rw [skipLoop]
    by_cases h : s < count
    · rw [if_pos h]
      simp only [List.length_cons, ih (s + 1)]
      omega
    · rw [if_neg h]
      simp only [List.length_nil]
      omega

theorem skipLoop_get (count : Int) (w : Nat) :
    ∀ (n : Nat) (s : Int) (j : Nat), j < (skipLoop count w n s).2.length →
      (skipLoop count w n s).2[j]? = some (s + (j : Int), w) := by
  intro n
  induction n with
  | zero => intro s j h; simp [skipLoop] at h
  | succ n ih =>
    intro s j h
    rw [skipLoop] at h ⊢
    by_cases hs : s < count
    · rw [if_pos hs] at h ⊢
      cases j with
      | zero => simp
      | succ j =>
        simp only [List.length_cons] at h
        simp only [List.getElem?_cons_succ]
        rw [ih (s + 1) j (by omega)]
        congr 2
        push_cast
        ring
    · rw [if_neg hs] at h
      simp at h

/-- One iteration of the scan loop, read backwards from its result. -/
theorem scanLoop_succ_inv (cast : Int → Option (Nat × ℚ × ℚ)) (skip count : Int)
    (fuel : Nat) (s : Int) (ws : List (Int × Nat)) (hs : List (ℚ × ℚ)) (hlt : s < count)
    (h : scanLoop cast skip count (fuel + 1) s = Outcome.ok (ws, hs)) :
    ∃ v px py ws2 hs2, cast s = some (v, px, py) ∧
      scanLoop cast skip count fuel (skipLoop count (htons v) skip.toNat (s + 1)).1
        = Outcome.ok (ws2, hs2) ∧
      ws = (s, htons v) :: ((skipLoop count (htons v) skip.toNat (s + 1)).2 ++ ws2) ∧
      hs = (px, py) :: hs2 := by
  rw [scanLoop, if_pos hlt] at h
  cases hc : cast s with
  | none => rw [hc] at h; cases h
  | some vp =>
    obtain ⟨v, px, py⟩ := vp
    rw [hc] at h
    simp only at h
    cases hr : scanLoop cast skip count fuel (skipLoop count (htons v) skip.toNat (s + 1)).1 with
    | assertFailed => rw [hr] at h; cases h
    | outOfFuel => rw [hr] at h; cases h
    | ok p =>
      obtain ⟨ws2, hs2⟩ := p
      rw [hr] at h
      simp only [Outcome.ok.injEq, Prod.mk.injEq] at h
      exact ⟨v, px, py, ws2, hs2, rfl, hr, h.1.symm, h.2.symm⟩

/-- The scan loop entered at or beyond `count` does nothing. -/
theorem scanLoop_done (cast : Int → Option (Nat × ℚ × ℚ)) (skip count : Int)
    (fuel : Nat) (s : Int) (ws : List (Int × Nat)) (hs : List (ℚ × ℚ)) (hge : ¬ s < count)
    (h : scanLoop cast skip count fuel s = Outcome.ok (ws, hs)) : ws = [] ∧ hs = [] := by
  cases fuel with
  | zero =>
    rw [scanLoop, if_neg hge] at h
    simp only [Outcome.ok.injEq, Prod.mk.injEq] at h
    exact ⟨h.1.symm, h.2.symm⟩
  | succ n =>
    rw [scanLoop, if_neg hge] at h
    simp only [Outcome.ok.injEq, Prod.mk.injEq] at h
    exact ⟨h.1.symm, h.2.symm⟩

/-- The word stored at the `j`-th index from the entry index `s` of the
scan loop is the word of the ray cast `j mod (skip + 1)` indices before. -/
theorem scanLoop_words (cast : Int → Option (Nat × ℚ × ℚ)) (skip count : Int) :
    ∀ (fuel : Nat) (s : Int) (ws : List (Int × Nat)) (hs : List (ℚ × ℚ)),
      scanLoop cast skip count fuel s = Outcome.ok (ws, hs) →
      ∀ j : Nat, j < (count - s).toNat →
        ∃ v px py, cast (s + ((j - j % (skip.toNat + 1) : Nat) : Int)) = some (v, px, py) ∧
          ws[j]? = some (s + (j : Int), htons v) := by
  intro fuel
  induction fuel with
  | zero =>
    intro s ws hs h j hj
    rw [scanLoop] at h
    rw [if_pos (by omega)] at h
    cases h
  | succ n ih =>
    intro s ws hs h j hj
    have hlt : s < count := by omega
    obtain ⟨v, px, py, ws2, hs2, hc, hr, hws, _⟩ :=
      scanLoop_succ_inv cast skip count n s ws hs hlt h
    have hlen := skipLoop_length count (htons v) skip.toNat (s + 1)
    obtain ⟨hfin, _, _, _, _⟩ := skipLoop_spec count (htons v) skip.toNat (s + 1)
    subst hws
    cases j with
    | zero =>
      refine ⟨v, px, py, ?_, ?_⟩
      · simpa using hc
      · simp
    | succ j =>
      rw [List.getElem?_cons_succ]
      by_cases hj2 : j < (skipLoop count (htons v) skip.toNat (s + 1)).2.length
      · -- a replicated word
        have hjn : j + 1 < skip.toNat + 1 := by omega
        refine ⟨v, px, py, ?_, ?_⟩
        · rw [Nat.mod_eq_of_lt hjn, Nat.sub_self]
          simpa using hc
        · rw [List.getElem?_append_left hj2, skipLoop_get count (htons v) skip.toNat (s + 1) j hj2]
          congr 2
          push_cast
          ring
      · -- beyond the block: the next ray cast
        have hfull : (skipLoop count (htons v) skip.toNat (s + 1)).2.length = skip.toNat := by
          omega
        rw [List.getElem?_append_right (by omega), hfull]
        rw [hfull] at hfin
        obtain ⟨v2, px2, py2, hc2, hw2⟩ := ih _ ws2 hs2 hr (j - skip.toNat) (by omega)
        refine ⟨v2, px2, py2, ?_, ?_⟩
        · have hmod : (j + 1) % (skip.toNat + 1) = (j - skip.toNat) % (skip.toNat + 1) := by
            have : j + 1 = (j - skip.toNat) + (skip.toNat + 1) := by omega
            rw [this, Nat.add_mod_right]
          have hle := Nat.mod_le (j - skip.toNat) (skip.toNat + 1)
          have hidx : s + ((j + 1 - (j + 1) % (skip.toNat + 1) : Nat) : Int)
              = (skipLoop count (htons v) skip.toNat (s + 1)).1
                + ((j - skip.toNat - (j - skip.toNat) % (skip.toNat + 1) : Nat) : Int) := by
            rw [hfin, hmod]
            omega
          rw [hidx]; exact hc2
        · rw [hw2, hfin]
          congr 2
          omega

/-- The ray casts of the scan loop are those at the entry index `s` and
every `skip + 1` indices from there, as long as below `count`; each leaves
one entry in the list of hit points. -/
theorem scanLoop_casts (cast : Int → Option (Nat × ℚ × ℚ)) (skip count : Int) :
    ∀ (fuel : Nat) (s : Int) (ws : List (Int × Nat)) (hs : List (ℚ × ℚ)),
      scanLoop cast skip count fuel s = Outcome.ok (ws, hs) →
      ∀ i : Nat,
        (s + ((i * (skip.toNat + 1) : Nat) : Int) < count →
          ∃ v px py, cast (s + ((i * (skip.toNat + 1) : Nat) : Int)) = some (v, px, py) ∧
            hs[i]? = some (px, py)) ∧
        (count ≤ s + ((i * (skip.toNat + 1) : Nat) : Int) → hs[i]? = none) := by
  intro fuel
  induction fuel with
  | zero =>
    intro s ws hs h i
    by_cases hlt : s < count
    · rw [scanLoop, if_pos hlt] at h; cases h
    · obtain ⟨_, rfl⟩ := scanLoop_done cast skip count 0 s ws hs hlt h
      refine ⟨fun hi => ?_, fun _ => rfl⟩
      have : (0 : Int) ≤ ((i * (skip.toNat + 1) : Nat) : Int) := Int.natCast_nonneg _
      omega
  | succ n ih =>
    intro s ws hs h i
    by_cases hlt : s < count
    · obtain ⟨v, px, py, ws2, hs2, hc, hr, _, hhs⟩ :=
        scanLoop_succ_inv cast skip count n s ws hs hlt h
      have hlen := skipLoop_length count (htons v) skip.toNat (s + 1)
      obtain ⟨hfin, _, _, _, _⟩ := skipLoop_spec count (htons v) skip.toNat (s + 1)
      subst hhs
      cases i with
      | zero =>
        refine ⟨fun _ => ⟨v, px, py, by simpa using hc, by simp⟩, fun hge => ?_⟩
        simp at hge
        omega
      | succ i =>
        rw [List.getElem?_cons_succ]
        have hprod : (((i + 1) * (skip.toNat + 1) : Nat) : Int)
            = ((i * (skip.toNat + 1) : Nat) : Int) + ((skip.toNat : Nat) : Int) + 1 := by
          push_cast; ring
        have hnn : (0 : Int) ≤ ((i * (skip.toNat + 1) : Nat) : Int) := Int.natCast_nonneg _
        by_cases hfull : (skipLoop count (htons v) skip.toNat (s + 1)).2.length = skip.toNat
        · rw [hfull] at hfin
          have hidx : s + (((i + 1) * (skip.toNat + 1) : Nat) : Int)
              = (skipLoop count (htons v) skip.toNat (s + 1)).1
                + ((i * (skip.toNat + 1) : Nat) : Int) := by
            rw [hfin, hprod]; ring
          rw [hidx]
          exact ih _ ws2 hs2 hr i
        · -- the block was cut short at `count`: the loop is over
          have hend : ¬ (skipLoop count (htons v) skip.toNat (s + 1)).1 < count := by omega
          obtain ⟨_, rfl⟩ := scanLoop_done cast skip count n _ ws2 hs2 hend hr
          refine ⟨fun hi => ?_, fun _ => rfl⟩
          rw [hprod] at hi
          omega
    · obtain ⟨_, rfl⟩ := scanLoop_done cast skip count (n + 1) s ws hs hlt h
      refine ⟨fun hi => ?_, fun _ => rfl⟩
      have : (0 : Int) ≤ ((i * (skip.toNat + 1) : Nat) : Int) := Int.natCast_nonneg _
      omega

/-- The words and the ray casts of a run of `GenerateScanData` that returns,
in terms of the ray casts of the single samples. -/
theorem GenerateScanData_skip (libm : LibM) (world : CWorld) (ox oy oth : ℚ) (dev : CLaserDevice)
    (data : player_laser_data_t) (fuel : Nat) (out : ScanOutput)
    (h : GenerateScanData libm world ox oy oth dev data fuel = Outcome.ok out) :
    (0 ≤ scanSkip world dev → (((scanSkip world dev).toNat : Nat) : Int) = scanSkip world dev) ∧
    (∀ s : Nat, (s : Int) < dev.m_scan_count →
      ∃ v px py,
        castSample libm world dev ox oy oth fuel
            (((s - s % ((scanSkip world dev).toNat + 1) : Nat) : Nat) : Int) = some (v, px, py) ∧
        out.writes[s]? = some ((s : Int), htons v)) ∧
    (∀ i : Nat,
      ((((i * ((scanSkip world dev).toNat + 1) : Nat) : Nat) : Int) < dev.m_scan_count →
        ∃ v px py,
          castSample libm world dev ox oy oth fuel
              (((i * ((scanSkip world dev).toNat + 1) : Nat) : Nat) : Int) = some (v, px, py) ∧
          out.hitPts[i]? = some (px, py)) ∧
      (dev.m_scan_count ≤ (((i * ((scanSkip world dev).toNat + 1) : Nat) : Nat) : Int) →
        out.hitPts[i]? = none)) ∧
    (scanSkip world dev ≤ 0 → ∀ s : Nat, (s : Int) < dev.m_scan_count →
      ∃ v px py, castSample libm world dev ox oy oth fuel (s : Int) = some (v, px, py) ∧
        out.writes[s]? = some ((s : Int), htons v) ∧
        out.hitPts[s]? = some (px, py)) := by
  unfold GenerateScanData at h
  simp only at h
  by_cases hcap : dev.m_scan_count ≤ (PLAYER_NUM_LASER_SAMPLES : Int)
  · rw [if_pos hcap] at h
    cases hr : scanLoop (castSample libm world dev ox oy oth fuel)
        (truncToInt (world.m_laser_res / dev.m_scan_res - 1 / 2)) dev.m_scan_count fuel 0 with
    | assertFailed => rw [hr] at h; cases h
    | outOfFuel => rw [hr] at h; cases h
    | ok p =>
      obtain ⟨ws, hs⟩ := p
      rw [hr] at h
      simp only [Outcome.ok.injEq] at h
      subst h
      have hw := scanLoop_words _ _ _ fuel 0 ws hs hr
      have hc := scanLoop_casts _ _ _ fuel 0 ws hs hr
      have hwords : ∀ s : Nat, (s : Int) < dev.m_scan_count →
          ∃ v px py,
            castSample libm world dev ox oy oth fuel
                (((s - s % ((scanSkip world dev).toNat + 1) : Nat) : Nat) : Int)
              = some (v, px, py) ∧
            ws[s]? = some ((s : Int), htons v) := by
        intro s hs2
        obtain ⟨v, px, py, h1, h2⟩ := hw s (by omega)
        rw [zero_add] at h1 h2
        exact ⟨v, px, py, h1, h2⟩
      have hcasts : ∀ i : Nat,
          ((((i * ((scanSkip world dev).toNat + 1) : Nat) : Nat) : Int) < dev.m_scan_count →
            ∃ v px py,
              castSample libm world dev ox oy oth fuel
                  (((i * ((scanSkip world dev).toNat + 1) : Nat) : Nat) : Int)
                = some (v, px, py) ∧
              hs[i]? = some (px, py)) ∧
          (dev.m_scan_count ≤ (((i * ((scanSkip world dev).toNat + 1) : Nat) : Nat) : Int) →
            hs[i]? = none) := by
        intro i
        have := hc i
        rw [zero_add] at this
        exact this
      refine ⟨fun h0 => Int.toNat_of_nonneg h0, hwords, hcasts, ?_⟩
      intro hle s hs2
      have hz : (scanSkip world dev).toNat = 0 := by omega
      obtain ⟨v, px, py, h1, h2⟩ := hwords s hs2
      obtain ⟨v2, px2, py2, h3, h4⟩ := (hcasts s).1 (by rw [hz]; simpa using hs2)
      rw [hz] at h1 h3
      simp only [zero_add, Nat.mod_one, Nat.sub_zero, Nat.mul_one] at h1 h3
      rw [h1] at h3
      simp only [Option.some.injEq, Prod.mk.injEq] at h3
      rw [← h3.2.1, ← h3.2.2] at h4
      exact ⟨v, px, py, h1, h2, h4⟩
  · rw [if_neg hcap] at h
    cases h

/-! ## Claims on sample skipping and bearings -/

/-- C16. With rangeMax = 8 m and a grid step 0 < dr <= 0.19 m, for every
sample word v that a ray cast of `GenerateScanData` computes, and so for
the word stored (as `htons v`) in every slot below sampleCount when
`GenerateScanData` returns: the range of the ray is not negative and its
millimetre value floor(1000 * range) is below 8192 (it never reaches the
top 3 bits), the intensity is 0 or 1, and v (the 16-bit word before byte
order conversion) satisfies: with reflectance reporting on,
v mod 8192 = floor(1000 * range) and v div 8192 = intensity; with
reporting off, v = floor(1000 * range) and v div 8192 = 0 whatever the
intensity. -/
theorem C16_range_word_layout (libm : LibM) (world : CWorld) (dev : CLaserDevice) (ox oy oth : ℚ)
    (fuel : Nat)
    (hppm : 0 < world.ppm) (hdr : 1 / world.ppm ≤ 19 / 100) (hmax : dev.m_max_range = 8) :
    (∀ (s : Int) (v : Nat) (px py : ℚ),
      castSample libm world dev ox oy oth fuel s = some (v, px, py) →
      ∃ hit, castRay libm world dev ox oy oth fuel s = some hit ∧
        0 ≤ hit.range ∧ ⌊1000 * hit.range⌋ < 8192 ∧
        (hit.intensity = 0 ∨ hit.intensity = 1) ∧
        (dev.m_intensity = true →
          ((v % 8192 : Nat) : Int) = ⌊1000 * hit.range⌋ ∧ v / 8192 = hit.intensity) ∧
        (dev.m_intensity = false →
          ((v : Nat) : Int) = ⌊1000 * hit.range⌋ ∧ v / 8192 = 0)) ∧
    (∀ (data : player_laser_data_t) (out : ScanOutput),
      GenerateScanData libm world ox oy oth dev data fuel = Outcome.ok out →
      ∀ s : Nat, (s : Int) < dev.m_scan_count →
        ∃ v hit, out.writes[s]? = some ((s : Int), htons v) ∧
          castRay libm world dev ox oy oth fuel
              (((s - s % ((scanSkip world dev).toNat + 1) : Nat) : Nat) : Int) = some hit ∧
          0 ≤ hit.range ∧ ⌊1000 * hit.range⌋ < 8192 ∧
          (hit.intensity = 0 ∨ hit.intensity = 1) ∧
          (dev.m_intensity = true →
            ((v % 8192 : Nat) : Int) = ⌊1000 * hit.range⌋ ∧ v / 8192 = hit.intensity) ∧
          (dev.m_intensity = false →
            ((v : Nat) : Int) = ⌊1000 * hit.range⌋ ∧ v / 8192 = 0)) := by
  refine ⟨fun s v px py h =>
    castSample_layout libm world dev ox oy oth s fuel v px py hppm hdr hmax h, ?_⟩
  intro data out h s hs
  obtain ⟨v, px, py, h1, h2⟩ :=
    (GenerateScanData_skip libm world ox oy oth dev data fuel out h).2.1 s hs
  obtain ⟨hit, g1, g2, g3, g4, g5, g6⟩ :=
    castSample_layout libm world dev ox oy oth _ fuel v px py hppm hdr hmax h1
  exact ⟨v, hit, h2, g1, g2, g3, g4, g5, g6⟩

/-- Witness for C16: sample 180 of the fresh device in the wall world (grid
step 0.05 m), whose word is 4950. -/
theorem C16_range_word_layout_witness :
    (0 : ℚ) < wallWorld.ppm ∧ 1 / wallWorld.ppm ≤ (19 : ℚ) / 100 ∧
    CLaserDevice.new.m_max_range = 8 ∧
    castSample axisLibM wallWorld CLaserDevice.new 0 0 0 100 180 = some (4950, 99 / 20, 0) ∧
    ∃ hit, castRay axisLibM wallWorld CLaserDevice.new 0 0 0 100 180 = some hit ∧
      0 ≤ hit.range ∧ ⌊1000 * hit.range⌋ < 8192 := by
  obtain ⟨hit, h1, h2, h3, _⟩ :=
    (C16_range_word_layout axisLibM wallWorld CLaserDevice.new 0 0 0 100
      (by decide!) (by decide!) rfl).1 180 4950 (99 / 20) 0 (by decide!)
  exact ⟨by decide!, by decide!, rfl, by decide!, hit, h1, h2, h3⟩

/-- C18. Whenever `GenerateScanData` returns, with `skip` the value it
computed: the word stored at every index s < sampleCount is the word of the
ray cast at index s - (s mod (skip + 1)) (for skip >= 0; `skip.toNat` is
skip then); the ray casts performed, each leaving one hit point, are those
at the indices 0, skip + 1, 2 (skip + 1), ... below sampleCount and no
others; and when skip <= 0 every index gets the word of its own ray cast. -/
theorem C18_sample_skip (libm : LibM) (world : CWorld) (ox oy oth : ℚ) (dev : CLaserDevice)
    (data : player_laser_data_t) (fuel : Nat) (out : ScanOutput)
    (h : GenerateScanData libm world ox oy oth dev data fuel = Outcome.ok out) :
    (0 ≤ scanSkip world dev → (((scanSkip world dev).toNat : Nat) : Int) = scanSkip world dev) ∧
    (∀ s : Nat, (s : Int) < dev.m_scan_count →
      ∃ v px py,
        castSample libm world dev ox oy oth fuel
            (((s - s % ((scanSkip world dev).toNat + 1) : Nat) : Nat) : Int) = some (v, px, py) ∧
        out.writes[s]? = some ((s : Int), htons v)) ∧
    (∀ i : Nat,
      ((((i * ((scanSkip world dev).toNat + 1) : Nat) : Nat) : Int) < dev.m_scan_count →
        ∃ v px py,
          castSample libm world dev ox oy oth fuel
              (((i * ((scanSkip world dev).toNat + 1) : Nat) : Nat) : Int) = some (v, px, py) ∧
          out.hitPts[i]? = some (px, py)) ∧
      (dev.m_scan_count ≤ (((i * ((scanSkip world dev).toNat + 1) : Nat) : Nat) : Int) →
        out.hitPts[i]? = none)) ∧
    (scanSkip world dev ≤ 0 → ∀ s : Nat, (s : Int) < dev.m_scan_count →
      ∃ v px py, castSample libm world dev ox oy oth fuel (s : Int) = some (v, px, py) ∧
        out.writes[s]? = some ((s : Int), htons v) ∧
        out.hitPts[s]? = some (px, py)) :=
  GenerateScanData_skip libm world ox oy oth dev data fuel out h

/-- Witness for C18: five samples with skip = 1; the indices 0 and 1 hold
the word of the ray cast at 0 (2000 mm), the indices 2 and 3 that of the
cast at 2 and index 4 its own (3000 mm), and three casts are made. -/
theorem C18_sample_skip_witness :
    GenerateScanData slopeLibM skipWorld 0 0 0 fiveSampleDevice blankData 20
      = Outcome.ok skipScan ∧
    scanSkip skipWorld fiveSampleDevice = 1 ∧
    skipScan.writes
      = [(0, htons 2000), (1, htons 2000), (2, htons 3000), (3, htons 3000), (4, htons 3000)] ∧
    skipScan.hitPts.length = 3 ∧
    ∃ v px py,
      castSample slopeLibM skipWorld fiveSampleDevice 0 0 0 20
          (((3 - 3 % ((scanSkip skipWorld fiveSampleDevice).toNat + 1) : Nat) : Nat) : Int)
        = some (v, px, py) ∧
      skipScan.writes[3]? = some (((3 : Nat) : Int), htons v) :=
  ⟨by decide!, by decide!, by decide!, by decide!,
   (C18_sample_skip slopeLibM skipWorld 0 0 0 fiveSampleDevice blankData 20 skipScan
      (by decide!)).2.1 3 (by decide)⟩

/-- C20 (as amended). In `laser_update`, for every subscribed sensor whose
configuration has samples >= 1 and fov > 0, sample t is cast at the bearing
heading - fov/2 + t * fov/samples: the bearings are strictly increasing,
the first ray is cast at heading - fov/2, and the last ray at
heading + fov/2 - fov/samples, one increment short of heading + fov/2. -/
theorem C20_sample_bearings (env : StgEnv) (mod : stg_model_t) (cfg : stg_laser_config_t)
    (hsubs : 1 ≤ mod.subs) (hcfg : mod.cfg = some cfg)
    (hsamples : 1 ≤ cfg.samples) (hfov : 0 < cfg.fov) :
    ∃ scan, laser_update env mod = Outcome.ok (some scan) ∧
      scan.length = cfg.samples.toNat ∧
      (∀ t : Nat, t < cfg.samples.toNat →
        scan[t]? = some (laser_sample env mod cfg (env.stg_model_local_to_global mod mod.pose)
          (sampleBearing env mod cfg t))) ∧
      (∀ t u : Nat, t < u → sampleBearing env mod cfg t < sampleBearing env mod cfg u) ∧
      sampleBearing env mod cfg 0
        = (env.stg_model_local_to_global mod mod.pose).a - cfg.fov / 2 ∧
      sampleBearing env mod cfg (cfg.samples.toNat - 1)
        = (env.stg_model_local_to_global mod mod.pose).a + cfg.fov / 2
          - cfg.fov / (cfg.samples : ℚ) ∧
      sampleBearing env mod cfg (cfg.samples.toNat - 1)
        < (env.stg_model_local_to_global mod mod.pose).a + cfg.fov / 2 := by
  have hsq : (0 : ℚ) < (cfg.samples : ℚ) := by exact_mod_cast (by omega : (0 : Int) < cfg.samples)
  have hinc : (0 : ℚ) < cfg.fov / (cfg.samples : ℚ) := div_pos hfov hsq
  have hlast : sampleBearing env mod cfg (cfg.samples.toNat - 1)
      = (env.stg_model_local_to_global mod mod.pose).a + cfg.fov / 2
        - cfg.fov / (cfg.samples : ℚ) := by
    unfold sampleBearing
    have hc : ((cfg.samples.toNat - 1 : Nat) : ℚ) = (cfg.samples : ℚ) - 1 := by
      have h1 : 1 ≤ cfg.samples.toNat := by omega
      rw [Nat.cast_sub h1]
      have h2 : ((cfg.samples.toNat : Nat) : Int) = cfg.samples := Int.toNat_of_nonneg (by omega)
      have h3 : ((cfg.samples.toNat : Nat) : ℚ) = (cfg.samples : ℚ) := by exact_mod_cast h2
      rw [h3]; simp
    rw [hc]
    field_simp
    ring
  unfold laser_update
  rw [if_neg (by omega), hcfg]
  obtain ⟨h1, h2⟩ := laser_scan_spec env mod cfg (env.stg_model_local_to_global mod mod.pose)
    (cfg.fov / (cfg.samples : ℚ)) cfg.samples.toNat
    ((env.stg_model_local_to_global mod mod.pose).a - cfg.fov / 2)
  refine ⟨_, rfl, h1, fun t ht => by rw [h2 t ht]; rfl, ?_, ?_, hlast, ?_⟩
  · intro t u htu
    unfold sampleBearing
    have : (t : ℚ) < (u : ℚ) := by exact_mod_cast htu
    have := mul_lt_mul_of_pos_right this hinc
    linarith
  · unfold sampleBearing; simp
  · rw [hlast]; linarith

/-- Witness for C20: the laser at heading 1 with fov 1 and two samples. -/
theorem C20_sample_bearings_witness :
    (1 : Int) ≤ headingOneLaser.subs ∧ (1 : Int) ≤ headingOneCfg.samples ∧
    (0 : ℚ) < headingOneCfg.fov ∧
    ∃ scan, laser_update bearingEchoEnv headingOneLaser = Outcome.ok (some scan) ∧
      scan.length = headingOneCfg.samples.toNat := by
  obtain ⟨scan, h1, h2, _⟩ :=
    C20_sample_bearings bearingEchoEnv headingOneLaser headingOneCfg (by decide) rfl (by decide)
      (by decide!)
  exact ⟨by decide, by decide, by decide!, scan, h1, h2⟩

/-- Counterexample to C20 as stated: a subscribed laser at heading 1 rad
with fov = 1 rad and 2 samples, in an environment whose traversal reports
the bearing it was created with as the range of its one occupant. The two
rays are cast at the bearings 1/2 and 1 (recorded as 500 and 1000): the
last ray is at heading, not at heading + fov/2 = 3/2. -/
theorem C20_last_bearing_counterexample :
    (1 : Int) ≤ headingOneLaser.subs ∧ headingOneLaser.cfg = some headingOneCfg ∧
    (1 : Int) ≤ headingOneCfg.samples ∧ (0 : ℚ) < headingOneCfg.fov ∧
    laser_update bearingEchoEnv headingOneLaser
      = Outcome.ok (some [{ range := 500, reflectance := 0 }, { range := 1000, reflectance := 0 }]) ∧
    sampleBearing bearingEchoEnv headingOneLaser headingOneCfg (headingOneCfg.samples.toNat - 1) = 1 ∧
    (bearingEchoEnv.stg_model_local_to_global headingOneLaser headingOneLaser.pose).a
      + headingOneCfg.fov / 2 = 3 / 2 := by
  refine ⟨by decide, rfl, by decide, by decide!, by decide!, by decide!, by decide!⟩

/-! ## Facts about the fine bucket and the capacity assertion -/

theorem specClamp_bounds (a : Int) : -5000 ≤ specClamp a ∧ specClamp a ≤ 5000 := by
  unfold specClamp
  split_ifs <;> omega

theorem DTOR_quot (a b r : ℚ) (hr : r ≠ 0) :
    (DTOR (b / 100) - DTOR (a / 100)) / DTOR (r / 100) = (b - a) / r := by
  unfold DTOR
  have hp : M_PI ≠ 0 := ne_of_gt M_PI_pos
  field_simp
  ring

theorem truncToInt_le {x : ℚ} {n : Int} (h : x ≤ (n : ℚ)) : truncToInt x ≤ n := by
  unfold truncToInt
  split_ifs with h0
  · have h1 : ((⌊x⌋ : Int) : ℚ) ≤ (n : ℚ) := le_trans (Int.floor_le x) h
    exact_mod_cast h1
  · exact Int.ceil_le.mpr h

theorem truncToInt_nonneg {x : ℚ} (h : 0 ≤ x) : 0 ≤ truncToInt x := by
  rw [truncToInt_of_nonneg h]
  exact Int.floor_nonneg.mpr h

/-- The count that a request with resolution 25 stores, in terms of the
clamped angles in centidegrees. -/
theorem CheckConfig_fine_count (dev : CLaserDevice) (config : player_laser_config_t)
    (h : ntohs config.resolution = 25) :
    (CheckConfig dev (some config)).ret = true ∧
    (CheckConfig dev (some config)).dev.m_scan_count
      = truncToInt ((((specClamp (ntohsInt16 config.max_angle) : Int) : ℚ)
          - ((specClamp (ntohsInt16 config.min_angle) : Int) : ℚ)) / 25) + 1 := by
  rcases CheckConfig_cases dev config with ⟨_, e⟩ | ⟨hr, _⟩ | ⟨h25, _⟩
  · rw [e]
    refine ⟨rfl, ?_⟩
    show truncToInt ((DTOR _ - DTOR _) / DTOR _) + 1 = _
    rw [DTOR_quot _ _ 25 (by norm_num), specClamp_eq, specClamp_eq]
  · rcases hr with hr | hr <;> rw [h] at hr <;> exact absurd hr (by decide)
  · exact absurd h h25

/-- The scan loop contains no assertion. -/
theorem scanLoop_ne_assertFailed (cast : Int → Option (Nat × ℚ × ℚ)) (skip count : Int) :
    ∀ (fuel : Nat) (s : Int), scanLoop cast skip count fuel s ≠ Outcome.assertFailed := by
  intro fuel
  induction fuel with
  | zero =>
    intro s h
    rw [scanLoop] at h
    split_ifs at h
  | succ n ih =>
    intro s h
    rw [scanLoop] at h
    by_cases hlt : s < count
    · rw [if_pos hlt] at h
      cases hc : cast s with
      | none => rw [hc] at h; cases h
      | some vp =>
        obtain ⟨v, px, py⟩ := vp
        rw [hc] at h
        simp only at h
        cases hr : scanLoop cast skip count n (skipLoop count (htons v) skip.toNat (s + 1)).1 with
        | ok p => rw [hr] at h; cases h
        | assertFailed => exact ih _ hr
        | outOfFuel => rw [hr] at h; cases h
    · rw [if_neg hlt] at h
      cases h

/-- The assertion of `GenerateScanData` fails exactly when the sample count
is above the number of slots. -/
theorem GenerateScanData_assertFailed_iff (libm : LibM) (world : CWorld) (ox oy oth : ℚ)
    (dev : CLaserDevice) (data : player_laser_data_t) (fuel : Nat) :
    GenerateScanData libm world ox oy oth dev data fuel = Outcome.assertFailed
      ↔ (PLAYER_NUM_LASER_SAMPLES : Int) < dev.m_scan_count := by
  constructor
  · intro h
    by_contra hn
    unfold GenerateScanData at h
    simp only at h
    rw [if_pos (not_lt.mp hn)] at h
    cases hr : scanLoop (castSample libm world dev ox oy oth fuel)
        (truncToInt (world.m_laser_res / dev.m_scan_res - 1 / 2)) dev.m_scan_count fuel 0 with
    | ok p => rw [hr] at h; cases h
    | assertFailed => exact scanLoop_ne_assertFailed _ _ _ _ _ hr
    | outOfFuel => rw [hr] at h; cases h
  · exact GenerateScanData_over_capacity libm world ox oy oth dev data fuel

/-- A run of `Update` ends in the failed assertion only for a subscribed
sensor whose sample count, as `CheckConfig` leaves it, is above the number
of slots. -/
theorem Update_assertFailed (libm : LibM) (env : PlayerEnv) (st : LaserState) (fuel : Nat)
    (h : (Update libm env st fuel).status = Outcome.assertFailed) :
    env.IsSubscribed = true ∧
    (PLAYER_NUM_LASER_SAMPLES : Int) < (CheckConfig st.dev env.GetConfig).dev.m_scan_count := by
  obtain ⟨pre, p1, _, _, q1, _, _, _, _, _⟩ := Update_frame libm env st fuel
  rw [q1] at h
  by_cases hsub : env.IsSubscribed = true
  · refine ⟨hsub, ?_⟩
    rw [UpdateBody_subscribed libm env pre fuel hsub, p1] at h
    by_cases hgate : (({ pre with dev := (CheckConfig st.dev env.GetConfig).dev } : LaserState).dev.m_scan_count : ℚ)
        / ({ pre with dev := (CheckConfig st.dev env.GetConfig).dev } : LaserState).dev.m_update_rate
        < env.GetTime
          - ({ pre with dev := (CheckConfig st.dev env.GetConfig).dev } : LaserState).dev.m_last_update
    · obtain ⟨_, _, h3, _, h5⟩ := UpdateScan_open libm env
        { pre with dev := (CheckConfig st.dev env.GetConfig).dev } fuel hgate
      cases hg : GenerateScanData libm
          ({ pre with dev := (CheckConfig st.dev env.GetConfig).dev } : LaserState).world
          env.GetGlobalPose.1 env.GetGlobalPose.2.1 env.GetGlobalPose.2.2
          { ({ pre with dev := (CheckConfig st.dev env.GetConfig).dev } : LaserState).dev with
            m_last_update := env.GetTime } env.stackData fuel with
      | ok out => rw [(h3 out hg).1] at h; cases h
      | assertFailed => exact (GenerateScanData_assertFailed_iff _ _ _ _ _ _ _ _).mp hg
      | outOfFuel => rw [(h5 hg).1] at h; cases h
    · rw [UpdateScan_closed libm env _ fuel (not_lt.mp hgate)] at h
      cases h
  · exfalso
    unfold UpdateBody at h
    rw [if_neg hsub] at h
    cases h

/-! ## Claim on the fine bucket -/

/-- C22. For every request with resolution 25 (in host order) and any
16-bit min and max angles, the sample count that `CheckConfig` stores is at
most 401, the number of slots of the range array, and equal to 401 for the
full clamped span -5000 .. +5000; it is at least 1 whenever the clamped
minAngle is at most the clamped maxAngle. Hence `GenerateScanData` on the
device so configured never ends in its capacity assertion, and neither does
an `Update` during which that request is pending. -/
theorem C22_fine_bucket_within_capacity (dev : CLaserDevice) (config : player_laser_config_t)
    (h : ntohs config.resolution = 25) :
    (CheckConfig dev (some config)).ret = true ∧
    (CheckConfig dev (some config)).dev.m_scan_count ≤ 401 ∧
    (CheckConfig dev (some config)).dev.m_scan_count ≤ (PLAYER_NUM_LASER_SAMPLES : Int) ∧
    (specClamp (ntohsInt16 config.min_angle) = -5000 →
      specClamp (ntohsInt16 config.max_angle) = 5000 →
      (CheckConfig dev (some config)).dev.m_scan_count = 401) ∧
    (specClamp (ntohsInt16 config.min_angle) ≤ specClamp (ntohsInt16 config.max_angle) →
      1 ≤ (CheckConfig dev (some config)).dev.m_scan_count) ∧
    (∀ (libm : LibM) (world : CWorld) (ox oy oth : ℚ) (data : player_laser_data_t) (fuel : Nat),
      GenerateScanData libm world ox oy oth (CheckConfig dev (some config)).dev data fuel
        ≠ Outcome.assertFailed) ∧
    (∀ (libm : LibM) (env : PlayerEnv) (st : LaserState) (fuel : Nat),
      st.dev = dev → env.GetConfig = some config →
      (Update libm env st fuel).status ≠ Outcome.assertFailed) := by
  obtain ⟨hret, hcount⟩ := CheckConfig_fine_count dev config h
  obtain ⟨a1, a2⟩ := specClamp_bounds (ntohsInt16 config.min_angle)
  obtain ⟨b1, b2⟩ := specClamp_bounds (ntohsInt16 config.max_angle)
  have hle : (CheckConfig dev (some config)).dev.m_scan_count ≤ 401 := by
    rw [hcount]
    have hq : (((specClamp (ntohsInt16 config.max_angle) : Int) : ℚ)
        - ((specClamp (ntohsInt16 config.min_angle) : Int) : ℚ)) / 25 ≤ ((400 : Int) : ℚ) := by
      have h1 : ((specClamp (ntohsInt16 config.max_angle) : Int) : ℚ) ≤ 5000 := by
        exact_mod_cast b2
      have h2 : (-5000 : ℚ) ≤ ((specClamp (ntohsInt16 config.min_angle) : Int) : ℚ) := by
        exact_mod_cast a1
      rw [div_le_iff₀ (by norm_num)]
      push_cast
      linarith
    have := truncToInt_le hq
    omega
  have hcap : (CheckConfig dev (some config)).dev.m_scan_count
      ≤ (PLAYER_NUM_LASER_SAMPLES : Int) := by
    unfold PLAYER_NUM_LASER_SAMPLES
    exact_mod_cast hle
  refine ⟨hret, hle, hcap, ?_, ?_, ?_, ?_⟩
  · intro hmin hmax
    rw [hcount, hmin, hmax]
    decide!
  · intro hord
    rw [hcount]
    have hq : (0 : ℚ) ≤ (((specClamp (ntohsInt16 config.max_angle) : Int) : ℚ)
        - ((specClamp (ntohsInt16 config.min_angle) : Int) : ℚ)) / 25 := by
      have : ((specClamp (ntohsInt16 config.min_angle) : Int) : ℚ)
          ≤ ((specClamp (ntohsInt16 config.max_angle) : Int) : ℚ) := by exact_mod_cast hord
      apply div_nonneg _ (by norm_num)
      linarith
    have := truncToInt_nonneg hq
    omega
  · intro libm world ox oy oth data fuel hfail
    have := (GenerateScanData_assertFailed_iff _ _ _ _ _ _ _ _).mp hfail
    omega
  · intro libm env st fuel hdev hcfg hfail
    obtain ⟨_, hover⟩ := Update_assertFailed libm env st fuel hfail
    rw [hdev, hcfg] at hover
    omega

/-- Witness for C22: the request resolution 25, -9000 .. +9000 on the fresh
device is clamped to the full span and stores 401 samples. -/
theorem C22_fine_bucket_within_capacity_witness :
    ntohs (wireConfig 25 (-9000) 9000 0).resolution = 25 ∧
    (CheckConfig CLaserDevice.new (some (wireConfig 25 (-9000) 9000 0))).dev.m_scan_count = 401 ∧
    (CheckConfig CLaserDevice.new (some (wireConfig 25 (-9000) 9000 0))).dev.m_scan_count
      ≤ (PLAYER_NUM_LASER_SAMPLES : Int) :=
  ⟨by decide,
   (C22_fine_bucket_within_capacity CLaserDevice.new (wireConfig 25 (-9000) 9000 0)
      (by decide)).2.2.2.1 (by decide) (by decide),
   (C22_fine_bucket_within_capacity CLaserDevice.new (wireConfig 25 (-9000) 9000 0)
      (by decide)).2.2.1⟩

/-! ## Facts about the footprint -/

theorem CheckConfig_frame_map (dev : CLaserDevice) (pending : Option player_laser_config_t) :
    (CheckConfig dev pending).dev.m_map_dx = dev.m_map_dx ∧
    (CheckConfig dev pending).dev.m_map_dy = dev.m_map_dy := by
  cases pending with
  | none => exact ⟨rfl, rfl⟩
  | some config =>
    rcases CheckConfig_cases dev config with ⟨_, e⟩ | ⟨_, e⟩ | ⟨_, _, _, e⟩ <;> rw [e] <;>
      exact ⟨rfl, rfl⟩

/-- The guarded part of `Update` leaves the world, the recorded map pose
and the footprint members alone; it ends normally after no call or after
`GenerateScanData` and `PutData`, and otherwise after `GenerateScanData`
alone. -/
theorem UpdateScan_shape (libm : LibM) (env : PlayerEnv) (st : LaserState) (fuel : Nat) :
    (UpdateScan libm env st fuel).state.world = st.world ∧
    (UpdateScan libm env st fuel).state.m_map_px = st.m_map_px ∧
    (UpdateScan libm env st fuel).state.m_map_py = st.m_map_py ∧
    (UpdateScan libm env st fuel).state.m_map_pth = st.m_map_pth ∧
    (UpdateScan libm env st fuel).state.dev.m_transparent = st.dev.m_transparent ∧
    (UpdateScan libm env st fuel).state.dev.m_map_dx = st.dev.m_map_dx ∧
    (UpdateScan libm env st fuel).state.dev.m_map_dy = st.dev.m_map_dy ∧
    (((UpdateScan libm env st fuel).status = Outcome.ok () ∧
        ((UpdateScan libm env st fuel).trace = [] ∨
          (UpdateScan libm env st fuel).trace = [Event.GenerateScanData, Event.PutData])) ∨
      ((UpdateScan libm env st fuel).status ≠ Outcome.ok () ∧
        (UpdateScan libm env st fuel).trace = [Event.GenerateScanData])) := by
  unfold UpdateScan
  simp only
  by_cases hgate : env.GetTime - st.dev.m_last_update
      > (st.dev.m_scan_count : ℚ) / st.dev.m_update_rate
  · rw [if_pos hgate]
    cases hg : GenerateScanData libm st.world env.GetGlobalPose.1 env.GetGlobalPose.2.1
        env.GetGlobalPose.2.2 { st.dev with m_last_update := env.GetTime } env.stackData fuel with
    | ok out => simp
    | assertFailed => simp
    | outOfFuel => simp
  · rw [if_neg hgate]
    simp

/-- The same for the two branches of `if (IsSubscribed())`. -/
theorem UpdateBody_shape (libm : LibM) (env : PlayerEnv) (st : LaserState) (fuel : Nat) :
    (UpdateBody libm env st fuel).state.world = st.world ∧
    (UpdateBody libm env st fuel).state.m_map_px = st.m_map_px ∧
    (UpdateBody libm env st fuel).state.m_map_py = st.m_map_py ∧
    (UpdateBody libm env st fuel).state.m_map_pth = st.m_map_pth ∧
    (UpdateBody libm env st fuel).state.dev.m_transparent = st.dev.m_transparent ∧
    (UpdateBody libm env st fuel).state.dev.m_map_dx = st.dev.m_map_dx ∧
    (UpdateBody libm env st fuel).state.dev.m_map_dy = st.dev.m_map_dy ∧
    (((UpdateBody libm env st fuel).status = Outcome.ok () ∧
        ((UpdateBody libm env st fuel).trace = [] ∨
          (UpdateBody libm env st fuel).trace = [Event.GenerateScanData, Event.PutData])) ∨
      ((UpdateBody libm env st fuel).status ≠ Outcome.ok () ∧
        (UpdateBody libm env st fuel).trace = [Event.GenerateScanData])) := by
  by_cases hsub : env.IsSubscribed = true
  · rw [UpdateBody_subscribed libm env st fuel hsub]
    obtain ⟨s1, s2, s3, s4, s5, s6, s7, s8⟩ :=
      UpdateScan_shape libm env { st with dev := (CheckConfig st.dev env.GetConfig).dev } fuel
    obtain ⟨_, _, _, c4, _⟩ := CheckConfig_frame st.dev env.GetConfig
    obtain ⟨m1, m2⟩ := CheckConfig_frame_map st.dev env.GetConfig
    exact ⟨s1, s2, s3, s4, s5.trans c4, s6.trans m1, s7.trans m2, s8⟩
  · unfold UpdateBody
    rw [if_neg hsub]
    exact ⟨rfl, rfl, rfl, rfl, rfl, rfl, rfl, Or.inl ⟨rfl, Or.inl rfl⟩⟩

/-- For a transparent sensor `Update` is its two branches, with no call of
`Map`. -/
theorem Update_transparent (libm : LibM) (env : PlayerEnv) (st : LaserState) (fuel : Nat)
    (htr : st.dev.m_transparent = true) :
    (Update libm env st fuel).status = (UpdateBody libm env st fuel).status ∧
    (Update libm env st fuel).trace = (UpdateBody libm env st fuel).trace ∧
    (Update libm env st fuel).state.world = st.world ∧
    (Update libm env st fuel).state.m_map_px = st.m_map_px ∧
    (Update libm env st fuel).state.m_map_py = st.m_map_py ∧
    (Update libm env st fuel).state.m_map_pth = st.m_map_pth := by
  obtain ⟨b1, b2, b3, b4, b5, _, _, _⟩ := UpdateBody_shape libm env st fuel
  rw [htr] at b5
  have hm1 : (if !st.dev.m_transparent then Map env st false else (st, [])) = (st, []) := by
    rw [htr]; rfl
  have hm2 : (if !(UpdateBody libm env st fuel).state.dev.m_transparent
      then Map env (UpdateBody libm env st fuel).state true
      else ((UpdateBody libm env st fuel).state, []))
      = ((UpdateBody libm env st fuel).state, []) := by
    rw [b5]; rfl
  unfold Update
  simp only [hm1]
  cases hs : (UpdateBody libm env st fuel).status with
  | ok u =>
    rw [hm2]
    refine ⟨?_, ?_, b1, b2, b3, b4⟩
    · rfl
    · show [] ++ (UpdateBody libm env st fuel).trace ++ [] = _
      simp
  | assertFailed =>
    refine ⟨?_, ?_, b1, b2, b3, b4⟩
    · rfl
    · rfl
  | outOfFuel =>
    refine ⟨?_, ?_, b1, b2, b3, b4⟩
    · rfl
    · rfl

/-- For a sensor that is not transparent `Update` removes the footprint at
the recorded map pose, runs its two branches on the world so changed, and,
when they end normally, draws the footprint at the global pose and records
that pose. -/
theorem Update_solid (libm : LibM) (env : PlayerEnv) (st : LaserState) (fuel : Nat)
    (htr : st.dev.m_transparent = false) :
    (Update libm env st fuel).status = (UpdateBody libm env (unmapped env st) fuel).status ∧
    ((Update libm env st fuel).status = Outcome.ok () →
      (Update libm env st fuel).trace
        = footprintRemoval st ::
          ((UpdateBody libm env (unmapped env st) fuel).trace ++ [footprintRegistration env st]) ∧
      (Update libm env st fuel).state.m_map_px = env.GetGlobalPose.1 ∧
      (Update libm env st fuel).state.m_map_py = env.GetGlobalPose.2.1 ∧
      (Update libm env st fuel).state.m_map_pth = env.GetGlobalPose.2.2 ∧
      (Update libm env st fuel).state.world
        = env.SetRectangle (unmapped env st).world
            env.GetGlobalPose.1 env.GetGlobalPose.2.1 env.GetGlobalPose.2.2
            st.dev.m_map_dx st.dev.m_map_dy 1) ∧
    ((Update libm env st fuel).status ≠ Outcome.ok () →
      (Update libm env st fuel).trace
        = footprintRemoval st :: (UpdateBody libm env (unmapped env st) fuel).trace) := by
  obtain ⟨b1, _, _, _, b5, b6, b7, _⟩ := UpdateBody_shape libm env (unmapped env st) fuel
  have b5' : (UpdateBody libm env (unmapped env st) fuel).state.dev.m_transparent = false :=
    b5.trans htr
  have b6' : (UpdateBody libm env (unmapped env st) fuel).state.dev.m_map_dx = st.dev.m_map_dx :=
    b6
  have b7' : (UpdateBody libm env (unmapped env st) fuel).state.dev.m_map_dy = st.dev.m_map_dy :=
    b7
  have hm1 : (if !st.dev.m_transparent then Map env st false else (st, []))
      = (unmapped env st, [footprintRemoval st]) := by
    rw [htr]
    rfl
  have hm2 : (if !(UpdateBody libm env (unmapped env st) fuel).state.dev.m_transparent
      then Map env (UpdateBody libm env (unmapped env st) fuel).state true
      else ((UpdateBody libm env (unmapped env st) fuel).state, []))
      = Map env (UpdateBody libm env (unmapped env st) fuel).state true := by
    rw [b5']
    rfl
  have hreg : (Map env (UpdateBody libm env (unmapped env st) fuel).state true).2
      = [footprintRegistration env st] := by
    show [Event.SetRectangle _ _ _ _ _ 1] = [footprintRegistration env st]
    unfold footprintRegistration
    rw [b6', b7']
  have hworld : (Map env (UpdateBody libm env (unmapped env st) fuel).state true).1.world
      = env.SetRectangle (unmapped env st).world
          env.GetGlobalPose.1 env.GetGlobalPose.2.1 env.GetGlobalPose.2.2
          st.dev.m_map_dx st.dev.m_map_dy 1 := by
    show env.SetRectangle _ _ _ _ _ _ 1 = _
    rw [b1, b6', b7']
  unfold Update
  simp only [hm1]
  cases hs : (UpdateBody libm env (unmapped env st) fuel).status with
  | ok u =>
    rw [hm2]
    refine ⟨?_, ?_, ?_⟩
    · rfl
    · intro _
      refine ⟨?_, ?_, ?_, ?_, hworld⟩
      · show [footprintRemoval st] ++ _ ++ (Map env _ true).2 = _
        rw [hreg]
        simp
      · rfl
      · rfl
      · rfl
    · intro hne
      exact absurd rfl hne
  | assertFailed =>
    refine ⟨?_, ?_, ?_⟩
    · rfl
    · intro h; cases h
    · intro _; rfl
  | outOfFuel =>
    refine ⟨?_, ?_, ?_⟩
    · rfl
    · intro h; cases h
    · intro _; rfl

/-- With a positive world resolution, a count within the capacity and
enough fuel, `GenerateScanData` returns. -/
theorem GenerateScanData_returns (libm : LibM) (world : CWorld) (ox oy oth : ℚ)
    (dev : CLaserDevice) (data : player_laser_data_t) (fuel : Nat)
    (hppm : 0 < world.ppm) (hcap : dev.m_scan_count ≤ (PLAYER_NUM_LASER_SAMPLES : Int))
    (hf1 : dev.m_scan_count.toNat ≤ fuel) (hf2 : ⌈dev.m_max_range * world.ppm⌉₊ < fuel) :
    ∃ out, GenerateScanData libm world ox oy oth dev data fuel = Outcome.ok out := by
  obtain ⟨ws, hs, hr⟩ := scanLoop_ok (castSample libm world dev ox oy oth fuel)
    (truncToInt (world.m_laser_res / dev.m_scan_res - 1 / 2)) dev.m_scan_count
    (fun i => castSample_isSome libm world dev ox oy oth hppm fuel i hf2) fuel 0
    (by simpa using hf1)
  unfold GenerateScanData
  simp only [if_pos hcap, hr]
  exact ⟨_, rfl⟩

/-- The two branches of `Update` end normally when `GenerateScanData`, if
reached, is within the capacity and has enough fuel. -/
theorem UpdateBody_returns (libm : LibM) (env : PlayerEnv) (st : LaserState) (fuel : Nat)
    (hppm : 0 < st.world.ppm)
    (hcap : (CheckConfig st.dev env.GetConfig).dev.m_scan_count
      ≤ (PLAYER_NUM_LASER_SAMPLES : Int))
    (hf1 : (CheckConfig st.dev env.GetConfig).dev.m_scan_count.toNat ≤ fuel)
    (hf2 : ⌈st.dev.m_max_range * st.world.ppm⌉₊ < fuel) :
    (UpdateBody libm env st fuel).status = Outcome.ok () := by
  by_cases hsub : env.IsSubscribed = true
  · rw [UpdateBody_subscribed libm env st fuel hsub]
    obtain ⟨_, _, c3, _, _⟩ := CheckConfig_frame st.dev env.GetConfig
    by_cases hgate :
        (({ st with dev := (CheckConfig st.dev env.GetConfig).dev } : LaserState).dev.m_scan_count : ℚ)
          / ({ st with dev := (CheckConfig st.dev env.GetConfig).dev } : LaserState).dev.m_update_rate
        < env.GetTime
          - ({ st with dev := (CheckConfig st.dev env.GetConfig).dev } : LaserState).dev.m_last_update
    · obtain ⟨_, _, h3, _, _⟩ := UpdateScan_open libm env
        { st with dev := (CheckConfig st.dev env.GetConfig).dev } fuel hgate
      obtain ⟨out, hout⟩ := GenerateScanData_returns libm st.world env.GetGlobalPose.1
        env.GetGlobalPose.2.1 env.GetGlobalPose.2.2
        { (CheckConfig st.dev env.GetConfig).dev with m_last_update := env.GetTime }
        env.stackData fuel hppm hcap hf1
        (by
          show ⌈(CheckConfig st.dev env.GetConfig).dev.m_max_range * st.world.ppm⌉₊ < fuel
          rw [c3]; exact hf2)
      exact (h3 out hout).1
    · rw [UpdateScan_closed libm env _ fuel (not_lt.mp hgate)]
  · unfold UpdateBody
    rw [if_neg hsub]

/-- The method `Update` returns when `SetRectangle` leaves the resolution of the world
alone, that resolution is positive, the count that `CheckConfig` leaves is
within the capacity, and the fuel suffices. -/
theorem Update_returns (libm : LibM) (env : PlayerEnv) (st : LaserState) (fuel : Nat)
    (hset : ∀ (w : CWorld) (px py pth dx dy : ℚ) (v : Nat),
      (env.SetRectangle w px py pth dx dy v).ppm = w.ppm)
    (hppm : 0 < st.world.ppm)
    (hcap : (CheckConfig st.dev env.GetConfig).dev.m_scan_count
      ≤ (PLAYER_NUM_LASER_SAMPLES : Int))
    (hf1 : (CheckConfig st.dev env.GetConfig).dev.m_scan_count.toNat ≤ fuel)
    (hf2 : ⌈st.dev.m_max_range * st.world.ppm⌉₊ < fuel) :
    (Update libm env st fuel).status = Outcome.ok () := by
  cases htr : st.dev.m_transparent with
  | true =>
    rw [(Update_transparent libm env st fuel htr).1]
    exact UpdateBody_returns libm env st fuel hppm hcap hf1 hf2
  | false =>
    rw [(Update_solid libm env st fuel htr).1]
    have hw : (unmapped env st).world.ppm = st.world.ppm := hset _ _ _ _ _ _ _
    apply UpdateBody_returns libm env (unmapped env st) fuel
    · rw [hw]; exact hppm
    · exact hcap
    · exact hf1
    · rw [hw]; exact hf2

/-- The calls of `Update` that write the footprint, for a sensor that is
not transparent. -/
theorem Update_footprint_writes (libm : LibM) (env : PlayerEnv) (st : LaserState) (fuel : Nat)
    (htr : st.dev.m_transparent = false) :
    ((Update libm env st fuel).status = Outcome.ok () →
      ∃ mid, (mid = [] ∨ mid = [Event.GenerateScanData, Event.PutData]) ∧
        (Update libm env st fuel).trace
          = footprintRemoval st :: (mid ++ [footprintRegistration env st]) ∧
        (Update libm env st fuel).trace.filter isFootprintWrite
          = [footprintRemoval st, footprintRegistration env st]) ∧
    ((Update libm env st fuel).status ≠ Outcome.ok () →
      (Update libm env st fuel).trace = [footprintRemoval st, Event.GenerateScanData] ∧
      (Update libm env st fuel).trace.filter isFootprintWrite = [footprintRemoval st]) := by
  obtain ⟨o1, o2, o3⟩ := Update_solid libm env st fuel htr
  obtain ⟨_, _, _, _, _, _, _, b8⟩ := UpdateBody_shape libm env (unmapped env st) fuel
  constructor
  · intro hok
    obtain ⟨t1, _⟩ := o2 hok
    rcases b8 with ⟨_, hmid⟩ | ⟨hne, _⟩
    · rcases hmid with hmid | hmid
      · refine ⟨[], Or.inl rfl, by rw [t1, hmid], ?_⟩
        rw [t1, hmid]
        rfl
      · refine ⟨_, Or.inr rfl, by rw [t1, hmid], ?_⟩
        rw [t1, hmid]
        rfl
    · rw [← o1] at hne
      exact absurd hok hne
  · intro hne
    have t1 := o3 hne
    rcases b8 with ⟨hok, _⟩ | ⟨_, hmid⟩
    · rw [← o1] at hok
      exact absurd hok hne
    · rw [t1, hmid]
      exact ⟨rfl, rfl⟩

/-! ## The footprint writes, and the claim on them -/

/-- The footprint writes of `CLaserDevice::Update`, run by run. For a transparent
sensor no call writes the footprint, and world and recorded map pose are as
before. For a sensor that is not transparent, every run starts with the
removal of the footprint at the previously recorded map pose, before any
ray cast, and that is its only removal; every run that returns goes on
with at most one ray cast and publication and ends with the registration
of the footprint at the current global pose, its only registration, and
afterwards the recorded map pose is that global pose. A run that does not
return (the capacity assertion of `GenerateScanData` failed, or the fuel
ran out there) has made the removal and no registration. `Update` returns
whenever the sample count left by `CheckConfig` is within the capacity, the
world resolution is positive and not changed by `SetRectangle`, and the
fuel suffices. -/
theorem Update_footprint_mapping (libm : LibM) (env : PlayerEnv) (st : LaserState) (fuel : Nat) :
    (st.dev.m_transparent = true →
      (Update libm env st fuel).trace.filter isFootprintWrite = [] ∧
      (Update libm env st fuel).state.world = st.world ∧
      (Update libm env st fuel).state.m_map_px = st.m_map_px ∧
      (Update libm env st fuel).state.m_map_py = st.m_map_py ∧
      (Update libm env st fuel).state.m_map_pth = st.m_map_pth) ∧
    (st.dev.m_transparent = false →
      ((Update libm env st fuel).status = Outcome.ok () →
        (∃ mid, (mid = [] ∨ mid = [Event.GenerateScanData, Event.PutData]) ∧
          (Update libm env st fuel).trace
            = footprintRemoval st :: (mid ++ [footprintRegistration env st])) ∧
        (Update libm env st fuel).trace.filter isFootprintWrite
          = [footprintRemoval st, footprintRegistration env st] ∧
        (Update libm env st fuel).state.m_map_px = env.GetGlobalPose.1 ∧
        (Update libm env st fuel).state.m_map_py = env.GetGlobalPose.2.1 ∧
        (Update libm env st fuel).state.m_map_pth = env.GetGlobalPose.2.2 ∧
        (Update libm env st fuel).state.world
          = env.SetRectangle
              (env.SetRectangle st.world st.m_map_px st.m_map_py st.m_map_pth
                st.dev.m_map_dx st.dev.m_map_dy 0)
              env.GetGlobalPose.1 env.GetGlobalPose.2.1 env.GetGlobalPose.2.2
              st.dev.m_map_dx st.dev.m_map_dy 1) ∧
      ((Update libm env st fuel).status ≠ Outcome.ok () →
        (Update libm env st fuel).trace = [footprintRemoval st, Event.GenerateScanData] ∧
        (Update libm env st fuel).trace.filter isFootprintWrite = [footprintRemoval st])) ∧
    ((∀ (w : CWorld) (px py pth dx dy : ℚ) (v : Nat),
        (env.SetRectangle w px py pth dx dy v).ppm = w.ppm) →
      0 < st.world.ppm →
      (CheckConfig st.dev env.GetConfig).dev.m_scan_count ≤ (PLAYER_NUM_LASER_SAMPLES : Int) →
      (CheckConfig st.dev env.GetConfig).dev.m_scan_count.toNat ≤ fuel →
      ⌈st.dev.m_max_range * st.world.ppm⌉₊ < fuel →
      (Update libm env st fuel).status = Outcome.ok ()) := by
  refine ⟨?_, ?_, fun hset hppm hcap hf1 hf2 =>
    Update_returns libm env st fuel hset hppm hcap hf1 hf2⟩
  · intro htr
    obtain ⟨_, t2, t3, t4, t5, t6⟩ := Update_transparent libm env st fuel htr
    obtain ⟨_, _, _, _, _, _, _, b8⟩ := UpdateBody_shape libm env st fuel
    refine ⟨?_, t3, t4, t5, t6⟩
    rw [t2]
    rcases b8 with ⟨_, hmid | hmid⟩ | ⟨_, hmid⟩ <;> rw [hmid] <;> rfl
  · intro htr
    obtain ⟨w1, w2⟩ := Update_footprint_writes libm env st fuel htr
    obtain ⟨_, o2, _⟩ := Update_solid libm env st fuel htr
    refine ⟨?_, w2⟩
    intro hok
    obtain ⟨mid, m1, m2, m3⟩ := w1 hok
    obtain ⟨_, p1, p2, p3, p4⟩ := o2 hok
    exact ⟨⟨mid, m1, m2⟩, m3, p1, p2, p3, p4⟩

/-- The footprint writes of two runs that return: the fresh device (not
transparent), subscribed, at time 1: removal, ray cast, publication,
registration; and the same state marked transparent: ray cast and
publication only. -/
theorem Update_footprint_mapping_example :
    freshState.dev.m_transparent = false ∧
    (Update axisLibM (examplePlayerEnv true 1 none) freshState 400).status = Outcome.ok () ∧
    (Update axisLibM (examplePlayerEnv true 1 none) freshState 400).trace
      = [footprintRemoval freshState, Event.GenerateScanData, Event.PutData,
         footprintRegistration (examplePlayerEnv true 1 none) freshState] ∧
    (Update axisLibM (examplePlayerEnv true 1 none) freshState 400).trace.filter isFootprintWrite
      = [footprintRemoval freshState,
         footprintRegistration (examplePlayerEnv true 1 none) freshState] ∧
    transparentState.dev.m_transparent = true ∧
    (Update axisLibM (examplePlayerEnv true 1 none) transparentState 400).trace
      = [Event.GenerateScanData, Event.PutData] ∧
    (Update axisLibM (examplePlayerEnv true 1 none) transparentState 400).trace.filter
      isFootprintWrite = [] :=
  ⟨rfl,
   (Update_footprint_mapping axisLibM (examplePlayerEnv true 1 none) freshState 400).2.2
      (fun _ _ _ _ _ _ _ => rfl) (by decide!) (by decide!) (by decide!) (by decide!),
   by decide!,
   (((Update_footprint_mapping axisLibM (examplePlayerEnv true 1 none) freshState 400).2.1
      rfl).1 (by decide!)).2.1,
   rfl, by decide!,
   ((Update_footprint_mapping axisLibM (examplePlayerEnv true 1 none) transparentState 400).1
      rfl).1⟩

/-- C21, the code at the failing input: the fresh device (not transparent),
subscribed, at time 1, with the request resolution 50, -12000 .. +12000
pending, which `CheckConfig` accepts with a sample count above the
capacity. `Update` removes the footprint, reaches `GenerateScanData`, and
ends in its failed capacity assertion: no registration of the footprint is
made. -/
theorem C21_registration_missing_after_assert :
    freshState.dev.m_transparent = false ∧
    (Update axisLibM (examplePlayerEnv true 1 (some (wireConfig 50 (-12000) 12000 0)))
      freshState 10).status = Outcome.assertFailed ∧
    (Update axisLibM (examplePlayerEnv true 1 (some (wireConfig 50 (-12000) 12000 0)))
      freshState 10).trace = [footprintRemoval freshState, Event.GenerateScanData] ∧
    footprintRegistration (examplePlayerEnv true 1 (some (wireConfig 50 (-12000) 12000 0)))
        freshState
      ∉ (Update axisLibM (examplePlayerEnv true 1 (some (wireConfig 50 (-12000) 12000 0)))
          freshState 10).trace := by
  refine ⟨rfl, by decide!, by decide!, by decide!⟩

/-! ## Facts about rounding to `double` -/

namespace Binary64

theorem pow2_eq (e : Int) : pow2 e = (2 : ℚ) ^ e := by
  unfold pow2
  split_ifs with h
  · obtain ⟨n, rfl⟩ := Int.eq_ofNat_of_zero_le h
    simp
  · push_neg at h
    obtain ⟨n, hn⟩ := Int.eq_ofNat_of_zero_le (by omega : 0 ≤ -e)
    have he : e = -(n : Int) := by omega
    subst he
    simp

theorem pow2_pos (e : Int) : 0 < pow2 e := by
  rw [pow2_eq]; positivity

theorem pow2_add (a b : Int) : pow2 (a + b) = pow2 a * pow2 b := by
  rw [pow2_eq, pow2_eq, pow2_eq, zpow_add₀ (by norm_num)]

theorem pow2_le_pow2 {a b : Int} (h : a ≤ b) : pow2 a ≤ pow2 b := by
  rw [pow2_eq, pow2_eq]
  exact zpow_le_zpow_right₀ (by norm_num) h

theorem pow2_lt_pow2 {a b : Int} (h : a < b) : pow2 a < pow2 b := by
  rw [pow2_eq, pow2_eq]
  exact zpow_lt_zpow_right₀ (by norm_num) h

theorem log2Aux_spec : ∀ (fuel n : Nat), n ≤ fuel → 1 ≤ n →
    2 ^ log2Aux fuel n ≤ n ∧ n < 2 ^ (log2Aux fuel n + 1)
  | 0, n, h, h1 => by omega
  | fuel + 1, n, h, h1 => by
    unfold log2Aux
    split_ifs with h2
    · have ih := log2Aux_spec fuel (n / 2) (by omega) (by omega)
      constructor
      · rw [pow_succ]; omega
      · rw [pow_succ]; omega
    · simp; omega

theorem ilog2_spec (n : Nat) (h : 1 ≤ n) : 2 ^ ilog2 n ≤ n ∧ n < 2 ^ (ilog2 n + 1) :=
  log2Aux_spec n n le_rfl h

theorem abs_eq_natAbs_div (x : ℚ) : |x| = (x.num.natAbs : ℚ) / (x.den : ℚ) := by
  conv_lhs => rw [← Rat.num_div_den x]
  rw [abs_div, Nat.abs_cast, Nat.cast_natAbs, Int.cast_abs]

theorem natAbs_num_pos {x : ℚ} (h : x ≠ 0) : 1 ≤ x.num.natAbs := by
  have : x.num ≠ 0 := Rat.num_ne_zero.mpr h
  omega

theorem exponent_spec {x : ℚ} (h : x ≠ 0) :
    pow2 (exponent x) ≤ |x| ∧ |x| < pow2 (exponent x + 1) := by
  have hn := ilog2_spec x.num.natAbs (natAbs_num_pos h)
  have hd := ilog2_spec x.den x.den_pos
  have hdpos : (0 : ℚ) < (x.den : ℚ) := by exact_mod_cast x.den_pos
  have e1 : ((2 : ℚ)) ^ (ilog2 x.num.natAbs) ≤ (x.num.natAbs : ℚ) := by exact_mod_cast hn.1
  have e2 : (x.num.natAbs : ℚ) < ((2 : ℚ)) ^ (ilog2 x.num.natAbs + 1) := by exact_mod_cast hn.2
  have e3 : ((2 : ℚ)) ^ (ilog2 x.den) ≤ (x.den : ℚ) := by exact_mod_cast hd.1
  have e4 : (x.den : ℚ) < ((2 : ℚ)) ^ (ilog2 x.den + 1) := by exact_mod_cast hd.2
  have hA : (0 : ℚ) < (2 : ℚ) ^ (ilog2 x.num.natAbs) := by positivity
  have hB : (0 : ℚ) < (2 : ℚ) ^ (ilog2 x.den) := by positivity
  have up : |x| < pow2 ((ilog2 x.num.natAbs : Int) - (ilog2 x.den : Int) + 1) := by
    rw [abs_eq_natAbs_div, pow2_eq, div_lt_iff₀ hdpos]
    have : (2 : ℚ) ^ ((ilog2 x.num.natAbs : Int) - (ilog2 x.den : Int) + 1)
        = (2 : ℚ) ^ (ilog2 x.num.natAbs + 1) / (2 : ℚ) ^ (ilog2 x.den) := by
      rw [show ((ilog2 x.num.natAbs : Int) - (ilog2 x.den : Int) + 1)
            = ((ilog2 x.num.natAbs + 1 : Nat) : Int) - ((ilog2 x.den : Nat) : Int) by push_cast; ring,
          zpow_sub₀ (by norm_num), zpow_natCast, zpow_natCast]
    rw [this, div_mul_eq_mul_div, lt_div_iff₀ hB]
    calc (x.num.natAbs : ℚ) * 2 ^ ilog2 x.den
        ≤ (x.num.natAbs : ℚ) * (x.den : ℚ) := by
          apply mul_le_mul_of_nonneg_left e3 (by positivity)
      _ < 2 ^ (ilog2 x.num.natAbs + 1) * (x.den : ℚ) := by
          apply mul_lt_mul_of_pos_right e2 hdpos
  have low : pow2 ((ilog2 x.num.natAbs : Int) - (ilog2 x.den : Int) - 1) ≤ |x| := by
    rw [abs_eq_natAbs_div, pow2_eq, le_div_iff₀ hdpos]
    have : (2 : ℚ) ^ ((ilog2 x.num.natAbs : Int) - (ilog2 x.den : Int) - 1)
        = (2 : ℚ) ^ (ilog2 x.num.natAbs) / (2 : ℚ) ^ (ilog2 x.den + 1) := by
      rw [show ((ilog2 x.num.natAbs : Int) - (ilog2 x.den : Int) - 1)
            = ((ilog2 x.num.natAbs : Nat) : Int) - ((ilog2 x.den + 1 : Nat) : Int) by push_cast; ring,
          zpow_sub₀ (by norm_num), zpow_natCast, zpow_natCast]
    rw [this, div_mul_eq_mul_div, div_le_iff₀ (by positivity)]
    calc (2 : ℚ) ^ ilog2 x.num.natAbs * (x.den : ℚ)
        ≤ (x.num.natAbs : ℚ) * (x.den : ℚ) := by
          apply mul_le_mul_of_nonneg_right e1 hdpos.le
      _ ≤ (x.num.natAbs : ℚ) * 2 ^ (ilog2 x.den + 1) := by
          apply mul_le_mul_of_nonneg_left e4.le (by positivity)
  unfold exponent
  simp only
  split_ifs with hc
  · exact ⟨hc, up⟩
  · refine ⟨low, ?_⟩
    rw [sub_add_cancel]
    exact not_le.mp hc

theorem exponent_unique {x : ℚ} {e : Int} (h1 : pow2 e ≤ |x|) (h2 : |x| < pow2 (e + 1)) :
    exponent x = e := by
  have hx : x ≠ 0 := by
    intro h0
    rw [h0, abs_zero] at h1
    exact absurd (pow2_pos e) (not_lt.mpr h1)
  obtain ⟨s1, s2⟩ := exponent_spec hx
  by_contra hne
  rcases lt_or_gt_of_ne hne with hlt | hgt
  · have : pow2 (exponent x + 1) ≤ pow2 e := pow2_le_pow2 (by omega)
    exact absurd (lt_of_lt_of_le s2 this) (not_lt.mpr h1)
  · have : pow2 (e + 1) ≤ pow2 (exponent x) := pow2_le_pow2 (by omega)
    exact absurd (lt_of_lt_of_le h2 this) (not_lt.mpr s1)

theorem roundHalfEven_floor_le (y : ℚ) : ⌊y⌋ ≤ roundHalfEven y := by
  unfold roundHalfEven
  split_ifs <;> omega

theorem roundHalfEven_le_floor_add_one (y : ℚ) : roundHalfEven y ≤ ⌊y⌋ + 1 := by
  unfold roundHalfEven
  split_ifs <;> omega

theorem roundHalfEven_err (y : ℚ) : |(roundHalfEven y : ℚ) - y| ≤ 1 / 2 := by
  have h1 := Int.floor_le y
  have h2 := Int.lt_floor_add_one y
  unfold roundHalfEven
  rw [abs_le]
  split_ifs with a b c
  · constructor <;> linarith
  · push_cast; constructor <;> linarith
  · push_neg at a b
    constructor <;> linarith
  · push_neg at a b
    push_cast; constructor <;> linarith

theorem roundHalfEven_intCast (n : Int) : roundHalfEven (n : ℚ) = n := by
  unfold roundHalfEven
  rw [Int.floor_intCast]
  simp

theorem roundHalfEven_mono {y z : ℚ} (h : y ≤ z) : roundHalfEven y ≤ roundHalfEven z := by
  have hf : ⌊y⌋ ≤ ⌊z⌋ := Int.floor_mono h
  rcases lt_or_eq_of_le hf with hlt | heq
  · calc roundHalfEven y ≤ ⌊y⌋ + 1 := roundHalfEven_le_floor_add_one y
      _ ≤ ⌊z⌋ := by omega
      _ ≤ roundHalfEven z := roundHalfEven_floor_le z
  · unfold roundHalfEven
    rw [← heq]
    have hyz : y - (⌊y⌋ : ℚ) ≤ z - (⌊y⌋ : ℚ) := by linarith
    split_ifs with a b c d e f g i j k l <;> first | omega | (exfalso; linarith)

theorem roundHalfEven_neg (y : ℚ) : roundHalfEven (-y) = -roundHalfEven y := by
  by_cases hy : (⌊y⌋ : ℚ) = y
  · rw [← hy, ← Int.cast_neg, roundHalfEven_intCast, roundHalfEven_intCast]
  · have h1 := Int.floor_le y
    have h2 := Int.lt_floor_add_one y
    have hlt : (⌊y⌋ : ℚ) < y := lt_of_le_of_ne h1 hy
    have hfl : ⌊-y⌋ = -⌊y⌋ - 1 := by
      rw [Int.floor_eq_iff]
      push_cast
      constructor <;> linarith
    unfold roundHalfEven
    rw [hfl]
    push_cast
    split_ifs with a b c d e f g i j k l <;>
      first | omega | (exfalso; linarith)

theorem pow2_add_nat (e : Int) (k : Nat) : pow2 (e + (k : Int)) = 2 ^ k * pow2 e := by
  rw [pow2_add, pow2_eq (k : Int), zpow_natCast, mul_comm]

theorem pow2_sig52 (e : Int) : pow2 e = 2 ^ 52 * pow2 (e - 52) := by
  have := pow2_add_nat (e - 52) 52
  rwa [show e - 52 + ((52 : Nat) : Int) = e by omega] at this

theorem pow2_sig53 (e : Int) : pow2 (e + 1) = 2 ^ 53 * pow2 (e - 52) := by
  have := pow2_add_nat (e - 52) 53
  rwa [show e - 52 + ((53 : Nat) : Int) = e + 1 by omega] at this

theorem pow2_sig54 (e : Int) : pow2 (e + 1 + 1) = 2 ^ 54 * pow2 (e - 52) := by
  have := pow2_add_nat (e - 52) 54
  rwa [show e - 52 + ((54 : Nat) : Int) = e + 1 + 1 by omega] at this

theorem pow2_sig1 (e : Int) : pow2 (e + 1 - 52) = 2 * pow2 (e - 52) := by
  have := pow2_add_nat (e - 52) 1
  rwa [show e - 52 + ((1 : Nat) : Int) = e + 1 - 52 by omega, pow_one] at this

theorem rnd_zero : rnd 0 = 0 := by
  unfold rnd; simp

theorem rnd_of_ne_zero {x : ℚ} (h : x ≠ 0) :
    rnd x = (roundHalfEven (x / pow2 (exponent x - 52)) : ℚ) * pow2 (exponent x - 52) := by
  unfold rnd; rw [if_neg h]

theorem exponent_neg (x : ℚ) : exponent (-x) = exponent x := by
  unfold exponent
  simp only [Rat.num_neg_eq_neg_num, Rat.den_neg_eq_den, Int.natAbs_neg, abs_neg]

theorem rnd_neg (x : ℚ) : rnd (-x) = -rnd x := by
  by_cases h : x = 0
  · subst h; simp [rnd_zero]
  · rw [rnd_of_ne_zero h, rnd_of_ne_zero (neg_ne_zero.mpr h), exponent_neg, neg_div,
      roundHalfEven_neg]
    push_cast; ring

/-- The relative error of rounding is at most `2 ^ (-53)`. -/
theorem rnd_err (x : ℚ) : |rnd x - x| ≤ |x| / 2 ^ 53 := by
  by_cases h : x = 0
  · subst h; simp [rnd_zero]
  · rw [rnd_of_ne_zero h]
    have hp := pow2_pos (exponent x - 52)
    have he := roundHalfEven_err (x / pow2 (exponent x - 52))
    have hs := (exponent_spec h).1
    have e1 : (roundHalfEven (x / pow2 (exponent x - 52)) : ℚ) * pow2 (exponent x - 52) - x
        = ((roundHalfEven (x / pow2 (exponent x - 52)) : ℚ) - x / pow2 (exponent x - 52))
          * pow2 (exponent x - 52) := by
      field_simp
    rw [e1, abs_mul, abs_of_pos hp]
    have e2 : pow2 (exponent x) = pow2 (exponent x - 52) * 2 ^ 52 := by
      rw [pow2_sig52 (exponent x), mul_comm]
    rw [e2] at hs
    calc |(roundHalfEven (x / pow2 (exponent x - 52)) : ℚ) - x / pow2 (exponent x - 52)|
          * pow2 (exponent x - 52)
        ≤ 1 / 2 * pow2 (exponent x - 52) := mul_le_mul_of_nonneg_right he hp.le
      _ = pow2 (exponent x - 52) * 2 ^ 52 / 2 ^ 53 := by ring
      _ ≤ |x| / 2 ^ 53 := by
          apply div_le_div_of_nonneg_right hs (by positivity)

/-- On a positive argument the significand rounds into `[2^52, 2^53]`. -/
theorem significand_bounds {x : ℚ} (h : 0 < x) :
    (2 : Int) ^ 52 ≤ roundHalfEven (x / pow2 (exponent x - 52)) ∧
    roundHalfEven (x / pow2 (exponent x - 52)) ≤ (2 : Int) ^ 53 := by
  obtain ⟨s1, s2⟩ := exponent_spec h.ne'
  rw [abs_of_pos h] at s1 s2
  have hp := pow2_pos (exponent x - 52)
  have e2 : pow2 (exponent x) = pow2 (exponent x - 52) * 2 ^ 52 := by
    rw [pow2_sig52 (exponent x), mul_comm]
  have e3 : pow2 (exponent x + 1) = pow2 (exponent x - 52) * 2 ^ 53 := by
    rw [pow2_sig53 (exponent x), mul_comm]
  rw [e2] at s1
  rw [e3] at s2
  have l1 : (((2 : Int) ^ 52 : Int) : ℚ) ≤ x / pow2 (exponent x - 52) := by
    rw [le_div_iff₀ hp]; push_cast; linarith
  have l2 : x / pow2 (exponent x - 52) ≤ (((2 : Int) ^ 53 : Int) : ℚ) := by
    rw [div_le_iff₀ hp]; push_cast; linarith
  have m1 := roundHalfEven_mono l1
  have m2 := roundHalfEven_mono l2
  rw [roundHalfEven_intCast] at m1 m2
  exact ⟨m1, m2⟩

theorem rnd_bounds {x : ℚ} (h : 0 < x) :
    pow2 (exponent x) ≤ rnd x ∧ rnd x ≤ pow2 (exponent x + 1) := by
  obtain ⟨b1, b2⟩ := significand_bounds h
  have hp := pow2_pos (exponent x - 52)
  have e2 := pow2_sig52 (exponent x)
  have e3 := pow2_sig53 (exponent x)
  rw [rnd_of_ne_zero h.ne', e2, e3]
  have c1 : ((2 : ℚ) ^ 52) ≤ (roundHalfEven (x / pow2 (exponent x - 52)) : ℚ) := by
    exact_mod_cast b1
  have c2 : (roundHalfEven (x / pow2 (exponent x - 52)) : ℚ) ≤ ((2 : ℚ) ^ 53) := by
    exact_mod_cast b2
  exact ⟨mul_le_mul_of_nonneg_right c1 hp.le, mul_le_mul_of_nonneg_right c2 hp.le⟩

theorem rnd_pos {x : ℚ} (h : 0 < x) : 0 < rnd x :=
  lt_of_lt_of_le (pow2_pos _) (rnd_bounds h).1

theorem rnd_nonneg {x : ℚ} (h : 0 ≤ x) : 0 ≤ rnd x := by
  rcases eq_or_lt_of_le h with h0 | hpos
  · rw [← h0, rnd_zero]
  · exact (rnd_pos hpos).le

theorem exponent_mono {x y : ℚ} (hx : 0 < x) (hxy : x ≤ y) : exponent x ≤ exponent y := by
  have hy : 0 < y := lt_of_lt_of_le hx hxy
  obtain ⟨s1, _⟩ := exponent_spec hx.ne'
  obtain ⟨_, t2⟩ := exponent_spec hy.ne'
  rw [abs_of_pos hx] at s1
  rw [abs_of_pos hy] at t2
  by_contra hlt
  push_neg at hlt
  have : pow2 (exponent y + 1) ≤ pow2 (exponent x) := pow2_le_pow2 (by omega)
  linarith

theorem rnd_mono_of_pos {x y : ℚ} (hx : 0 < x) (hxy : x ≤ y) : rnd x ≤ rnd y := by
  have hy : 0 < y := lt_of_lt_of_le hx hxy
  rcases lt_or_eq_of_le (exponent_mono hx hxy) with hlt | heq
  · calc rnd x ≤ pow2 (exponent x + 1) := (rnd_bounds hx).2
      _ ≤ pow2 (exponent y) := pow2_le_pow2 (by omega)
      _ ≤ rnd y := (rnd_bounds hy).1
  · rw [rnd_of_ne_zero hx.ne', rnd_of_ne_zero hy.ne', heq]
    have hp := pow2_pos (exponent y - 52)
    apply mul_le_mul_of_nonneg_right _ hp.le
    have : roundHalfEven (x / pow2 (exponent y - 52)) ≤ roundHalfEven (y / pow2 (exponent y - 52)) :=
      roundHalfEven_mono (div_le_div_of_nonneg_right hxy hp.le)
    exact_mod_cast this

/-- Rounding is monotone. -/
theorem rnd_mono {x y : ℚ} (hxy : x ≤ y) : rnd x ≤ rnd y := by
  rcases lt_trichotomy x 0 with hx | hx | hx
  · rcases lt_trichotomy y 0 with hy | hy | hy
    · have := rnd_mono_of_pos (neg_pos.mpr hy) (neg_le_neg hxy)
      rw [rnd_neg, rnd_neg] at this
      linarith
    · subst hy
      have := rnd_pos (neg_pos.mpr hx)
      rw [rnd_neg] at this
      rw [rnd_zero]; linarith
    · have h1 := rnd_pos (neg_pos.mpr hx)
      rw [rnd_neg] at h1
      have h2 := rnd_pos hy
      linarith
  · subst hx
    rw [rnd_zero]
    exact rnd_nonneg hxy
  · exact rnd_mono_of_pos hx hxy

theorem rnd_idem_of_pos {x : ℚ} (h : 0 < x) : rnd (rnd x) = rnd x := by
  obtain ⟨b1, b2⟩ := significand_bounds h
  have hp := pow2_pos (exponent x - 52)
  have hr := rnd_pos h
  have hval := rnd_of_ne_zero h.ne'
  set m := roundHalfEven (x / pow2 (exponent x - 52)) with hm
  have e2 := pow2_sig52 (exponent x)
  have e3 := pow2_sig53 (exponent x)
  have e4 := pow2_sig54 (exponent x)
  have e5 := pow2_sig1 (exponent x)
  have c1 : ((2 : ℚ) ^ 52) ≤ (m : ℚ) := by exact_mod_cast b1
  rcases lt_or_eq_of_le b2 with hlt | heq
  · have c2 : (m : ℚ) < (2 : ℚ) ^ 53 := by exact_mod_cast hlt
    have hexp : exponent (rnd x) = exponent x := by
      apply exponent_unique
      · rw [abs_of_pos hr, hval, e2]
        exact mul_le_mul_of_nonneg_right c1 hp.le
      · rw [abs_of_pos hr, hval, e3]
        exact mul_lt_mul_of_pos_right c2 hp
    rw [rnd_of_ne_zero hr.ne', hexp]
    have : rnd x / pow2 (exponent x - 52) = (m : ℚ) := by
      rw [hval]; field_simp
    rw [this, roundHalfEven_intCast, hval]
  · have c2 : (m : ℚ) = (2 : ℚ) ^ 53 := by exact_mod_cast heq
    have hexp : exponent (rnd x) = exponent x + 1 := by
      apply exponent_unique
      · rw [abs_of_pos hr, hval, e3, c2]
      · rw [abs_of_pos hr, hval, e4, c2]
        apply mul_lt_mul_of_pos_right _ hp
        norm_num
    rw [rnd_of_ne_zero hr.ne', hexp, e5]
    have : rnd x / (2 * pow2 (exponent x - 52)) = (((2 : Int) ^ 52 : Int) : ℚ) := by
      rw [hval, c2]; field_simp; ring
    rw [this, roundHalfEven_intCast, hval, c2]
    push_cast; ring

/-- Rounding leaves a rounded value as it is. -/
theorem rnd_idem (x : ℚ) : rnd (rnd x) = rnd x := by
  rcases lt_trichotomy x 0 with hx | hx | hx
  · have := rnd_idem_of_pos (neg_pos.mpr hx)
    rw [rnd_neg, rnd_neg] at this
    linarith
  · subst hx; rw [rnd_zero, rnd_zero]
  · exact rnd_idem_of_pos hx

end Binary64

/-! ## Facts about the ray loop on `double` -/

namespace Binary64

theorem runningSum_front (x0 d : ℚ) (k : Nat) :
    runningSum (fadd x0 d) d k = runningSum x0 d (k + 1) := by
  induction k with
  | zero => rfl
  | succ n ih =>
    show fadd (runningSum (fadd x0 d) d n) d = fadd (runningSum x0 d (n + 1)) d
    rw [ih]

theorem probeCell_ne_zero_iff_double (world : CWorld) (dr px py : ℚ) :
    probeCell world dr px py ≠ 0 ↔ probesNonEmpty world dr px py := by
  unfold probeCell probesNonEmpty
  have hv : ∀ c : Fin 256, c.val = 0 ↔ c = 0 := fun c =>
    ⟨fun h => Fin.ext (by rw [h]; simp), fun h => by rw [h]; simp⟩
  rw [Ne, lor_eq_zero, lor_eq_zero, hv, hv, hv]
  constructor
  · intro h
    by_contra hn
    simp only [not_or, not_not] at hn
    exact h ⟨⟨hn.1, hn.2.1⟩, hn.2.2⟩
  · rintro h ⟨⟨h1, h2⟩, h3⟩
    rcases h with h | h | h
    · exact h h1
    · exact h h2
    · exact h h3

/-- Executing `k` iterations of the ray loop that neither leave the range
nor hit anything. -/
theorem rayLoop_steps_double (world : CWorld) (dr dx dy max_range : ℚ) (k : Nat) :
    ∀ (fuel : Nat) (range px py : ℚ),
      (∀ j : Nat, j < k → runningSum range dr j < max_range ∧
        probeCell world dr (runningSum px dx j) (runningSum py dy j) = 0) →
      rayLoop world dr dx dy max_range (fuel + k) range px py
        = rayLoop world dr dx dy max_range fuel (runningSum range dr k) (runningSum px dx k)
            (runningSum py dy k) := by
  induction k with
  | zero => intro fuel range px py _; rfl
  | succ n ih =>
    intro fuel range px py h
    have h0 := h 0 (Nat.succ_pos n)
    have h01 : range < max_range := h0.1
    have h02 : probeCell world dr px py = 0 := h0.2
    have hstep : rayLoop world dr dx dy max_range (fuel + n + 1) range px py
        = rayLoop world dr dx dy max_range (fuel + n) (fadd range dr) (fadd px dx) (fadd py dy) := by
      rw [rayLoop]
      simp [h01, h02]
    rw [← Nat.add_assoc, hstep, ih]
    · rw [runningSum_front, runningSum_front, runningSum_front]
    · intro j hj
      have := h (j + 1) (Nat.succ_lt_succ hj)
      rw [runningSum_front, runningSum_front, runningSum_front]
      exact this

/-- The ray loop stops at the first step whose probes are non-empty. -/
theorem rayLoop_hit_double (world : CWorld) (dr dx dy max_range : ℚ) (k fuel : Nat) (px py : ℚ)
    (hfree : ∀ j : Nat, j < k → runningSum 0 dr j < max_range ∧
      probeCell world dr (runningSum px dx j) (runningSum py dy j) = 0)
    (hin : runningSum 0 dr k < max_range)
    (hhit : probeCell world dr (runningSum px dx k) (runningSum py dy k) ≠ 0)
    (hfuel : k < fuel) :
    rayLoop world dr dx dy max_range fuel 0 px py
      = some { range := runningSum 0 dr k, px := runningSum px dx k, py := runningSum py dy k,
               intensity :=
                 if probeCell world dr (runningSum px dx k) (runningSum py dy k) &&& 0x8F = 2
                 then 1 else 0 } := by
  obtain ⟨m, rfl⟩ : ∃ m, fuel = (m + 1) + k := ⟨fuel - k - 1, by omega⟩
  rw [rayLoop_steps_double world dr dx dy max_range k (m + 1) 0 px py hfree]
  rw [rayLoop]
  simp [hin, hhit]

/-- The ray loop is left without a hit at the first step whose running
range is not below `max_range`. -/
theorem rayLoop_exit_double (world : CWorld) (dr dx dy max_range : ℚ) (k fuel : Nat) (px py : ℚ)
    (hfree : ∀ j : Nat, j < k → runningSum 0 dr j < max_range ∧
      probeCell world dr (runningSum px dx j) (runningSum py dy j) = 0)
    (hout : max_range ≤ runningSum 0 dr k)
    (hfuel : k < fuel) :
    rayLoop world dr dx dy max_range fuel 0 px py
      = some { range := runningSum 0 dr k, px := runningSum px dx k, py := runningSum py dy k,
               intensity := 0 } := by
  obtain ⟨m, rfl⟩ : ∃ m, fuel = (m + 1) + k := ⟨fuel - k - 1, by omega⟩
  rw [rayLoop_steps_double world dr dx dy max_range k (m + 1) 0 px py hfree]
  rw [rayLoop]
  rw [if_neg (not_lt.mpr hout)]

/-- The running sum from 0 is a `double` at every step. -/
theorem runningSum_rnd (d : ℚ) (k : Nat) : rnd (runningSum 0 d k) = runningSum 0 d k := by
  cases k with
  | zero => exact rnd_zero
  | succ n => exact rnd_idem _

theorem runningSum_nonneg {d : ℚ} (hd : 0 ≤ d) (k : Nat) : 0 ≤ runningSum 0 d k := by
  induction k with
  | zero => exact le_rfl
  | succ n ih => exact rnd_nonneg (add_nonneg ih hd)

theorem runningSum_le_succ {d : ℚ} (hd : 0 ≤ d) (k : Nat) :
    runningSum 0 d k ≤ runningSum 0 d (k + 1) := by
  have h : runningSum 0 d k ≤ runningSum 0 d k + d := by linarith
  have := rnd_mono h
  rw [runningSum_rnd] at this
  exact this

/-- The running sum of a step that is not negative does not decrease. -/
theorem runningSum_mono {d : ℚ} (hd : 0 ≤ d) {j k : Nat} (hjk : j ≤ k) :
    runningSum 0 d j ≤ runningSum 0 d k := by
  induction k with
  | zero =>
    have : j = 0 := by omega
    rw [this]
  | succ n ih =>
    rcases Nat.lt_or_ge j (n + 1) with h | h
    · exact le_trans (ih (by omega)) (runningSum_le_succ hd n)
    · have : j = n + 1 := by omega
      rw [this]

/-- Below `max_range` every addition advances the running sum by at least
half a step, when the step is not too small against `max_range`. -/
theorem runningSum_advance {d max_range : ℚ} (hd : 0 < d) (hsmall : max_range ≤ 2 ^ 51 * d)
    (k : Nat) (hk : runningSum 0 d k < max_range) :
    runningSum 0 d k + d / 2 ≤ runningSum 0 d (k + 1) := by
  have h0 := runningSum_nonneg hd.le k
  have herr := rnd_err (runningSum 0 d k + d)
  rw [abs_of_nonneg (by linarith : 0 ≤ runningSum 0 d k + d)] at herr
  have hl := (abs_le.mp herr).1
  show runningSum 0 d k + d / 2 ≤ rnd (runningSum 0 d k + d)
  have hb : (runningSum 0 d k + d) / 2 ^ 53 ≤ d / 2 := by
    rw [div_le_iff₀ (by positivity)]
    nlinarith
  linarith

/-- As long as the running sum stays below `max_range`, it is at least half
the exact multiple. -/
theorem runningSum_lower {d max_range : ℚ} (hd : 0 < d) (hsmall : max_range ≤ 2 ^ 51 * d)
    (k : Nat) (hk : ∀ j : Nat, j < k → runningSum 0 d j < max_range) :
    (k : ℚ) * (d / 2) ≤ runningSum 0 d k := by
  induction k with
  | zero => simp [runningSum]
  | succ n ih =>
    have h1 := ih (fun j hj => hk j (by omega))
    have h2 := runningSum_advance hd hsmall n (hk n (by omega))
    push_cast
    linarith

/-- The running sum reaches `max_range` within `⌈2 * max_range / d⌉` steps. -/
theorem runningSum_reaches {d max_range : ℚ} (hd : 0 < d) (hsmall : max_range ≤ 2 ^ 51 * d) :
    ∃ k : Nat, k ≤ ⌈2 * max_range / d⌉₊ ∧ max_range ≤ runningSum 0 d k ∧
      ∀ j : Nat, j < k → runningSum 0 d j < max_range := by
  have hex : ∃ k : Nat, max_range ≤ runningSum 0 d k := by
    by_contra hno
    push_neg at hno
    have h1 := runningSum_lower hd hsmall ⌈2 * max_range / d⌉₊ (fun j _ => hno j)
    have h2 := hno ⌈2 * max_range / d⌉₊
    have h3 := Nat.le_ceil (2 * max_range / d)
    rw [div_le_iff₀ hd] at h3
    linarith
  classical
  refine ⟨Nat.find hex, ?_, Nat.find_spec hex, ?_⟩
  · by_contra hgt
    push_neg at hgt
    have hlt : ∀ j : Nat, j < ⌈2 * max_range / d⌉₊ + 1 → runningSum 0 d j < max_range := by
      intro j hj
      exact not_le.mp (Nat.find_min hex (by omega))
    have h1 := runningSum_lower hd hsmall ⌈2 * max_range / d⌉₊ (fun j hj => hlt j (by omega))
    have h2 := hlt ⌈2 * max_range / d⌉₊ (by omega)
    have h3 := Nat.le_ceil (2 * max_range / d)
    rw [div_le_iff₀ hd] at h3
    linarith
  · intro j hj
    exact not_le.mp (Nat.find_min hex hj)

/-- The running sum differs from the exact multiple by the accumulated
rounding errors. -/
theorem runningSum_err {d max_range : ℚ} (hd : 0 ≤ d) (k : Nat)
    (hk : ∀ j : Nat, j < k → runningSum 0 d j < max_range) :
    |runningSum 0 d k - (k : ℚ) * d| ≤ (k : ℚ) * ((max_range + d) / 2 ^ 53) := by
  induction k with
  | zero => simp [runningSum]
  | succ n ih =>
    have h1 := ih (fun j hj => hk j (by omega))
    have h2 := hk n (by omega)
    have h0 := runningSum_nonneg hd n
    have herr := rnd_err (runningSum 0 d n + d)
    rw [abs_of_nonneg (by linarith : 0 ≤ runningSum 0 d n + d)] at herr
    have hb : (runningSum 0 d n + d) / 2 ^ 53 ≤ (max_range + d) / 2 ^ 53 :=
      div_le_div_of_nonneg_right (by linarith) (by positivity)
    have e : runningSum 0 d (n + 1) - ((n + 1 : Nat) : ℚ) * d
        = (rnd (runningSum 0 d n + d) - (runningSum 0 d n + d))
          + (runningSum 0 d n - (n : ℚ) * d) := by
      show rnd (runningSum 0 d n + d) - ((n + 1 : Nat) : ℚ) * d = _
      push_cast; ring
    rw [e]
    calc |rnd (runningSum 0 d n + d) - (runningSum 0 d n + d) + (runningSum 0 d n - (n : ℚ) * d)|
        ≤ |rnd (runningSum 0 d n + d) - (runningSum 0 d n + d)|
          + |runningSum 0 d n - (n : ℚ) * d| := abs_add _ _
      _ ≤ (max_range + d) / 2 ^ 53 + (n : ℚ) * ((max_range + d) / 2 ^ 53) := by linarith
      _ = ((n + 1 : Nat) : ℚ) * ((max_range + d) / 2 ^ 53) := by push_cast; ring

end Binary64

theorem Binary64_dr_pos {world : CWorld} (hppm : 0 < world.ppm) :
    0 < Binary64.fdiv 1 world.ppm :=
  Binary64.rnd_pos (by positivity)

/-- The ray of a sample stops at the first step with a non-empty probe. -/
theorem Binary64_castRay_hit (libm : LibM) (world : CWorld) (dev : CLaserDevice)
    (ox oy oth : ℚ) (s : Int) (k fuel : Nat) (hppm : 0 < world.ppm)
    (hin : Binary64.rayRange world k < dev.m_max_range)
    (hhit : Binary64.probesNonEmpty world (Binary64.fdiv 1 world.ppm)
      (Binary64.rayPoint libm world dev ox oy oth s k).1
      (Binary64.rayPoint libm world dev ox oy oth s k).2)
    (hfree : ∀ j : Nat, j < k → ¬ (Binary64.rayRange world j < dev.m_max_range ∧
      Binary64.probesNonEmpty world (Binary64.fdiv 1 world.ppm)
        (Binary64.rayPoint libm world dev ox oy oth s j).1
        (Binary64.rayPoint libm world dev ox oy oth s j).2))
    (hfuel : k < fuel) :
    ∃ hit, Binary64.castRay libm world dev ox oy oth fuel s = some hit ∧
      hit.range = Binary64.rayRange world k ∧
      hit.px = (Binary64.rayPoint libm world dev ox oy oth s k).1 ∧
      hit.py = (Binary64.rayPoint libm world dev ox oy oth s k).2 ∧
      hit.intensity =
        (if Binary64.probeCell world (Binary64.fdiv 1 world.ppm)
            (Binary64.rayPoint libm world dev ox oy oth s k).1
            (Binary64.rayPoint libm world dev ox oy oth s k).2 &&& 0x8F = 2 then 1 else 0) := by
  have hdr := Binary64_dr_pos hppm
  refine ⟨_, Binary64.rayLoop_hit_double world _ _ _ dev.m_max_range k fuel ox oy ?_ hin
    ((Binary64.probeCell_ne_zero_iff_double _ _ _ _).mpr hhit) hfuel, rfl, rfl, rfl, rfl⟩
  intro j hj
  have hlt : Binary64.rayRange world j < dev.m_max_range :=
    lt_of_le_of_lt (Binary64.runningSum_mono hdr.le hj.le) hin
  refine ⟨hlt, ?_⟩
  by_contra hne
  exact hfree j hj ⟨hlt, (Binary64.probeCell_ne_zero_iff_double _ _ _ _).mp hne⟩

/-- With no probe ever non-empty the ray of a sample runs until the running
range is no longer below `max_range`. -/
theorem Binary64_castRay_miss (libm : LibM) (world : CWorld) (dev : CLaserDevice)
    (ox oy oth : ℚ) (s : Int) (fuel : Nat) (hppm : 0 < world.ppm)
    (hempty : ∀ j : Nat, ¬ Binary64.probesNonEmpty world (Binary64.fdiv 1 world.ppm)
      (Binary64.rayPoint libm world dev ox oy oth s j).1
      (Binary64.rayPoint libm world dev ox oy oth s j).2)
    (hstep : dev.m_max_range ≤ 2 ^ 51 * Binary64.fdiv 1 world.ppm)
    (hfuel : ⌈2 * dev.m_max_range / Binary64.fdiv 1 world.ppm⌉₊ < fuel) :
    ∃ k : Nat, (∀ j : Nat, j < k → Binary64.rayRange world j < dev.m_max_range) ∧
      dev.m_max_range ≤ Binary64.rayRange world k ∧
      Binary64.castRay libm world dev ox oy oth fuel s
        = some { range := Binary64.rayRange world k,
                 px := (Binary64.rayPoint libm world dev ox oy oth s k).1,
                 py := (Binary64.rayPoint libm world dev ox oy oth s k).2,
                 intensity := 0 } := by
  have hdr := Binary64_dr_pos hppm
  obtain ⟨k, hk1, hk2, hk3⟩ := Binary64.runningSum_reaches hdr hstep
  refine ⟨k, hk3, hk2, ?_⟩
  apply Binary64.rayLoop_exit_double world _ _ _ dev.m_max_range k fuel ox oy _ hk2 (by omega)
  intro j hj
  refine ⟨hk3 j hj, ?_⟩
  by_contra hne
  exact hempty j ((Binary64.probeCell_ne_zero_iff_double _ _ _ _).mp hne)

theorem Binary64_rangeWord_intensity_zero (m_intensity : Bool) (range : ℚ) :
    Binary64.rangeWord m_intensity range 0
      = toUInt16 (truncToInt (Binary64.fmul 1000 range)) := by
  unfold Binary64.rangeWord
  cases m_intensity
  · rfl
  · simp only [if_true]
    have h0 : toUInt16 ((0 : Nat) : Int) = 0 := by decide
    rw [h0, Nat.zero_shiftLeft, Nat.or_zero]
    unfold toUInt16
    have hpos : (0 : Int) ≤ truncToInt (Binary64.fmul 1000 range) % 65536 :=
      Int.emod_nonneg _ (by norm_num)
    have hlt : truncToInt (Binary64.fmul 1000 range) % 65536 < 65536 :=
      Int.emod_lt_of_pos _ (by norm_num)
    rw [Int.toNat_of_nonneg hpos, Int.emod_emod_of_dvd _ (dvd_refl _)]

theorem Binary64_runningSum_zero_step (x0 : ℚ) (h0 : Binary64.rnd x0 = x0) (k : Nat) :
    Binary64.runningSum x0 0 k = x0 := by
  induction k with
  | zero => rfl
  | succ n ih =>
    show Binary64.fadd (Binary64.runningSum x0 0 n) 0 = x0
    rw [ih]
    unfold Binary64.fadd
    rw [add_zero, h0]

theorem Binary64_runningSum_add (x0 d : ℚ) (a b : Nat) :
    Binary64.runningSum x0 d (a + b) = Binary64.runningSum (Binary64.runningSum x0 d a) d b := by
  induction b with
  | zero => rfl
  | succ n ih =>
    show Binary64.fadd (Binary64.runningSum x0 d (a + n)) d
      = Binary64.fadd (Binary64.runningSum (Binary64.runningSum x0 d a) d n) d
    rw [ih]

/-- The grid step of a world with 20 pixels per metre: the `double` nearest
to 0.05. -/
theorem Binary64_step20 : Binary64.fdiv 1 20 = 3602879701896397 / 72057594037927936 := by
  decide!

set_option maxRecDepth 100000 in
/-- The running sum of that step after 100 additions, 4.99999999999999... -/
theorem Binary64_sum20_100 :
    Binary64.runningSum 0 (3602879701896397 / 72057594037927936) 100
      = 5629499534213109 / 1125899906842624 := by
  decide!

/-- After 101 additions, 5.04999999999999... -/
theorem Binary64_sum20_101 :
    Binary64.runningSum 0 (3602879701896397 / 72057594037927936) 101
      = 710724316194405 / 140737488355328 := by
  show Binary64.fadd (Binary64.runningSum 0 (3602879701896397 / 72057594037927936) 100)
    (3602879701896397 / 72057594037927936) = 710724316194405 / 140737488355328
  rw [Binary64_sum20_100]
  decide!

set_option maxRecDepth 100000 in
/-- After 160 additions, 7.99999999999998... -/
theorem Binary64_sum20_160 :
    Binary64.runningSum 0 (3602879701896397 / 72057594037927936) 160
      = 9007199254740969 / 1125899906842624 := by
  rw [show (160 : Nat) = 100 + 60 from rfl, Binary64_runningSum_add, Binary64_sum20_100]
  decide!

/-- After 161 additions, 8.04999999999998... -/
theorem Binary64_sum20_161 :
    Binary64.runningSum 0 (3602879701896397 / 72057594037927936) 161
      = 2265873562520775 / 281474976710656 := by
  show Binary64.fadd (Binary64.runningSum 0 (3602879701896397 / 72057594037927936) 160)
    (3602879701896397 / 72057594037927936) = 2265873562520775 / 281474976710656
  rw [Binary64_sum20_160]
  decide!

/-- The ray of a sample of bearing 0 from the pose (0, 0, 0) in a world of
20 pixels per metre runs along the x axis: after `j` steps it is at the
running sum of the grid step, and the running range is the same sum. -/
theorem Binary64_axis_ray (libm : LibM) (world : CWorld) (dev : CLaserDevice) (s : Int)
    (hppm : world.ppm = 20)
    (hb : Binary64.fadd (Binary64.fmul (s : ℚ) dev.m_scan_res) dev.m_scan_min = 0)
    (hcos : libm.cos 0 = 1) (hsin : libm.sin 0 = 0) (j : Nat) :
    Binary64.rayPoint libm world dev 0 0 0 s j
      = (Binary64.runningSum 0 (3602879701896397 / 72057594037927936) j, 0) ∧
    Binary64.rayRange world j
      = Binary64.runningSum 0 (3602879701896397 / 72057594037927936) j := by
  have hdr : Binary64.fdiv 1 world.ppm = 3602879701896397 / 72057594037927936 := by
    rw [hppm]; exact Binary64_step20
  have hpth : Binary64.fadd 0
      (Binary64.fadd (Binary64.fmul (s : ℚ) dev.m_scan_res) dev.m_scan_min) = 0 := by
    rw [hb]; unfold Binary64.fadd; rw [add_zero, Binary64.rnd_zero]
  have hdx : Binary64.fmul (3602879701896397 / 72057594037927936) 1
      = 3602879701896397 / 72057594037927936 := by
    unfold Binary64.fmul
    rw [mul_one, ← Binary64_step20]
    exact Binary64.rnd_idem _
  have hdy : Binary64.fmul (3602879701896397 / 72057594037927936) 0 = 0 := by
    unfold Binary64.fmul
    rw [mul_zero, Binary64.rnd_zero]
  constructor
  · unfold Binary64.rayPoint
    rw [hpth, hcos, hsin, hdr, hdx, hdy,
      Binary64_runningSum_zero_step 0 Binary64.rnd_zero]
  · unfold Binary64.rayRange
    rw [hdr]

/-- The example of the wall: grid step 0.05 m, `max_range` 8 m, bearing 0,
the world empty for x < 5 and occupied for 5 <= x < 5.05. No probe is
non-empty before step 100, one is at step 100, and the ray stops there. -/
theorem Binary64_castRay_wall (libm : LibM) (world : CWorld) (dev : CLaserDevice) (s : Int)
    (fuel : Nat) (hppm : world.ppm = 20) (hmax : dev.m_max_range = 8)
    (hb : Binary64.fadd (Binary64.fmul (s : ℚ) dev.m_scan_res) dev.m_scan_min = 0)
    (hcos : libm.cos 0 = 1) (hsin : libm.sin 0 = 0)
    (hfree : ∀ x y : ℚ, x < 5 → world.GetCell x y = 0)
    (hwall : ∀ x y : ℚ, 5 ≤ x → x < 5 + 1 / 20 → world.GetCell x y ≠ 0)
    (hfuel : 100 < fuel) :
    (∀ j : Nat, j < 100 → ¬ Binary64.probesNonEmpty world (Binary64.fdiv 1 world.ppm)
      (Binary64.rayPoint libm world dev 0 0 0 s j).1
      (Binary64.rayPoint libm world dev 0 0 0 s j).2) ∧
    Binary64.probesNonEmpty world (Binary64.fdiv 1 world.ppm)
      (Binary64.rayPoint libm world dev 0 0 0 s 100).1
      (Binary64.rayPoint libm world dev 0 0 0 s 100).2 ∧
    Binary64.rayRange world 100 = 5629499534213109 / 1125899906842624 ∧
    Binary64.castRay libm world dev 0 0 0 fuel s
      = some { range := 5629499534213109 / 1125899906842624,
               px := 5629499534213109 / 1125899906842624, py := 0,
               intensity :=
                 if Binary64.probeCell world (3602879701896397 / 72057594037927936)
                      (5629499534213109 / 1125899906842624) 0 &&& 0x8F = 2
                 then 1 else 0 } := by
  have hdr : Binary64.fdiv 1 world.ppm = 3602879701896397 / 72057594037927936 := by
    rw [hppm]; exact Binary64_step20
  have hdrpos : (0 : ℚ) ≤ 3602879701896397 / 72057594037927936 := by norm_num
  have hax := Binary64_axis_ray libm world dev s hppm hb hcos hsin
  have hlt5 : ∀ j : Nat, j ≤ 100 →
      Binary64.runningSum 0 (3602879701896397 / 72057594037927936) j < 5 := by
    intro j hj
    have := Binary64.runningSum_mono hdrpos hj
    rw [Binary64_sum20_100] at this
    exact lt_of_le_of_lt this (by norm_num)
  have hfreeAll : ∀ j : Nat, j < 100 → ¬ Binary64.probesNonEmpty world
      (Binary64.fdiv 1 world.ppm)
      (Binary64.rayPoint libm world dev 0 0 0 s j).1
      (Binary64.rayPoint libm world dev 0 0 0 s j).2 := by
    intro j hj hcon
    rw [(hax j).1, hdr] at hcon
    rcases hcon with h | h | h
    · exact h (hfree _ _ (hlt5 j (by omega)))
    · exact h (hfree _ _ (hlt5 (j + 1) (by omega)))
    · exact h (hfree _ _ (hlt5 j (by omega)))
  have hhit : Binary64.probesNonEmpty world (Binary64.fdiv 1 world.ppm)
      (Binary64.rayPoint libm world dev 0 0 0 s 100).1
      (Binary64.rayPoint libm world dev 0 0 0 s 100).2 := by
    rw [(hax 100).1, hdr]
    right; left
    show world.GetCell (Binary64.fadd
      (Binary64.runningSum 0 (3602879701896397 / 72057594037927936) 100)
      (3602879701896397 / 72057594037927936)) 0 ≠ 0
    have e : Binary64.fadd (Binary64.runningSum 0 (3602879701896397 / 72057594037927936) 100)
        (3602879701896397 / 72057594037927936) = 710724316194405 / 140737488355328 :=
      Binary64_sum20_101
    rw [e]
    exact hwall _ _ (by norm_num) (by norm_num)
  have hr100 : Binary64.rayRange world 100 = 5629499534213109 / 1125899906842624 := by
    rw [(hax 100).2, Binary64_sum20_100]
  refine ⟨hfreeAll, hhit, hr100, ?_⟩
  obtain ⟨hit, h1, h2, h3, h4, h5⟩ := Binary64_castRay_hit libm world dev 0 0 0 s 100 fuel
    (by rw [hppm]; norm_num)
    (by rw [hr100, hmax]; norm_num)
    hhit (fun j hj hcon => hfreeAll j hj hcon.2) hfuel
  rw [h1]
  rw [hr100] at h2
  rw [(hax 100).1, Binary64_sum20_100] at h3 h4 h5
  rw [hdr] at h5
  obtain ⟨r, px, py, i⟩ := hit
  simp only at h2 h3 h4 h5
  rw [h2, h3, h4, h5]

/-- The same ray in a world without obstacles: the running range is below
8 m after 160 additions and not after 161, where the ray stops. -/
theorem Binary64_castRay_open (libm : LibM) (world : CWorld) (dev : CLaserDevice) (s : Int)
    (fuel : Nat) (hppm : world.ppm = 20) (hmax : dev.m_max_range = 8)
    (hb : Binary64.fadd (Binary64.fmul (s : ℚ) dev.m_scan_res) dev.m_scan_min = 0)
    (hcos : libm.cos 0 = 1) (hsin : libm.sin 0 = 0)
    (hfree : ∀ x y : ℚ, world.GetCell x y = 0)
    (hfuel : 161 < fuel) :
    (∀ j : Nat, j < 161 → Binary64.rayRange world j < dev.m_max_range) ∧
    Binary64.castRay libm world dev 0 0 0 fuel s
      = some { range := 2265873562520775 / 281474976710656,
               px := 2265873562520775 / 281474976710656, py := 0, intensity := 0 } := by
  have hdr : Binary64.fdiv 1 world.ppm = 3602879701896397 / 72057594037927936 := by
    rw [hppm]; exact Binary64_step20
  have hdrpos : (0 : ℚ) ≤ 3602879701896397 / 72057594037927936 := by norm_num
  have hax := Binary64_axis_ray libm world dev s hppm hb hcos hsin
  have hlt8 : ∀ j : Nat, j < 161 → Binary64.rayRange world j < dev.m_max_range := by
    intro j hj
    rw [(hax j).2, hmax]
    have := Binary64.runningSum_mono hdrpos (show j ≤ 160 by omega)
    rw [Binary64_sum20_160] at this
    exact lt_of_le_of_lt this (by norm_num)
  refine ⟨hlt8, ?_⟩
  have hex := Binary64.rayLoop_exit_double world (Binary64.fdiv 1 world.ppm)
    (Binary64.fmul (Binary64.fdiv 1 world.ppm)
      (libm.cos (Binary64.fadd 0
        (Binary64.fadd (Binary64.fmul (s : ℚ) dev.m_scan_res) dev.m_scan_min))))
    (Binary64.fmul (Binary64.fdiv 1 world.ppm)
      (libm.sin (Binary64.fadd 0
        (Binary64.fadd (Binary64.fmul (s : ℚ) dev.m_scan_res) dev.m_scan_min))))
    dev.m_max_range 161 fuel 0 0
    (by
      intro j hj
      refine ⟨hlt8 j hj, ?_⟩
      unfold Binary64.probeCell
      rw [hfree, hfree, hfree]
      rfl)
    (by
      have := (hax 161).2
      unfold Binary64.rayRange at this
      rw [this, Binary64_sum20_161, hmax]
      norm_num)
    hfuel
  have hp := (hax 161).1
  have hrr := (hax 161).2
  unfold Binary64.rayPoint at hp
  unfold Binary64.rayRange at hrr
  rw [Binary64_sum20_161] at hp hrr
  have hp1 := congrArg Prod.fst hp
  have hp2 := congrArg Prod.snd hp
  simp only at hp1 hp2
  rw [hrr, hp1, hp2] at hex
  exact hex

/-! ## Facts about the sample count in double precision -/

/-- One more rounding adds at most `2 * 2^-53` to a relative error. -/
theorem Binary64_rnd_rel_step {y t e : ℚ} (h : |y - t| ≤ e * |t|) (he : e ≤ 1) :
    |Binary64.rnd y - t| ≤ (e + 2 / 2 ^ 53) * |t| := by
  have h1 := Binary64.rnd_err y
  have h2 : |y| ≤ |t| + e * |t| := by
    have : |y| ≤ |y - t| + |t| := by
      have := abs_add (y - t) t
      rwa [sub_add_cancel] at this
    linarith
  have ht := abs_nonneg t
  have h3 : |y| / 2 ^ 53 ≤ 2 / 2 ^ 53 * |t| := by
    have : |y| ≤ 2 * |t| := by nlinarith
    calc |y| / 2 ^ 53 ≤ 2 * |t| / 2 ^ 53 := div_le_div_of_nonneg_right this (by positivity)
      _ = 2 / 2 ^ 53 * |t| := by ring
  calc |Binary64.rnd y - t| = |(Binary64.rnd y - y) + (y - t)| := by ring_nf
    _ ≤ |Binary64.rnd y - y| + |y - t| := abs_add _ _
    _ ≤ (e + 2 / 2 ^ 53) * |t| := by linarith

/-- The macro `DTOR` applied to `t / 100` on `double` has a relative error
of at most `5 * 2^-53`. -/
theorem Binary64_DTOR_err (t : ℚ) :
    |Binary64.DTOR (Binary64.fdiv t 100) - t * (M_PI / 18000)|
      ≤ 5 / 2 ^ 53 * |t * (M_PI / 18000)| := by
  have hpi := M_PI_pos
  unfold Binary64.DTOR Binary64.fdiv Binary64.fmul
  have s1 : |Binary64.rnd (t / 100) - t / 100| ≤ 1 / 2 ^ 53 * |t / 100| := by
    have := Binary64.rnd_err (t / 100)
    calc |Binary64.rnd (t / 100) - t / 100| ≤ |t / 100| / 2 ^ 53 := this
      _ = 1 / 2 ^ 53 * |t / 100| := by ring
  have s2 : |Binary64.rnd (t / 100) * M_PI - t / 100 * M_PI| ≤ 1 / 2 ^ 53 * |t / 100 * M_PI| := by
    rw [← sub_mul, abs_mul, abs_mul, abs_of_pos hpi]
    calc |Binary64.rnd (t / 100) - t / 100| * M_PI ≤ (1 / 2 ^ 53 * |t / 100|) * M_PI :=
          mul_le_mul_of_nonneg_right s1 hpi.le
      _ = 1 / 2 ^ 53 * (|t / 100| * M_PI) := by ring
  have s3 := Binary64_rnd_rel_step s2 (by norm_num)
  have s4 : |Binary64.rnd (Binary64.rnd (t / 100) * M_PI) / 180 - t / 100 * M_PI / 180|
      ≤ (1 / 2 ^ 53 + 2 / 2 ^ 53) * |t / 100 * M_PI / 180| := by
    rw [← sub_div, abs_div, abs_div]
    calc |Binary64.rnd (Binary64.rnd (t / 100) * M_PI) - t / 100 * M_PI| / |(180 : ℚ)|
        ≤ ((1 / 2 ^ 53 + 2 / 2 ^ 53) * |t / 100 * M_PI|) / |(180 : ℚ)| :=
          div_le_div_of_nonneg_right s3 (abs_nonneg _)
      _ = (1 / 2 ^ 53 + 2 / 2 ^ 53) * (|t / 100 * M_PI| / |(180 : ℚ)|) := by ring
  have s5 := Binary64_rnd_rel_step s4 (by norm_num)
  have e : t / 100 * M_PI / 180 = t * (M_PI / 18000) := by ring
  rw [e] at s5
  calc |Binary64.rnd (Binary64.rnd (Binary64.rnd (t / 100) * M_PI) / 180) - t * (M_PI / 18000)|
      ≤ (1 / 2 ^ 53 + 2 / 2 ^ 53 + 2 / 2 ^ 53) * |t * (M_PI / 18000)| := s5
    _ = 5 / 2 ^ 53 * |t * (M_PI / 18000)| := by ring

/-- The quotient of two rounded differences of angles, against the exact
quotient of the angles. -/
theorem Binary64_quotient_err {c a b r α β ρ : ℚ} (hc : 0 < c)
    (ha : |a - α * c| ≤ 5 / 2 ^ 53 * |α * c|) (hb : |b - β * c| ≤ 5 / 2 ^ 53 * |β * c|)
    (hr : |r - ρ * c| ≤ 5 / 2 ^ 53 * |ρ * c|)
    (hα : |α| ≤ 32768) (hβ : |β| ≤ 32768) (hρ1 : 25 ≤ ρ) (hρ2 : ρ ≤ 100) :
    |Binary64.rnd (Binary64.rnd (a - b) / r) - (α - β) / ρ| ≤ 1 / 2 ^ 36 := by
  have hρ : 0 < ρ := by linarith
  -- the three stored values
  have ha1 : |a - α * c| ≤ 163840 / 2 ^ 53 * c := by
    rw [abs_mul, abs_of_pos hc] at ha
    have : |α| * c ≤ 32768 * c := mul_le_mul_of_nonneg_right hα hc.le
    linarith
  have hb1 : |b - β * c| ≤ 163840 / 2 ^ 53 * c := by
    rw [abs_mul, abs_of_pos hc] at hb
    have : |β| * c ≤ 32768 * c := mul_le_mul_of_nonneg_right hβ hc.le
    linarith
  have hr1 : |r - ρ * c| ≤ 500 / 2 ^ 53 * c := by
    rw [abs_mul, abs_of_pos hc, abs_of_pos hρ] at hr
    have : ρ * c ≤ 100 * c := mul_le_mul_of_nonneg_right hρ2 hc.le
    linarith
  have hrlow : 24 * c ≤ r := by
    have := (abs_le.mp hr1).1
    have : 25 * c ≤ ρ * c := mul_le_mul_of_nonneg_right hρ1 hc.le
    linarith
  have hrpos : 0 < r := by linarith
  -- the difference
  have hA : |α - β| ≤ 65536 := by
    have := abs_sub α β
    linarith
  have hT : |(α - β) * c| ≤ 65536 * c := by
    rw [abs_mul, abs_of_pos hc]
    exact mul_le_mul_of_nonneg_right hA hc.le
  have hd1 : |(a - b) - (α - β) * c| ≤ 327680 / 2 ^ 53 * c := by
    have e : (a - b) - (α - β) * c = (a - α * c) - (b - β * c) := by ring
    rw [e]
    have := abs_sub (a - α * c) (b - β * c)
    linarith
  have hd2 : |a - b| ≤ 65537 * c := by
    have : |a - b| ≤ |(a - b) - (α - β) * c| + |(α - β) * c| := by
      have := abs_add ((a - b) - (α - β) * c) ((α - β) * c)
      rwa [sub_add_cancel] at this
    linarith
  have hD : |Binary64.rnd (a - b) - (α - β) * c| ≤ 2 ^ 19 / 2 ^ 53 * c := by
    have h1 := Binary64.rnd_err (a - b)
    have h2 : |a - b| / 2 ^ 53 ≤ 65537 / 2 ^ 53 * c := by
      calc |a - b| / 2 ^ 53 ≤ 65537 * c / 2 ^ 53 :=
            div_le_div_of_nonneg_right hd2 (by positivity)
        _ = 65537 / 2 ^ 53 * c := by ring
    have : |Binary64.rnd (a - b) - (α - β) * c|
        ≤ |Binary64.rnd (a - b) - (a - b)| + |(a - b) - (α - β) * c| := by
      have := abs_add (Binary64.rnd (a - b) - (a - b)) ((a - b) - (α - β) * c)
      rwa [sub_add_sub_cancel] at this
    linarith
  -- the quotient before rounding
  have hnum : |Binary64.rnd (a - b) * ρ - (α - β) * r| ≤ 2 ^ 20 / 2 ^ 53 * (c * ρ) := by
    have e : Binary64.rnd (a - b) * ρ - (α - β) * r
        = (Binary64.rnd (a - b) - (α - β) * c) * ρ - (α - β) * (r - ρ * c) := by ring
    rw [e]
    have h1 : |(Binary64.rnd (a - b) - (α - β) * c) * ρ| ≤ 2 ^ 19 / 2 ^ 53 * c * ρ := by
      rw [abs_mul, abs_of_pos hρ]
      exact mul_le_mul_of_nonneg_right hD hρ.le
    have h2 : |(α - β) * (r - ρ * c)| ≤ 65536 * (5 / 2 ^ 53 * (ρ * c)) := by
      rw [abs_mul]
      rw [abs_mul, abs_of_pos hc, abs_of_pos hρ] at hr
      exact mul_le_mul hA hr (abs_nonneg _) (by norm_num)
    have := abs_sub ((Binary64.rnd (a - b) - (α - β) * c) * ρ) ((α - β) * (r - ρ * c))
    have hcρ : 0 < c * ρ := mul_pos hc hρ
    nlinarith
  have hq : |Binary64.rnd (a - b) / r - (α - β) / ρ| ≤ 2 ^ 16 / 2 ^ 53 := by
    have e : Binary64.rnd (a - b) / r - (α - β) / ρ
        = (Binary64.rnd (a - b) * ρ - (α - β) * r) / (r * ρ) := by
      field_simp
      ring
    rw [e, abs_div, abs_of_pos (mul_pos hrpos hρ), div_le_iff₀ (mul_pos hrpos hρ)]
    have : 24 * c * ρ ≤ r * ρ := mul_le_mul_of_nonneg_right hrlow hρ.le
    have hcρ : 0 < c * ρ := mul_pos hc hρ
    nlinarith
  have hqabs : |Binary64.rnd (a - b) / r| ≤ 2623 := by
    have h1 : |(α - β) / ρ| ≤ 65536 / 25 := by
      rw [abs_div, abs_of_pos hρ, div_le_div_iff₀ hρ (by norm_num)]
      nlinarith [abs_nonneg (α - β)]
    have : |Binary64.rnd (a - b) / r|
        ≤ |Binary64.rnd (a - b) / r - (α - β) / ρ| + |(α - β) / ρ| := by
      have := abs_add (Binary64.rnd (a - b) / r - (α - β) / ρ) ((α - β) / ρ)
      rwa [sub_add_cancel] at this
    have h2 : (2 : ℚ) ^ 16 / 2 ^ 53 ≤ 1 := by norm_num
    linarith
  have hQ := Binary64.rnd_err (Binary64.rnd (a - b) / r)
  have h3 : |Binary64.rnd (a - b) / r| / 2 ^ 53 ≤ 2623 / 2 ^ 53 :=
    div_le_div_of_nonneg_right hqabs (by positivity)
  have : |Binary64.rnd (Binary64.rnd (a - b) / r) - (α - β) / ρ|
      ≤ |Binary64.rnd (Binary64.rnd (a - b) / r) - Binary64.rnd (a - b) / r|
        + |Binary64.rnd (a - b) / r - (α - β) / ρ| := by
    have := abs_add (Binary64.rnd (Binary64.rnd (a - b) / r) - Binary64.rnd (a - b) / r)
      (Binary64.rnd (a - b) / r - (α - β) / ρ)
    rwa [sub_add_sub_cancel] at this
  have h4 : (2623 : ℚ) / 2 ^ 53 + 2 ^ 16 / 2 ^ 53 ≤ 1 / 2 ^ 36 := by norm_num
  linarith

/-- A value near a rational that keeps away from the integers has the same
integer part. -/
theorem truncToInt_near {Q q : ℚ} {n : Int} (h1 : (n : ℚ) + 1 / 100 ≤ q)
    (h2 : q ≤ (n : ℚ) + 99 / 100) (hQ : |Q - q| ≤ 1 / 2 ^ 36) :
    truncToInt Q = truncToInt q := by
  obtain ⟨l, u⟩ := abs_le.mp hQ
  have hs : (1 : ℚ) / 2 ^ 36 < 1 / 100 := by norm_num
  have fQ : ⌊Q⌋ = n := by
    rw [Int.floor_eq_iff]; constructor <;> linarith
  have fq : ⌊q⌋ = n := by
    rw [Int.floor_eq_iff]; constructor <;> linarith
  have cQ : ⌈Q⌉ = n + 1 := by
    rw [Int.ceil_eq_iff]; push_cast; constructor <;> linarith
  have cq : ⌈q⌉ = n + 1 := by
    rw [Int.ceil_eq_iff]; push_cast; constructor <;> linarith
  rcases le_or_lt 0 n with hn | hn
  · have hn' : (0 : ℚ) ≤ (n : ℚ) := by exact_mod_cast hn
    rw [truncToInt_of_nonneg (by linarith), truncToInt_of_nonneg (by linarith), fQ, fq]
  · have hn' : (n : ℚ) ≤ -1 := by
      have : n ≤ -1 := by omega
      exact_mod_cast this
    rw [truncToInt_of_neg (by linarith), truncToInt_of_neg (by linarith), cQ, cq]

/-- A value near a positive integer has that integer or the one below as
its integer part. -/
theorem truncToInt_near_pos {Q : ℚ} {n : Int} (hn : 0 < n) (hQ : |Q - (n : ℚ)| ≤ 1 / 2 ^ 36) :
    truncToInt Q = n - 1 ∨ truncToInt Q = n := by
  obtain ⟨l, u⟩ := abs_le.mp hQ
  have hs : (1 : ℚ) / 2 ^ 36 < 1 / 100 := by norm_num
  have hn' : (1 : ℚ) ≤ (n : ℚ) := by
    have : 1 ≤ n := by omega
    exact_mod_cast this
  rw [truncToInt_of_nonneg (by linarith)]
  rcases lt_or_le Q (n : ℚ) with h | h
  · left
    rw [Int.floor_eq_iff]; push_cast; constructor <;> linarith
  · right
    rw [Int.floor_eq_iff]; constructor <;> linarith

/-- A value near a negative integer has that integer or the one above as
its integer part. -/
theorem truncToInt_near_neg {Q : ℚ} {n : Int} (hn : n < 0) (hQ : |Q - (n : ℚ)| ≤ 1 / 2 ^ 36) :
    truncToInt Q = n ∨ truncToInt Q = n + 1 := by
  obtain ⟨l, u⟩ := abs_le.mp hQ
  have hs : (1 : ℚ) / 2 ^ 36 < 1 / 100 := by norm_num
  have hn' : (n : ℚ) ≤ -1 := by
    have : n ≤ -1 := by omega
    exact_mod_cast this
  rw [truncToInt_of_neg (by linarith)]
  rcases lt_or_le (n : ℚ) Q with h | h
  · right
    rw [Int.ceil_eq_iff]; push_cast; constructor <;> linarith
  · left
    rw [Int.ceil_eq_iff]; constructor <;> linarith

theorem toInt16_bounds (n : Nat) : -32768 ≤ toInt16 n ∧ toInt16 n ≤ 32767 := by
  unfold toInt16
  split_ifs with h <;> omega

theorem requestMin_abs (config : player_laser_config_t) :
    |((Binary64.requestMin config : Int) : ℚ)| ≤ 32768 := by
  have hb := toInt16_bounds (ntohs (toUInt16 config.min_angle))
  have h : |Binary64.requestMin config| ≤ 32768 := by
    unfold Binary64.requestMin ntohsInt16
    rw [abs_le]
    split_ifs <;> omega
  exact_mod_cast h

theorem requestMax_abs (config : player_laser_config_t) :
    |((Binary64.requestMax config : Int) : ℚ)| ≤ 32768 := by
  have hb := toInt16_bounds (ntohs (toUInt16 config.max_angle))
  have h : |Binary64.requestMax config| ≤ 32768 := by
    unfold Binary64.requestMax ntohsInt16
    rw [abs_le]
    split_ifs <;> omega
  exact_mod_cast h

/-- What an accepted request stores, on `double`. -/
theorem Binary64_CheckConfig_accepted (dev : CLaserDevice) (config : player_laser_config_t)
    (h : (Binary64.CheckConfig dev (some config)).ret = true) :
    (ntohs config.resolution = 25 ∨ ntohs config.resolution = 50 ∨
      ntohs config.resolution = 100) ∧
    (Binary64.CheckConfig dev (some config)).dev.m_scan_res
      = Binary64.DTOR (Binary64.fdiv ((ntohs config.resolution : Nat) : ℚ) 100) ∧
    (Binary64.CheckConfig dev (some config)).dev.m_scan_min
      = Binary64.DTOR (Binary64.fdiv ((Binary64.requestMin config : Int) : ℚ) 100) ∧
    (Binary64.CheckConfig dev (some config)).dev.m_scan_max
      = Binary64.DTOR (Binary64.fdiv ((Binary64.requestMax config : Int) : ℚ) 100) ∧
    (Binary64.CheckConfig dev (some config)).dev.m_scan_count
      = truncToInt (Binary64.spanQuotient (Binary64.CheckConfig dev (some config)).dev) + 1 := by
  by_cases h25 : ntohs config.resolution = 25
  · refine ⟨Or.inl h25, ?_, ?_, ?_, ?_⟩ <;>
      simp [Binary64.CheckConfig, Binary64.requestMin, Binary64.requestMax,
        Binary64.spanQuotient, h25]
  · by_cases h2 : ntohs config.resolution = 50 ∨ ntohs config.resolution = 100
    · refine ⟨Or.inr h2, ?_, ?_, ?_, ?_⟩ <;>
        simp only [Binary64.CheckConfig, Binary64.requestMin, Binary64.requestMax,
          Binary64.spanQuotient, h25, if_false, h2, if_true]
    · exfalso
      push_neg at h2
      simp [Binary64.CheckConfig, h25, h2.1, h2.2] at h

/-- The quotient on `double` against the exact quotient of the same
operands. -/
theorem Binary64_spanQuotient_rel (dev : CLaserDevice) :
    |Binary64.spanQuotient dev - (dev.m_scan_max - dev.m_scan_min) / dev.m_scan_res|
      ≤ 3 / 2 ^ 53 * |(dev.m_scan_max - dev.m_scan_min) / dev.m_scan_res| := by
  unfold Binary64.spanQuotient Binary64.fdiv Binary64.fsub
  have h1 := Binary64.rnd_err (dev.m_scan_max - dev.m_scan_min)
  have h2 : |Binary64.rnd (dev.m_scan_max - dev.m_scan_min) / dev.m_scan_res
      - (dev.m_scan_max - dev.m_scan_min) / dev.m_scan_res|
      ≤ 1 / 2 ^ 53 * |(dev.m_scan_max - dev.m_scan_min) / dev.m_scan_res| := by
    rw [← sub_div, abs_div, abs_div]
    calc |Binary64.rnd (dev.m_scan_max - dev.m_scan_min) - (dev.m_scan_max - dev.m_scan_min)|
          / |dev.m_scan_res|
        ≤ (|dev.m_scan_max - dev.m_scan_min| / 2 ^ 53) / |dev.m_scan_res| :=
          div_le_div_of_nonneg_right h1 (abs_nonneg _)
      _ = 1 / 2 ^ 53 * (|dev.m_scan_max - dev.m_scan_min| / |dev.m_scan_res|) := by ring
  have h3 := Binary64_rnd_rel_step h2 (by norm_num)
  calc _ ≤ (1 / 2 ^ 53 + 2 / 2 ^ 53) * |(dev.m_scan_max - dev.m_scan_min) / dev.m_scan_res| := h3
    _ = 3 / 2 ^ 53 * |(dev.m_scan_max - dev.m_scan_min) / dev.m_scan_res| := by ring

/-- The quotient on `double` that an accepted request leaves, against the
quotient of the request in centidegrees. -/
theorem Binary64_CheckConfig_quotient (dev : CLaserDevice) (config : player_laser_config_t)
    (h : (Binary64.CheckConfig dev (some config)).ret = true) :
    |Binary64.spanQuotient (Binary64.CheckConfig dev (some config)).dev
      - ((Binary64.requestMax config - Binary64.requestMin config : Int) : ℚ)
        / ((ntohs config.resolution : Nat) : ℚ)| ≤ 1 / 2 ^ 36 := by
  obtain ⟨hres, e1, e2, e3, _⟩ := Binary64_CheckConfig_accepted dev config h
  unfold Binary64.spanQuotient Binary64.fdiv Binary64.fsub
  rw [e1, e2, e3]
  have hc : (0 : ℚ) < M_PI / 18000 := div_pos M_PI_pos (by norm_num)
  have hρ : (25 : ℚ) ≤ ((ntohs config.resolution : Nat) : ℚ)
      ∧ ((ntohs config.resolution : Nat) : ℚ) ≤ 100 := by
    rcases hres with hr | hr | hr <;> rw [hr] <;> norm_num
  have := Binary64_quotient_err hc
    (Binary64_DTOR_err ((Binary64.requestMax config : Int) : ℚ))
    (Binary64_DTOR_err ((Binary64.requestMin config : Int) : ℚ))
    (Binary64_DTOR_err ((ntohs config.resolution : Nat) : ℚ))
    (requestMax_abs config) (requestMin_abs config) hρ.1 hρ.2
  push_cast
  exact this

/-! ## The capacity and the default request on `double` -/

/-- On `double` the request resolution 50, minAngle -12000, maxAngle +12000
is accepted from the constructor defaults and stores the sample count 480,
above the 401 slots of the range array. -/
theorem Binary64_capacity_exceeded :
    (Binary64.CheckConfig Binary64.CLaserDevice.new
      (some (wireConfig 50 (-12000) 12000 0))).ret = true ∧
    (Binary64.CheckConfig Binary64.CLaserDevice.new
      (some (wireConfig 50 (-12000) 12000 0))).dev.m_scan_count = 480 ∧
    ¬ ((Binary64.CheckConfig Binary64.CLaserDevice.new
        (some (wireConfig 50 (-12000) 12000 0))).dev.m_scan_count
      ≤ (PLAYER_NUM_LASER_SAMPLES : Int)) := by
  refine ⟨by decide!, by decide!, by decide!⟩

/-- On `double` a request of resolution 25 is accepted with a sample count
of at most 401. -/
theorem Binary64_fine_count_le (dev : CLaserDevice) (config : player_laser_config_t)
    (h25 : ntohs config.resolution = 25) :
    (Binary64.CheckConfig dev (some config)).ret = true ∧
    (Binary64.CheckConfig dev (some config)).dev.m_scan_count
      ≤ (PLAYER_NUM_LASER_SAMPLES : Int) := by
  have hret : (Binary64.CheckConfig dev (some config)).ret = true := by
    simp [Binary64.CheckConfig, h25]
  refine ⟨hret, ?_⟩
  obtain ⟨_, _, _, _, hcount⟩ := Binary64_CheckConfig_accepted dev config hret
  have hq := Binary64_CheckConfig_quotient dev config hret
  rw [h25] at hq
  have hA : Binary64.requestMax config - Binary64.requestMin config ≤ 10000 := by
    unfold Binary64.requestMax Binary64.requestMin
    rw [if_pos h25, if_pos h25]
    omega
  have hAq : ((Binary64.requestMax config - Binary64.requestMin config : Int) : ℚ) ≤ 10000 := by
    exact_mod_cast hA
  have hu := (abs_le.mp hq).2
  have hQ : Binary64.spanQuotient (Binary64.CheckConfig dev (some config)).dev < 401 := by
    have : ((Binary64.requestMax config - Binary64.requestMin config : Int) : ℚ)
        / ((25 : Nat) : ℚ) ≤ 400 := by
      rw [div_le_iff₀ (by norm_num)]
      have e : (400 : ℚ) * ((25 : Nat) : ℚ) = 10000 := by norm_num
      rw [e]
      exact hAq
    have hs : (1 : ℚ) / 2 ^ 36 < 1 := by norm_num
    linarith
  have ht : truncToInt (Binary64.spanQuotient (Binary64.CheckConfig dev (some config)).dev)
      ≤ 400 := by
    rcases le_or_lt 0 (Binary64.spanQuotient (Binary64.CheckConfig dev (some config)).dev)
      with h0 | h0
    · rw [truncToInt_of_nonneg h0]
      have : ⌊Binary64.spanQuotient (Binary64.CheckConfig dev (some config)).dev⌋ < 401 := by
        rw [Int.floor_lt]; exact_mod_cast hQ
      omega
    · rw [truncToInt_of_neg h0]
      have : ⌈Binary64.spanQuotient (Binary64.CheckConfig dev (some config)).dev⌉ ≤ 0 := by
        rw [Int.ceil_le]; exact_mod_cast h0.le
      omega
  rw [hcount]
  unfold PLAYER_NUM_LASER_SAMPLES
  omega

/-- On `double` the request resolution 50, minAngle -9000, maxAngle +9000
is accepted from every state and stores the values of the constructor:
361 samples and the same resolution and angles. -/
theorem Binary64_default_request (dev : CLaserDevice) (intensity : Nat) :
    (Binary64.CheckConfig dev (some (wireConfig 50 (-9000) 9000 intensity))).ret = true ∧
    (Binary64.CheckConfig dev (some (wireConfig 50 (-9000) 9000 intensity))).dev.m_scan_count
      = 361 ∧
    (Binary64.CheckConfig dev (some (wireConfig 50 (-9000) 9000 intensity))).dev.m_scan_res
      = Binary64.CLaserDevice.new.m_scan_res ∧
    (Binary64.CheckConfig dev (some (wireConfig 50 (-9000) 9000 intensity))).dev.m_scan_min
      = Binary64.CLaserDevice.new.m_scan_min ∧
    (Binary64.CheckConfig dev (some (wireConfig 50 (-9000) 9000 intensity))).dev.m_scan_max
      = Binary64.CLaserDevice.new.m_scan_max := by
  have hres : ntohs (wireConfig 50 (-9000) 9000 intensity).resolution = 50 := by
    show ntohs (htons 50) = 50
    decide
  have hret : (Binary64.CheckConfig dev (some (wireConfig 50 (-9000) 9000 intensity))).ret
      = true := by
    simp [Binary64.CheckConfig, hres]
  obtain ⟨_, e1, e2, e3, hcount⟩ :=
    Binary64_CheckConfig_accepted dev (wireConfig 50 (-9000) 9000 intensity) hret
  have hmin : Binary64.requestMin (wireConfig 50 (-9000) 9000 intensity) = -9000 := by
    unfold Binary64.requestMin
    rw [hres, if_neg (by decide)]
    show ntohsInt16 (toInt16 (htons (toUInt16 (-9000)))) = -9000
    decide
  have hmax : Binary64.requestMax (wireConfig 50 (-9000) 9000 intensity) = 9000 := by
    unfold Binary64.requestMax
    rw [hres, if_neg (by decide)]
    show ntohsInt16 (toInt16 (htons (toUInt16 9000))) = 9000
    decide
  have v1 : Binary64.DTOR (Binary64.fdiv ((50 : Nat) : ℚ) 100)
      = Binary64.CLaserDevice.new.m_scan_res := by decide!
  have v2 : Binary64.DTOR (Binary64.fdiv ((-9000 : Int) : ℚ) 100)
      = Binary64.CLaserDevice.new.m_scan_min := by decide!
  have v3 : Binary64.DTOR (Binary64.fdiv ((9000 : Int) : ℚ) 100)
      = Binary64.CLaserDevice.new.m_scan_max := by decide!
  have v4 : truncToInt (Binary64.fdiv
      (Binary64.fsub Binary64.CLaserDevice.new.m_scan_max Binary64.CLaserDevice.new.m_scan_min)
      Binary64.CLaserDevice.new.m_scan_res) + 1 = 361 := by decide!
  rw [hres, v1] at e1
  rw [hmin, v2] at e2
  rw [hmax, v3] at e3
  refine ⟨hret, ?_, e1, e2, e3⟩
  rw [hcount]
  unfold Binary64.spanQuotient
  rw [e1, e2, e3]
  exact v4

/-- On `double` a world whose lasers resolve 3.75 degrees gives the fresh
device (0.5 degrees per sample) `skip` = 6: the quotient comes out just
below 7.5. Over the exact rationals it is 7. -/
theorem Binary64_scanSkip_example :
    Binary64.scanSkip { ppm := 20, m_laser_res := Binary64.DTOR (375 / 100),
                        GetCell := fun _ _ => 0 } Binary64.CLaserDevice.new = 6 ∧
    scanSkip { ppm := 20, m_laser_res := DTOR (375 / 100), GetCell := fun _ _ => 0 }
      CLaserDevice.new = 7 := by
  refine ⟨by decide!, by decide!⟩

/-! ## Claims on `double` -/

/-- The integer part of a quotient of integers that is not whole, for the
divisors 25, 50 and 100. -/
theorem quotient_away_from_integers {A ρ : Int} (h1 : 25 ≤ ρ) (h2 : ρ ≤ 100) (hdvd : ¬ ρ ∣ A) :
    ((A / ρ : Int) : ℚ) + 1 / 100 ≤ (A : ℚ) / (ρ : ℚ) ∧
    (A : ℚ) / (ρ : ℚ) ≤ ((A / ρ : Int) : ℚ) + 99 / 100 := by
  have hρ : (0 : ℚ) < (ρ : ℚ) := by
    have : (0 : Int) < ρ := by omega
    exact_mod_cast this
  have hm0 : 0 ≤ A % ρ := Int.emod_nonneg A (by omega)
  have hm1 : A % ρ < ρ := Int.emod_lt_of_pos A (by omega)
  have hmne : A % ρ ≠ 0 := fun h0 => hdvd (Int.dvd_of_emod_eq_zero h0)
  have hdiv : ρ * (A / ρ) + A % ρ = A := Int.ediv_add_emod A ρ
  have hq : (A : ℚ) = (ρ : ℚ) * ((A / ρ : Int) : ℚ) + ((A % ρ : Int) : ℚ) := by
    exact_mod_cast hdiv.symm
  have hm0' : (1 : ℚ) ≤ ((A % ρ : Int) : ℚ) := by
    have : 1 ≤ A % ρ := by omega
    exact_mod_cast this
  have hm1' : ((A % ρ : Int) : ℚ) ≤ (ρ : ℚ) - 1 := by
    have : A % ρ ≤ ρ - 1 := by omega
    exact_mod_cast this
  have hρ1 : (25 : ℚ) ≤ (ρ : ℚ) := by exact_mod_cast h1
  have hρ2 : (ρ : ℚ) ≤ 100 := by exact_mod_cast h2
  constructor
  · rw [le_div_iff₀ hρ]
    nlinarith
  · rw [div_le_iff₀ hρ]
    nlinarith

/-- C1 (as amended). For every request that `CheckConfig` accepts, the
stored sample count is the quotient (maxAngle - minAngle) / angularResolution
of the stored values, computed on `double` as the code computes it (the
difference and the quotient each rounded to nearest) and truncated toward
zero, plus one. That quotient is within the relative error 3 * 2^-53 of the
exact quotient of the stored values, and within 2^-36 of A / r, where A is
the span maxAngle - minAngle of the request in centidegrees (after the
clamp) and r its resolution. So the count is trunc(A / r) + 1 whenever r
does not divide A, it is 1 when A is 0, and when r divides A it is A / r or
A / r + 1 for A > 0 and A / r + 1 or A / r + 2 for A < 0. -/
theorem C1_sample_count_double (dev : CLaserDevice) (config : player_laser_config_t)
    (h : (Binary64.CheckConfig dev (some config)).ret = true) :
    (Binary64.CheckConfig dev (some config)).dev.m_scan_count
      = truncToInt (Binary64.fdiv
          (Binary64.fsub (Binary64.CheckConfig dev (some config)).dev.m_scan_max
            (Binary64.CheckConfig dev (some config)).dev.m_scan_min)
          (Binary64.CheckConfig dev (some config)).dev.m_scan_res) + 1 ∧
    |Binary64.spanQuotient (Binary64.CheckConfig dev (some config)).dev
      - ((Binary64.CheckConfig dev (some config)).dev.m_scan_max
          - (Binary64.CheckConfig dev (some config)).dev.m_scan_min)
        / (Binary64.CheckConfig dev (some config)).dev.m_scan_res|
      ≤ 3 / 2 ^ 53 * |((Binary64.CheckConfig dev (some config)).dev.m_scan_max
          - (Binary64.CheckConfig dev (some config)).dev.m_scan_min)
        / (Binary64.CheckConfig dev (some config)).dev.m_scan_res| ∧
    |Binary64.spanQuotient (Binary64.CheckConfig dev (some config)).dev
      - ((Binary64.requestMax config - Binary64.requestMin config : Int) : ℚ)
        / ((ntohs config.resolution : Nat) : ℚ)| ≤ 1 / 2 ^ 36 ∧
    (¬ ((ntohs config.resolution : Nat) : Int)
        ∣ (Binary64.requestMax config - Binary64.requestMin config) →
      (Binary64.CheckConfig dev (some config)).dev.m_scan_count
        = truncToInt (((Binary64.requestMax config - Binary64.requestMin config : Int) : ℚ)
            / ((ntohs config.resolution : Nat) : ℚ)) + 1) ∧
    (Binary64.requestMax config - Binary64.requestMin config = 0 →
      (Binary64.CheckConfig dev (some config)).dev.m_scan_count = 1) ∧
    (((ntohs config.resolution : Nat) : Int)
        ∣ (Binary64.requestMax config - Binary64.requestMin config) →
      0 < Binary64.requestMax config - Binary64.requestMin config →
      (Binary64.CheckConfig dev (some config)).dev.m_scan_count
          = (Binary64.requestMax config - Binary64.requestMin config)
              / ((ntohs config.resolution : Nat) : Int) ∨
        (Binary64.CheckConfig dev (some config)).dev.m_scan_count
          = (Binary64.requestMax config - Binary64.requestMin config)
              / ((ntohs config.resolution : Nat) : Int) + 1) ∧
    (((ntohs config.resolution : Nat) : Int)
        ∣ (Binary64.requestMax config - Binary64.requestMin config) →
      Binary64.requestMax config - Binary64.requestMin config < 0 →
      (Binary64.CheckConfig dev (some config)).dev.m_scan_count
          = (Binary64.requestMax config - Binary64.requestMin config)
              / ((ntohs config.resolution : Nat) : Int) + 1 ∨
        (Binary64.CheckConfig dev (some config)).dev.m_scan_count
          = (Binary64.requestMax config - Binary64.requestMin config)
              / ((ntohs config.resolution : Nat) : Int) + 2) := by
  obtain ⟨hres, e1, e2, e3, hcount⟩ := Binary64_CheckConfig_accepted dev config h
  have hq := Binary64_CheckConfig_quotient dev config h
  have hρ1 : (25 : Int) ≤ ((ntohs config.resolution : Nat) : Int) := by
    rcases hres with hr | hr | hr <;> rw [hr] <;> norm_num
  have hρ2 : ((ntohs config.resolution : Nat) : Int) ≤ 100 := by
    rcases hres with hr | hr | hr <;> rw [hr] <;> norm_num
  have hρq : (0 : ℚ) < ((ntohs config.resolution : Nat) : ℚ) := by
    rcases hres with hr | hr | hr <;> rw [hr] <;> norm_num
  have hwhole : ((ntohs config.resolution : Nat) : Int)
        ∣ (Binary64.requestMax config - Binary64.requestMin config) →
      ((Binary64.requestMax config - Binary64.requestMin config : Int) : ℚ)
          / ((ntohs config.resolution : Nat) : ℚ)
        = (((Binary64.requestMax config - Binary64.requestMin config)
            / ((ntohs config.resolution : Nat) : Int) : Int) : ℚ) := by
    intro hd
    obtain ⟨n, hn⟩ := hd
    rw [hn, Int.mul_ediv_cancel_left n (by omega)]
    push_cast
    field_simp
  refine ⟨hcount, Binary64_spanQuotient_rel _, hq, ?_, ?_, ?_, ?_⟩
  · intro hdvd
    obtain ⟨b1, b2⟩ := quotient_away_from_integers hρ1 hρ2 hdvd
    rw [hcount]
    congr 1
    apply truncToInt_near (n := (Binary64.requestMax config - Binary64.requestMin config)
      / ((ntohs config.resolution : Nat) : Int))
    · exact_mod_cast b1
    · exact_mod_cast b2
    · exact hq
  · intro hzero
    have hmm : Binary64.requestMax config = Binary64.requestMin config := by omega
    rw [hcount]
    unfold Binary64.spanQuotient Binary64.fdiv Binary64.fsub
    rw [e2, e3, hmm, sub_self, Binary64.rnd_zero, zero_div, Binary64.rnd_zero]
    decide
  · intro hd hpos
    rw [hwhole hd] at hq
    have hn : 0 < (Binary64.requestMax config - Binary64.requestMin config)
        / ((ntohs config.resolution : Nat) : Int) := by
      obtain ⟨n, hn⟩ := hd
      rw [hn, Int.mul_ediv_cancel_left n (by omega)]
      rw [hn] at hpos
      by_contra hneg
      push_neg at hneg
      have : ((ntohs config.resolution : Nat) : Int) * n ≤ 0 :=
        Int.mul_nonpos_of_nonneg_of_nonpos (by omega) hneg
      omega
    rw [hcount]
    rcases truncToInt_near_pos hn hq with ht | ht <;> rw [ht]
    · left; omega
    · right; rfl
  · intro hd hneg
    rw [hwhole hd] at hq
    have hn : (Binary64.requestMax config - Binary64.requestMin config)
        / ((ntohs config.resolution : Nat) : Int) < 0 := by
      obtain ⟨n, hn⟩ := hd
      rw [hn, Int.mul_ediv_cancel_left n (by omega)]
      rw [hn] at hneg
      by_contra hpos
      push_neg at hpos
      have : 0 ≤ ((ntohs config.resolution : Nat) : Int) * n :=
        Int.mul_nonneg (by omega) hpos
      omega
    rw [hcount]
    rcases truncToInt_near_neg hn hq with ht | ht <;> rw [ht]
    · left; rfl
    · right; omega

/-- Witness for C1: the request resolution 100, minAngle -3000, maxAngle
+3000 is accepted; the resolution divides the span 6000, and the count is
60 = 6000 / 100, one of the two values the theorem leaves. -/
theorem C1_sample_count_double_witness :
    (Binary64.CheckConfig Binary64.CLaserDevice.new (some (wireConfig 100 (-3000) 3000 0))).ret
      = true ∧
    ((Binary64.CheckConfig Binary64.CLaserDevice.new
        (some (wireConfig 100 (-3000) 3000 0))).dev.m_scan_count
        = (Binary64.requestMax (wireConfig 100 (-3000) 3000 0)
            - Binary64.requestMin (wireConfig 100 (-3000) 3000 0))
          / ((ntohs (wireConfig 100 (-3000) 3000 0).resolution : Nat) : Int) ∨
      (Binary64.CheckConfig Binary64.CLaserDevice.new
        (some (wireConfig 100 (-3000) 3000 0))).dev.m_scan_count
        = (Binary64.requestMax (wireConfig 100 (-3000) 3000 0)
            - Binary64.requestMin (wireConfig 100 (-3000) 3000 0))
          / ((ntohs (wireConfig 100 (-3000) 3000 0).resolution : Nat) : Int) + 1) ∧
    (Binary64.CheckConfig Binary64.CLaserDevice.new
        (some (wireConfig 100 (-3000) 3000 0))).dev.m_scan_count = 60 :=
  ⟨by decide!,
   (C1_sample_count_double Binary64.CLaserDevice.new (wireConfig 100 (-3000) 3000 0)
      (by decide!)).2.2.2.2.2.1 (by decide) (by decide),
   by decide!⟩

/-- Counterexample to C1 as stated. The request resolution 50, minAngle 30,
maxAngle 0 is accepted and stores the sample count 1, while floor of the
exact quotient of the stored values, plus 1, is 0. And the default request
resolution 50, minAngle -9000, maxAngle +9000 is accepted with the stored
minAngle below the stored maxAngle and stores the sample count 361, while
floor of the exact quotient of the stored values, plus 1, is 360: the
exact quotient is just below 360 and the `double` quotient is 360. -/
theorem C1_floor_counterexample_double :
    (Binary64.CheckConfig Binary64.CLaserDevice.new (some (wireConfig 50 30 0 0))).ret = true ∧
    (Binary64.CheckConfig Binary64.CLaserDevice.new
      (some (wireConfig 50 30 0 0))).dev.m_scan_count = 1 ∧
    ⌊((Binary64.CheckConfig Binary64.CLaserDevice.new (some (wireConfig 50 30 0 0))).dev.m_scan_max
        - (Binary64.CheckConfig Binary64.CLaserDevice.new
            (some (wireConfig 50 30 0 0))).dev.m_scan_min)
        / (Binary64.CheckConfig Binary64.CLaserDevice.new
            (some (wireConfig 50 30 0 0))).dev.m_scan_res⌋ + 1 = 0 ∧
    (Binary64.CheckConfig Binary64.CLaserDevice.new
      (some (wireConfig 50 (-9000) 9000 0))).ret = true ∧
    (Binary64.CheckConfig Binary64.CLaserDevice.new
        (some (wireConfig 50 (-9000) 9000 0))).dev.m_scan_min
      ≤ (Binary64.CheckConfig Binary64.CLaserDevice.new
        (some (wireConfig 50 (-9000) 9000 0))).dev.m_scan_max ∧
    (Binary64.CheckConfig Binary64.CLaserDevice.new
      (some (wireConfig 50 (-9000) 9000 0))).dev.m_scan_count = 361 ∧
    ⌊((Binary64.CheckConfig Binary64.CLaserDevice.new
          (some (wireConfig 50 (-9000) 9000 0))).dev.m_scan_max
        - (Binary64.CheckConfig Binary64.CLaserDevice.new
            (some (wireConfig 50 (-9000) 9000 0))).dev.m_scan_min)
        / (Binary64.CheckConfig Binary64.CLaserDevice.new
            (some (wireConfig 50 (-9000) 9000 0))).dev.m_scan_res⌋ + 1 = 360 := by
  refine ⟨by decide!, by decide!, by decide!, by decide!, by decide!, by decide!, by decide!⟩

/-- The word and end point of a sample, from the result of its ray. -/
theorem Binary64_castSample_of_castRay (libm : LibM) (world : CWorld) (dev : CLaserDevice)
    (ox oy oth : ℚ) (fuel : Nat) (s : Int) (hit : RayHit)
    (h : Binary64.castRay libm world dev ox oy oth fuel s = some hit) :
    Binary64.castSample libm world dev ox oy oth fuel s
      = some (Binary64.rangeWord dev.m_intensity hit.range hit.intensity, hit.px, hit.py) := by
  unfold Binary64.castSample
  rw [h]

/-- The word of the range 4.99999999999999... is 4999. -/
theorem Binary64_word_4999 :
    Binary64.rangeWord Binary64.CLaserDevice.new.m_intensity
      (5629499534213109 / 1125899906842624) 0 = 4999 := by
  decide!

/-- The word of the range 8.04999999999998... is 8049. -/
theorem Binary64_word_8049 :
    Binary64.rangeWord Binary64.CLaserDevice.new.m_intensity
      (2265873562520775 / 281474976710656) 0 = 8049 := by
  decide!

/-- Sample 180 of the device fresh from the constructor has bearing 0. -/
theorem Binary64_bearing_180 :
    Binary64.fadd (Binary64.fmul ((180 : Int) : ℚ) Binary64.CLaserDevice.new.m_scan_res)
      Binary64.CLaserDevice.new.m_scan_min = 0 := by
  decide!

/-- The ray of sample 180 of the fresh device at pose (0, 0, 0) in the wall
world. -/
theorem Binary64_wall_example :
    (∀ j : Nat, j < 100 → ¬ Binary64.probesNonEmpty wallWorld (Binary64.fdiv 1 wallWorld.ppm)
      (Binary64.rayPoint axisLibM wallWorld Binary64.CLaserDevice.new 0 0 0 180 j).1
      (Binary64.rayPoint axisLibM wallWorld Binary64.CLaserDevice.new 0 0 0 180 j).2) ∧
    Binary64.probesNonEmpty wallWorld (Binary64.fdiv 1 wallWorld.ppm)
      (Binary64.rayPoint axisLibM wallWorld Binary64.CLaserDevice.new 0 0 0 180 100).1
      (Binary64.rayPoint axisLibM wallWorld Binary64.CLaserDevice.new 0 0 0 180 100).2 ∧
    Binary64.rayRange wallWorld 100 = 5629499534213109 / 1125899906842624 ∧
    Binary64.castRay axisLibM wallWorld Binary64.CLaserDevice.new 0 0 0 200 180
      = some { range := 5629499534213109 / 1125899906842624,
               px := 5629499534213109 / 1125899906842624, py := 0, intensity := 0 } := by
  obtain ⟨h1, h2, h3, h4⟩ :=
    Binary64_castRay_wall axisLibM wallWorld Binary64.CLaserDevice.new 180 200 rfl rfl
      Binary64_bearing_180 rfl rfl
      (by intro x y hx; simp [wallWorld, not_le.mpr hx])
      (by intro x y hx _; simp [wallWorld, hx]) (by decide)
  refine ⟨h1, h2, h3, ?_⟩
  rw [h4]
  have hi : (if Binary64.probeCell wallWorld (3602879701896397 / 72057594037927936)
      (5629499534213109 / 1125899906842624) 0 &&& 0x8F = 2 then 1 else 0 : Nat) = 0 := by
    decide!
  rw [hi]

/-- C7 (as amended). In `GenerateScanData`, on `double` and for a positive
world resolution: when `k` is the least step index at which the running
range is below rangeMax and one of the three probes is non-empty, the ray
loop of a sample returns the running range after `k` executions of
`range += dr`, which differs from the exact product `k * dr` by at most
`k * (rangeMax + dr) / 2^53`. And for a sensor at pose (0, 0, 0), world
resolution 20 pixels per metre (grid step 0.05 m), rangeMax 8 m, and a
world that is empty for x < 5 and occupied for 5 <= x < 5.05, the sample of
bearing 0 is stopped at step 100 with the range
5629499534213109 / 2^50 = 4.99999999999999..., within one grid step of
5.0 m. -/
theorem C7_first_hit_running_range :
    (∀ (libm : LibM) (world : CWorld) (dev : CLaserDevice) (ox oy oth : ℚ) (s : Int)
        (k fuel : Nat),
      0 < world.ppm →
      Binary64.rayRange world k < dev.m_max_range →
      Binary64.probesNonEmpty world (Binary64.fdiv 1 world.ppm)
        (Binary64.rayPoint libm world dev ox oy oth s k).1
        (Binary64.rayPoint libm world dev ox oy oth s k).2 →
      (∀ j : Nat, j < k → ¬ (Binary64.rayRange world j < dev.m_max_range ∧
        Binary64.probesNonEmpty world (Binary64.fdiv 1 world.ppm)
          (Binary64.rayPoint libm world dev ox oy oth s j).1
          (Binary64.rayPoint libm world dev ox oy oth s j).2)) →
      k < fuel →
      ∃ hit, Binary64.castRay libm world dev ox oy oth fuel s = some hit ∧
        hit.range = Binary64.rayRange world k ∧
        |hit.range - (k : ℚ) * Binary64.fdiv 1 world.ppm|
          ≤ (k : ℚ) * ((dev.m_max_range + Binary64.fdiv 1 world.ppm) / 2 ^ 53)) ∧
    (∀ (libm : LibM) (world : CWorld) (dev : CLaserDevice) (s : Int) (fuel : Nat),
      world.ppm = 20 →
      dev.m_max_range = 8 →
      Binary64.fadd (Binary64.fmul (s : ℚ) dev.m_scan_res) dev.m_scan_min = 0 →
      libm.cos 0 = 1 →
      libm.sin 0 = 0 →
      (∀ x y : ℚ, x < 5 → world.GetCell x y = 0) →
      (∀ x y : ℚ, 5 ≤ x → x < 5 + 1 / 20 → world.GetCell x y ≠ 0) →
      100 < fuel →
      ∃ hit, Binary64.castRay libm world dev 0 0 0 fuel s = some hit ∧
        hit.range = 5629499534213109 / 1125899906842624 ∧ |hit.range - 5| ≤ 1 / 20) := by
  constructor
  · intro libm world dev ox oy oth s k fuel hppm hin hhit hfree hfuel
    obtain ⟨hit, h1, h2, _⟩ :=
      Binary64_castRay_hit libm world dev ox oy oth s k fuel hppm hin hhit hfree hfuel
    refine ⟨hit, h1, h2, ?_⟩
    rw [h2]
    have hdr := Binary64_dr_pos hppm
    apply Binary64.runningSum_err hdr.le k
    intro j hj
    exact lt_of_le_of_lt (Binary64.runningSum_mono hdr.le hj.le) hin
  · intro libm world dev s fuel hppm hmax hb hcos hsin hfree hwall hfuel
    obtain ⟨_, _, _, h1⟩ :=
      Binary64_castRay_wall libm world dev s fuel hppm hmax hb hcos hsin hfree hwall hfuel
    refine ⟨_, h1, rfl, ?_⟩
    norm_num [abs_le]

/-- Witness for C7: the device fresh from the constructor at pose (0, 0, 0)
in the wall world; sample 180 has bearing 0, step 100 is the least step
with a non-empty probe, and the ray stops there. -/
theorem C7_first_hit_running_range_witness :
    (∃ hit, Binary64.castRay axisLibM wallWorld Binary64.CLaserDevice.new 0 0 0 200 180
        = some hit ∧
      hit.range = Binary64.rayRange wallWorld 100 ∧
      |hit.range - ((100 : Nat) : ℚ) * Binary64.fdiv 1 wallWorld.ppm|
        ≤ ((100 : Nat) : ℚ)
          * ((Binary64.CLaserDevice.new.m_max_range + Binary64.fdiv 1 wallWorld.ppm) / 2 ^ 53)) ∧
    (∃ hit, Binary64.castRay axisLibM wallWorld Binary64.CLaserDevice.new 0 0 0 200 180
        = some hit ∧
      hit.range = 5629499534213109 / 1125899906842624 ∧ |hit.range - 5| ≤ 1 / 20) :=
  ⟨C7_first_hit_running_range.1 axisLibM wallWorld Binary64.CLaserDevice.new 0 0 0 180 100 200
      (by decide!)
      (by rw [Binary64_wall_example.2.2.1]; decide!)
      Binary64_wall_example.2.1
      (fun j hj hcon => Binary64_wall_example.1 j hj hcon.2)
      (by decide),
   C7_first_hit_running_range.2 axisLibM wallWorld Binary64.CLaserDevice.new 180 200 rfl rfl
      Binary64_bearing_180 rfl rfl
      (by intro x y hx; simp [wallWorld, not_le.mpr hx])
      (by intro x y hx _; simp [wallWorld, hx]) (by decide)⟩

/-- Counterexample to C7 as stated: the device fresh from the constructor
at pose (0, 0, 0) in the wall world (grid step 0.05 m, rangeMax 8 m, solid
from x = 5 m on), sample 180 (bearing 0). Step 100 is the least step index
at which a probe is non-empty, and 100 * dr is below rangeMax; the range
computed is 4.99999999999999... (word 4999), not 100 * dr, whether dr is
the `double` nearest 0.05 or 0.05 itself. -/
theorem C7_exact_product_counterexample :
    Binary64.castRay axisLibM wallWorld Binary64.CLaserDevice.new 0 0 0 200 180
      = some { range := 5629499534213109 / 1125899906842624,
               px := 5629499534213109 / 1125899906842624, py := 0, intensity := 0 } ∧
    Binary64.castSample axisLibM wallWorld Binary64.CLaserDevice.new 0 0 0 200 180
      = some (4999, 5629499534213109 / 1125899906842624, 0) ∧
    Binary64.probesNonEmpty wallWorld (Binary64.fdiv 1 wallWorld.ppm)
      (Binary64.rayPoint axisLibM wallWorld Binary64.CLaserDevice.new 0 0 0 180 100).1
      (Binary64.rayPoint axisLibM wallWorld Binary64.CLaserDevice.new 0 0 0 180 100).2 ∧
    (∀ j : Nat, j < 100 → ¬ Binary64.probesNonEmpty wallWorld (Binary64.fdiv 1 wallWorld.ppm)
      (Binary64.rayPoint axisLibM wallWorld Binary64.CLaserDevice.new 0 0 0 180 j).1
      (Binary64.rayPoint axisLibM wallWorld Binary64.CLaserDevice.new 0 0 0 180 j).2) ∧
    (100 : ℚ) * Binary64.fdiv 1 wallWorld.ppm < Binary64.CLaserDevice.new.m_max_range ∧
    (5629499534213109 / 1125899906842624 : ℚ) ≠ 100 * Binary64.fdiv 1 wallWorld.ppm ∧
    (5629499534213109 / 1125899906842624 : ℚ) ≠ 100 * (1 / wallWorld.ppm) ∧
    (4999 : Nat) ≠ 1000 * 5 := by
  obtain ⟨h1, h2, _, h4⟩ := Binary64_wall_example
  refine ⟨h4, ?_, h2, h1, by decide!, by decide!, by decide!, by decide⟩
  rw [Binary64_castSample_of_castRay _ _ _ _ _ _ _ _ _ h4]
  show some (Binary64.rangeWord Binary64.CLaserDevice.new.m_intensity
    (5629499534213109 / 1125899906842624) 0, (5629499534213109 / 1125899906842624 : ℚ),
    (0 : ℚ)) = _
  rw [Binary64_word_4999]

/-- C8 (as amended). In `GenerateScanData`, on `double`, for every positive
world resolution whose grid step dr is not below rangeMax / 2^51, and every
ray along which all three probes are empty at every step: the ray loop
returns the first value of the running range (`range += dr`, from 0) that
is not below rangeMax. It is at least rangeMax; for a positive rangeMax it
is at most rangeMax + dr rounded, hence at most
(rangeMax + dr) * (1 + 2^-53); for a rangeMax that is not positive it is 0.
The sample is not marked reflectant, and the stored word is
1000 * range, rounded, converted to `uint16_t`, with no intensity bit. -/
theorem C8_no_hit_running_range (libm : LibM) (world : CWorld) (dev : CLaserDevice)
    (ox oy oth : ℚ) (s : Int) (fuel : Nat) (hppm : 0 < world.ppm)
    (hempty : ∀ j : Nat, ¬ Binary64.probesNonEmpty world (Binary64.fdiv 1 world.ppm)
      (Binary64.rayPoint libm world dev ox oy oth s j).1
      (Binary64.rayPoint libm world dev ox oy oth s j).2)
    (hstep : dev.m_max_range ≤ 2 ^ 51 * Binary64.fdiv 1 world.ppm)
    (hfuel : ⌈2 * dev.m_max_range / Binary64.fdiv 1 world.ppm⌉₊ < fuel) :
    ∃ (hit : RayHit) (k : Nat),
      Binary64.castRay libm world dev ox oy oth fuel s = some hit ∧
      hit.range = Binary64.rayRange world k ∧
      (∀ j : Nat, j < k → Binary64.rayRange world j < dev.m_max_range) ∧
      dev.m_max_range ≤ hit.range ∧
      (0 < dev.m_max_range →
        hit.range ≤ Binary64.fadd dev.m_max_range (Binary64.fdiv 1 world.ppm) ∧
        hit.range ≤ (dev.m_max_range + Binary64.fdiv 1 world.ppm) * (1 + 1 / 2 ^ 53)) ∧
      (dev.m_max_range ≤ 0 → hit.range = 0) ∧
      hit.intensity = 0 ∧
      Binary64.castSample libm world dev ox oy oth fuel s
        = some (toUInt16 (truncToInt (Binary64.fmul 1000 hit.range)), hit.px, hit.py) := by
  have hdr := Binary64_dr_pos hppm
  obtain ⟨k, hk1, hk2, hc⟩ :=
    Binary64_castRay_miss libm world dev ox oy oth s fuel hppm hempty hstep hfuel
  refine ⟨_, k, hc, rfl, hk1, hk2, ?_, ?_, rfl, ?_⟩
  · intro hmax
    show Binary64.rayRange world k ≤ _ ∧ Binary64.rayRange world k ≤ _
    cases k with
    | zero =>
      exfalso
      have : dev.m_max_range ≤ 0 := hk2
      linarith
    | succ n =>
      have hn := hk1 n (Nat.lt_succ_self n)
      have h0 : 0 ≤ Binary64.rayRange world n := Binary64.runningSum_nonneg hdr.le n
      have hle : Binary64.rayRange world n + Binary64.fdiv 1 world.ppm
          ≤ dev.m_max_range + Binary64.fdiv 1 world.ppm := by linarith
      have hm : Binary64.rayRange world (n + 1)
          ≤ Binary64.fadd dev.m_max_range (Binary64.fdiv 1 world.ppm) :=
        Binary64.rnd_mono hle
      refine ⟨hm, le_trans hm ?_⟩
      have herr := Binary64.rnd_err (dev.m_max_range + Binary64.fdiv 1 world.ppm)
      rw [abs_of_pos (by linarith : 0 < dev.m_max_range + Binary64.fdiv 1 world.ppm)] at herr
      have := (abs_le.mp herr).2
      show Binary64.rnd (dev.m_max_range + Binary64.fdiv 1 world.ppm) ≤ _
      have e : (dev.m_max_range + Binary64.fdiv 1 world.ppm) * (1 + 1 / 2 ^ 53)
          = (dev.m_max_range + Binary64.fdiv 1 world.ppm)
            + (dev.m_max_range + Binary64.fdiv 1 world.ppm) / 2 ^ 53 := by ring
      rw [e]; linarith
  · intro hmax
    show Binary64.rayRange world k = 0
    cases k with
    | zero => rfl
    | succ n =>
      exfalso
      have hn := hk1 0 (Nat.succ_pos n)
      have : (0 : ℚ) < dev.m_max_range := hn
      linarith
  · unfold Binary64.castSample
    rw [hc]
    simp only [Binary64_rangeWord_intensity_zero]

/-- Witness for C8: sample 180 of the device fresh from the constructor in
an empty world of resolution 20. -/
theorem C8_no_hit_running_range_witness :
    ∃ (hit : RayHit) (k : Nat),
      Binary64.castRay axisLibM (emptyWorld 20) Binary64.CLaserDevice.new 0 0 0 400 180
        = some hit ∧
      hit.range = Binary64.rayRange (emptyWorld 20) k ∧
      Binary64.CLaserDevice.new.m_max_range ≤ hit.range ∧
      hit.intensity = 0 := by
  obtain ⟨hit, k, h1, h2, _, h4, _, _, h7, _⟩ :=
    C8_no_hit_running_range axisLibM (emptyWorld 20) Binary64.CLaserDevice.new 0 0 0 180 400
      (by norm_num [emptyWorld])
      (by intro j h; simp [Binary64.probesNonEmpty, emptyWorld] at h)
      (by decide!)
      (by decide!)
  exact ⟨hit, k, h1, h2, h4, h7⟩

/-- Counterexample to C8 as stated: with the grid step 0.05 m (resolution 20
pixels per metre), rangeMax 8 m and no obstacle anywhere, the running range
is still below 8 m after 160 additions; the ray loop is left after 161
additions with range 8.04999999999998..., not 8 m, and the word stored is
8049, not 8000. -/
theorem C8_running_range_counterexample :
    (∀ x y : ℚ, (emptyWorld 20).GetCell x y = 0) ∧
    Binary64.CLaserDevice.new.m_max_range = 8 ∧
    Binary64.castRay axisLibM (emptyWorld 20) Binary64.CLaserDevice.new 0 0 0 200 180
      = some { range := 2265873562520775 / 281474976710656,
               px := 2265873562520775 / 281474976710656, py := 0, intensity := 0 } ∧
    Binary64.castSample axisLibM (emptyWorld 20) Binary64.CLaserDevice.new 0 0 0 200 180
      = some (8049, 2265873562520775 / 281474976710656, 0) ∧
    (2265873562520775 / 281474976710656 : ℚ) ≠ 8 ∧ (8049 : Nat) ≠ 1000 * 8 := by
  have hc := (Binary64_castRay_open axisLibM (emptyWorld 20) Binary64.CLaserDevice.new 180 200
    rfl rfl Binary64_bearing_180 rfl rfl (fun _ _ => rfl) (by decide)).2
  refine ⟨fun _ _ => rfl, rfl, hc, ?_, by norm_num, by decide⟩
  rw [Binary64_castSample_of_castRay _ _ _ _ _ _ _ _ _ hc]
  show some (Binary64.rangeWord Binary64.CLaserDevice.new.m_intensity
    (2265873562520775 / 281474976710656) 0, (2265873562520775 / 281474976710656 : ℚ),
    (0 : ℚ)) = _
  rw [Binary64_word_8049]

end Stage
